import Mathlib

/-!
Verification development for the rst2html-fast conversion core.

Rust strings are modelled as lists of Unicode scalar values (`Str := List Char`).
Wherever the source manipulates byte offsets (`str::len`, byte slicing in the
table engine, `dedent`), the model computes UTF-8 byte lengths explicitly and
models a byte slice that would panic (slice boundary inside a multi-byte
character) as `Option.none`.  Functions of the converter that can recurse into
nested block rendering carry an explicit fuel argument; exhausting the fuel is
also modelled as `none`, so `none` means "no normal result" (panic or
non-termination at that fuel).
-/

namespace Rst

/-- A Rust string, as its sequence of Unicode scalar values. -/
abbrev Str := List Char

/-- Shorthand for building a `Str` from a Lean string literal. -/
def rstr (s : String) : Str := s.data

/-- Rust `char::is_whitespace`: the Unicode `White_Space` property. -/
def rust_is_whitespace (c : Char) : Bool :=
  let n := c.toNat
  (9 ≤ n && n ≤ 13) || n == 32 || n == 0x85 || n == 0xA0 || n == 0x1680 ||
  (0x2000 ≤ n && n ≤ 0x200A) || n == 0x2028 || n == 0x2029 || n == 0x202F ||
  n == 0x205F || n == 0x3000

/-- Rust `str::trim_start`. -/
def trim_start (s : Str) : Str := s.dropWhile rust_is_whitespace

/-- Rust `str::trim_end`. -/
def trim_end (s : Str) : Str := (s.reverse.dropWhile rust_is_whitespace).reverse

/-- Rust `str::trim`. -/
def trim (s : Str) : Str := trim_end (trim_start s)

/-- UTF-8 length in bytes of one scalar value (Rust `char::len_utf8`). -/
def utf8_size (c : Char) : Nat :=
  if c.toNat < 0x80 then 1
  else if c.toNat < 0x800 then 2
  else if c.toNat < 0x10000 then 3
  else 4

/-- Rust `str::len`: length in UTF-8 bytes. -/
def utf8_len (s : Str) : Nat := (s.map utf8_size).sum

/-- The UTF-8 encoding of one scalar value. -/
def utf8_bytes (c : Char) : List Nat :=
  let n := c.toNat
  if n < 0x80 then [n]
  else if n < 0x800 then
    [0xC0 ||| (n >>> 6), 0x80 ||| (n &&& 0x3F)]
  else if n < 0x10000 then
    [0xE0 ||| (n >>> 12), 0x80 ||| ((n >>> 6) &&& 0x3F), 0x80 ||| (n &&& 0x3F)]
  else
    [0xF0 ||| (n >>> 18), 0x80 ||| ((n >>> 12) &&& 0x3F),
     0x80 ||| ((n >>> 6) &&& 0x3F), 0x80 ||| (n &&& 0x3F)]

/-- The UTF-8 byte sequence of a string (Rust `str::as_bytes`). -/
def str_bytes (s : Str) : List Nat := (s.map utf8_bytes).flatten

/-- The `i`-th UTF-8 byte of `s`, if in range (Rust `s.as_bytes()[i]` guarded). -/
def byte_at (s : Str) (i : Nat) : Option Nat := (str_bytes s).get? i

/-- Drop the first `n` UTF-8 bytes of `s`.  `none` when `n` is out of range or
not on a character boundary — the situations where Rust string slicing
`&s[n..]` panics. -/
def drop_bytes : Str → Nat → Option Str
  | s, 0 => some s
  | [], _ + 1 => none
  | c :: rest, n + 1 =>
    if utf8_size c ≤ n + 1 then drop_bytes rest (n + 1 - utf8_size c) else none

/-- Take the first `n` UTF-8 bytes of `s`; `none` on a non-boundary (panic). -/
def take_bytes : Str → Nat → Option Str
  | _, 0 => some []
  | [], _ + 1 => none
  | c :: rest, n + 1 =>
    if utf8_size c ≤ n + 1 then
      (take_bytes rest (n + 1 - utf8_size c)).map (c :: ·)
    else none

/-- Rust byte slice `&s[a..b]`: `none` exactly when Rust would panic. -/
def slice_bytes (s : Str) (a b : Nat) : Option Str :=
  if a ≤ b then
    match drop_bytes s a with
    | some t => take_bytes t (b - a)
    | none => none
  else none

/-- Split at every newline, keeping empty segments (helper for `rust_lines`). -/
def split_nl : Str → List Str
  | [] => [[]]
  | c :: rest =>
    if c = '\n' then [] :: split_nl rest
    else
      match split_nl rest with
      | [] => [[c]]
      | h :: t => (c :: h) :: t

/-- Strip one trailing carriage return (Rust `Lines` strips `\r` of `\r\n`). -/
def strip_cr (l : Str) : Str :=
  match l.getLast? with
  | some c => if c = '\r' then l.dropLast else l
  | none => l

/-- Rust `str::lines`. -/
def rust_lines (s : Str) : List Str :=
  if s.isEmpty then []
  else
    let parts := split_nl s
    let parts := if s.getLast? = some '\n' then parts.dropLast else parts
    parts.map strip_cr

/-- Rust `str::starts_with` for a string pattern. -/
def starts_with (s p : Str) : Bool := p.isPrefixOf s

/-- Rust `str::ends_with` for a string pattern. -/
def ends_with (s p : Str) : Bool := p.isSuffixOf s

/-- First index (in characters) at which `p` occurs as a substring of `s`;
content-equivalent to Rust `str::find`, which returns the byte offset. -/
def find_sub : Str → Str → Option Nat
  | s, p =>
    if p.isPrefixOf s then some 0
    else
      match s with
      | [] => none
      | _ :: rest => (find_sub rest p).map (· + 1)

/-- Whether `p` occurs as a substring of `s` (Rust `str::contains`). -/
def contains_sub (s p : Str) : Bool := (find_sub s p).isSome

/-- First index of character `c` in `s` (Rust `str::find(char)`). -/
def find_char (s : Str) (c : Char) : Option Nat := find_sub s [c]

/-- Last index of character `c` in `s` (Rust `str::rfind(char)`). -/
def rfind_char (s : Str) (c : Char) : Option Nat :=
  (s.reverse.findIdx? (· = c)).map (fun i => s.length - 1 - i)

/-- Last starting index of substring `p` in `s` (Rust `str::rfind(&str)`). -/
def rfind_sub (s p : Str) : Option Nat :=
  ((List.range (s.length + 1)).filter (fun i => p.isPrefixOf (s.drop i))).getLast?

/-- Remove every trailing occurrence of character `c`
(Rust `str::trim_end_matches(char)`). -/
def trim_end_matches_char (s : Str) (c : Char) : Str :=
  (s.reverse.dropWhile (· = c)).reverse

/-- Remove repeated occurrences of prefix `p`
(Rust `str::trim_start_matches(&str)`); fuel-bounded, each strip removes at
least one character so `s.length` steps always suffice. -/
def trim_start_matches_go : Nat → Str → Str → Str
  | 0, s, _ => s
  | fuel + 1, s, p =>
    if p ≠ [] ∧ p.isPrefixOf s then trim_start_matches_go fuel (s.drop p.length) p
    else s

def trim_start_matches (s p : Str) : Str := trim_start_matches_go (s.length + 1) s p

/-- Decimal rendering of a natural number (Rust integer `Display`). -/
def nat_to_str (n : Nat) : Str := (Nat.repr n).data

/-- Rust `usize::from_str`: optional `+` sign then nonempty ASCII digits.
Overflow of 64-bit values is not modelled; no verified claim reaches it. -/
def parse_usize (s : Str) : Option Nat :=
  let t := if s.headD ' ' = '+' then s.drop 1 else s
  if t ≠ [] ∧ t.all (·.isDigit) then
    some (t.foldl (fun a c => a * 10 + (c.toNat - 48)) 0)
  else none

/-- Rust `char::from_u32`. -/
def char_from_u32 (n : Nat) : Option Char :=
  if n < 0xD800 ∨ (0xE000 ≤ n ∧ n < 0x110000) then
    some (Char.ofNat n)
  else none

/-- Rust `u32::from_str_radix(_, 16)`: nonempty hex digits, optional `+`. -/
def parse_hex_u32 (s : Str) : Option Nat :=
  let t := if s.headD ' ' = '+' then s.drop 1 else s
  if t ≠ [] ∧ t.all (fun c => c.isDigit ∨ ('a' ≤ c ∧ c ≤ 'f') ∨ ('A' ≤ c ∧ c ≤ 'F')) then
    let v := t.foldl (fun a c =>
      a * 16 + (if c.isDigit then c.toNat - 48
                else if 'a' ≤ c then c.toNat - 87 else c.toNat - 55)) 0
    if v < 0x100000000 then some v else none
  else none

/-- Rust `u32::from_str`. -/
def parse_u32 (s : Str) : Option Nat :=
  match parse_usize s with
  | some v => if v < 0x100000000 then some v else none
  | none => none

/-- Rust `str::split_whitespace`; fuel-bounded (always sufficient: every token
or whitespace run consumes at least one character). -/
def split_ws_go : Nat → Str → List Str
  | 0, _ => []
  | fuel + 1, s =>
    match s.dropWhile rust_is_whitespace with
    | [] => []
    | c :: rest =>
      (c :: rest.takeWhile (fun x => ¬rust_is_whitespace x)) ::
        split_ws_go fuel (rest.dropWhile (fun x => ¬rust_is_whitespace x))

def split_whitespace (s : Str) : List Str := split_ws_go (s.length + 1) s

/-- Split on every occurrence of substring `p` (Rust `str::split(&str)`),
fuel-bounded; `p` is nonempty at every call site. -/
def split_on_sub_go : Nat → Str → Str → List Str
  | 0, s, _ => [s]
  | fuel + 1, s, p =>
    match find_sub s p with
    | some i =>
      if p = [] then [s]
      else (s.take i) :: split_on_sub_go fuel (s.drop (i + p.length)) p
    | none => [s]

def split_on_sub (s p : Str) : List Str := split_on_sub_go (s.length + 1) s p

/-- Split on a character (Rust `str::split(char)`). -/
def split_on_char (s : Str) (c : Char) : List Str := split_on_sub s [c]

/-- Rust `str::splitn(2, p)`: the part before the first occurrence of `p` and
the rest, or the whole string. -/
def splitn2 (s p : Str) : Str × Option Str :=
  match find_sub s p with
  | some i => (s.take i, some (s.drop (i + p.length)))
  | none => (s, none)

/-- Join with a separator (`Vec::join`). -/
def join_with (sep : Str) (ls : List Str) : Str := List.intercalate sep ls

/-- The byte count of a line's leading whitespace:
Rust `line.len() - line.trim_start().len()`. -/
def indent_of (line : Str) : Nat := utf8_len line - utf8_len (trim_start line)

/-- The backtick character. -/
def bq : Char := Char.ofNat 96

/-- The single-quote character. -/
def sq : Char := Char.ofNat 39

/-- The double-quote character. -/
def dq : Char := Char.ofNat 34

/-- The left-brace character. -/
def lbrace : Char := Char.ofNat 123

/-- The right-brace character. -/
def rbrace : Char := Char.ofNat 125

/-! ### html_utils.rs -/

/-- `html_utils::escape_html`.  The source scans bytes; since `&<>"` are ASCII
and slices between ASCII positions reassemble the remaining characters
verbatim, the per-character map below is extensionally the same function. -/
def escape_html : Str → Str
  | [] => []
  | c :: rest =>
    (if c = '&' then rstr "&amp;"
     else if c = '<' then rstr "&lt;"
     else if c = '>' then rstr "&gt;"
     else if c = dq then rstr "&quot;"
     else [c]) ++ escape_html rest

/-- The punctuation accepted by the middle arm of `process_rst_escapes`. -/
def rst_escape_char (c : Char) : Bool :=
  c = '\\' || c = '*' || c = bq || c = '_' || c = lbrace || c = rbrace ||
  c = '[' || c = ']' || c = '(' || c = ')' || c = '#' || c = '+' ||
  c = '-' || c = '.' || c = '!' || c = '~' || c = '|'

/-- `html_utils::process_rst_escapes`. -/
def process_rst_escapes : Str → Str
  | [] => []
  | [c] => if c = '\\' then ['\\'] else [c]
  | c :: next :: rest' =>
    if c = '\\' then
      if next = ' ' then process_rst_escapes rest'
      else if rst_escape_char next then next :: process_rst_escapes rest'
      else if next = '<' then rstr "&lt;" ++ process_rst_escapes rest'
      else if next = '>' then rstr "&gt;" ++ process_rst_escapes rest'
      else '\\' :: process_rst_escapes (next :: rest')
    else c :: process_rst_escapes (next :: rest')

/-- Rust `char::to_lowercase`, restricted to its ASCII action (the only case
the theorems below exercise; non-ASCII case mappings are left untouched). -/
def rust_to_lower (c : Char) : Char := c.toLower

/-- Rust `char::is_alphanumeric`, restricted to its ASCII fragment.  Every
structural theorem about `slugify` below holds for any such classifier. -/
def rust_is_alphanumeric (c : Char) : Bool := c.isAlphanum

/-- The accumulation loop of `html_utils::slugify`. -/
def slugify_go : Str → Str → Str
  | [], acc => acc
  | ch :: rest, acc =>
    if rust_is_alphanumeric ch then slugify_go rest (acc ++ [ch])
    else if ch = ' ' ∨ ch = '-' ∨ ch = '_' then
      if acc.getLast? = some '-' then slugify_go rest acc
      else slugify_go rest (acc ++ ['-'])
    else slugify_go rest acc

/-- `html_utils::slugify`. -/
def slugify (text : Str) : Str :=
  trim_end_matches_char (slugify_go (text.map rust_to_lower) []) '-'

/-- `html_utils::dedent`.  The removal `&line[min_indent..]` is a byte slice,
so a `min_indent` that falls inside a multi-byte character of some line is a
panic, modelled as `none`. -/
def dedent (text : Str) : Option Str :=
  let lines := rust_lines text
  if lines.isEmpty then some []
  else
    let indents := (lines.filter (fun l => ¬(trim l).isEmpty)).map indent_of
    let min_indent := match indents with
      | [] => 0
      | h :: t => t.foldl Nat.min h
    if min_indent = 0 then some text
    else
      match lines.mapM (fun l =>
        if min_indent ≤ utf8_len l then drop_bytes l min_indent else some l) with
      | some ls => some (join_with ['\n'] ls)
      | none => none

/-! ### parser.rs -/

/-- `parser::LineType`. -/
inductive LineType where
  | Empty : LineType
  | SectionAdornment : Char → LineType
  | BulletListItem : LineType
  | EnumeratedListItem : Str → LineType
  | FieldListItem : Str → Str → LineType
  | DirectiveStart : Str → Str → LineType
  | DirectiveOption : Str → Str → LineType
  | Comment : LineType
  | SubstitutionDef : Str → Str → Str → LineType
  | Target : Str → Str → LineType
  | Transition : LineType
  | LineBlockLine : LineType
  | LiteralBlockMarker : LineType
  | GridTableLine : LineType
  | SimpleTableBorder : LineType
  | DoctestBlock : LineType
  | IndentedLine : Nat → LineType
  | TextLine : LineType
deriving DecidableEq

/-- `parser::ADORNMENT_CHARS`. -/
def adornment_chars : List Char :=
  ['=', '-', '~', bq, ':', sq, dq, '^', '_', '*', '+', '#', '<', '>']

/-- `parser::is_valid_enum_marker`. -/
def is_valid_enum_marker (s : Str) : Bool :=
  if s.isEmpty then false
  else if s = rstr "#" then true
  else if s.all (·.isDigit) then true
  else if s.length = 1 ∧ (s.headD ' ').isAlpha then true
  else (s.map rust_to_lower).all fun c =>
    c = 'i' ∨ c = 'v' ∨ c = 'x' ∨ c = 'l' ∨ c = 'c' ∨ c = 'd' ∨ c = 'm'

/-- The first `.`/`)`/space break of the `char_indices` scan shared by the
enumerated-item detectors: its index and the character found there. -/
def enum_break (s : Str) : Option (Nat × Char) :=
  (s.findIdx? (fun c => c = '.' ∨ c = ')' ∨ c = ' ')).map (fun i => (i, s.getD i ' '))

/-- `parser::is_enumerated_list_item`. -/
def is_enumerated_list_item (s : Str) : Bool :=
  if starts_with s (rstr "(") then
    match find_char s ')' with
    | some close =>
      is_valid_enum_marker ((s.drop 1).take (close - 1)) ∧ s.get? (close + 1) = some ' '
    | none => false
  else
    match enum_break s with
    | some (i, c) =>
      if c = ' ' then false
      else if 0 < i then
        is_valid_enum_marker (s.take i) ∧ s.get? (i + 1) = some ' '
      else false
    | none => false

/-- `parser::extract_enum_marker`. -/
def extract_enum_marker (s : Str) : Str :=
  if starts_with s (rstr "(") then
    match find_char s ')' with
    | some close => s.take (close + 1)
    | none =>
      match s.findIdx? (fun c => c = '.' ∨ c = ')') with
      | some i => s.take (i + 1)
      | none => []
  else
    match s.findIdx? (fun c => c = '.' ∨ c = ')') with
    | some i => s.take (i + 1)
    | none => []

/-- The `.. `-line analysis of `parser::classify_line` (substitution
definition, target, directive start, comment). -/
def classify_dotdot (rest : Str) : LineType :=
  let sub :=
    if starts_with rest (rstr "|") then
      match find_char (rest.drop 1) '|' with
      | some pipe_end =>
        let name := (rest.drop 1).take pipe_end
        let after := trim ((rest.drop 1).drop (pipe_end + 1))
        match find_sub after (rstr "::") with
        | some colon_pos =>
          some (LineType.SubstitutionDef name (trim (after.take colon_pos))
            (trim (after.drop (colon_pos + 2))))
        | none => none
      | none => none
    else none
  match sub with
  | some t => t
  | none =>
    let tgt :=
      if starts_with rest (rstr "_") then
        let target_rest := rest.drop 1
        match find_sub target_rest (rstr ": ") with
        | some colon_pos =>
          some (LineType.Target (trim (target_rest.take colon_pos))
            (trim (target_rest.drop (colon_pos + 2))))
        | none =>
          if ends_with target_rest (rstr ":") then
            some (LineType.Target (trim target_rest.dropLast) [])
          else none
      else none
    match tgt with
    | some t => t
    | none =>
      match find_sub rest (rstr "::") with
      | some colon_pos =>
        let name := trim (rest.take colon_pos)
        if name ≠ [] ∧ ¬name.contains ' ' then
          LineType.DirectiveStart name (trim (rest.drop (colon_pos + 2)))
        else LineType.Comment
      | none => LineType.Comment

/-- `parser::classify_line`. -/
def classify_line (line : Str) : LineType :=
  if (trim line).isEmpty then LineType.Empty
  else
    if starts_with (trim line) (rstr ">>>") then LineType.DoctestBlock
    else if starts_with (trim line) (rstr "| ") ∨ trim line = rstr "|" then
      LineType.LineBlockLine
    else if trim line = rstr "::" then LineType.LiteralBlockMarker
    else if starts_with (trim line) (rstr "+") ∧
        ((trim line).contains '-' ∨ (trim line).contains '=') ∧
        ends_with (trim line) (rstr "+") then
      LineType.GridTableLine
    else if starts_with (trim line) (rstr "|") ∧ ends_with (trim line) (rstr "|") then
      LineType.GridTableLine
    else if (trim line).all (fun c => c = '=' ∨ c = ' ') ∧ (trim line).contains '=' ∧
        (trim line).contains ' ' then
      LineType.SimpleTableBorder
    else if 4 ≤ utf8_len (trim line) ∧
        adornment_chars.contains ((trim line).headD ' ') ∧
        (trim line).all (· = (trim line).headD ' ') then
      LineType.SectionAdornment ((trim line).headD ' ')
    else if starts_with (trim line) (rstr ".. ") then
      classify_dotdot ((trim line).drop 3)
    else
      match
        (if starts_with (trim line) (rstr ":") ∧
            ¬starts_with (trim line) (rstr "::") then
          match find_char ((trim line).drop 1) ':' with
          | some second_colon =>
            let name := ((trim line).drop 1).take second_colon
            if name ≠ [] ∧ ¬name.contains '\n' then
              some (LineType.FieldListItem name
                (trim ((trim line).drop (second_colon + 2))))
            else none
          | none => none
        else none) with
      | some t => t
      | none =>
        if (starts_with (trim line) (rstr "- ") ∨
            starts_with (trim line) (rstr "* ") ∨
            starts_with (trim line) (rstr "+ ")) ∧ 2 < utf8_len (trim line) then
          LineType.BulletListItem
        else if is_enumerated_list_item (trim line) then
          LineType.EnumeratedListItem (extract_enum_marker (trim line))
        else
          match
            (if 0 < indent_of line ∧ starts_with (trim line) (rstr ":") then
              match find_char ((trim line).drop 1) ':' with
              | some end_colon =>
                let name := ((trim line).drop 1).take end_colon
                if ¬name.contains ' ' ∨ utf8_len name < 30 then
                  some (LineType.DirectiveOption name
                    (trim ((trim line).drop (end_colon + 2))))
                else none
              | none => none
            else none) with
          | some t => t
          | none =>
            if 0 < indent_of line then LineType.IndentedLine (indent_of line)
            else LineType.TextLine

/-! ### roles.rs -/

/-- `roles::parse_display_and_target`. -/
def parse_display_and_target (content : Str) : Option (Str × Str) :=
  match rfind_char content '<' with
  | some angle_start =>
    if ends_with content (rstr ">") then
      let display := trim (content.take angle_start)
      let target := (content.drop (angle_start + 1)).dropLast
      if display ≠ [] then some (display, target) else none
    else none
  | none => none

/-- `roles::render_ref_role`. -/
def render_ref_role (content : Str) : Str :=
  match parse_display_and_target content with
  | some (display, target) =>
    rstr "<a href=\"#" ++ escape_html target ++ rstr "\" class=\"reference internal\">" ++
      escape_html display ++ rstr "</a>"
  | none =>
    rstr "<a href=\"#" ++ escape_html content ++ rstr "\" class=\"reference internal\">" ++
      escape_html content ++ rstr "</a>"

/-- `roles::render_doc_role`. -/
def render_doc_role (content : Str) : Str :=
  match parse_display_and_target content with
  | some (display, target) =>
    let href := if ends_with target (rstr ".html") then target else target ++ rstr ".html"
    rstr "<a href=\"" ++ escape_html href ++ rstr "\" class=\"reference internal\">" ++
      escape_html display ++ rstr "</a>"
  | none =>
    rstr "<a href=\"" ++ escape_html (content ++ rstr ".html") ++
      rstr "\" class=\"reference internal\">" ++ escape_html content ++ rstr "</a>"

/-- `roles::render_term_role`. -/
def render_term_role (content : Str) : Str :=
  match parse_display_and_target content with
  | some (display, target) =>
    rstr "<a href=\"#term-" ++ slugify target ++ rstr "\" class=\"reference internal\">" ++
      escape_html display ++ rstr "</a>"
  | none =>
    rstr "<a href=\"#term-" ++ slugify content ++ rstr "\" class=\"reference internal\">" ++
      escape_html content ++ rstr "</a>"

/-- `roles::render_abbr_role`. -/
def render_abbr_role (content : Str) : Str :=
  match find_char content '(' with
  | some paren_start =>
    if ends_with content (rstr ")") then
      let abbr := trim (content.take paren_start)
      let expansion := (content.drop (paren_start + 1)).dropLast
      rstr "<abbr title=\"" ++ escape_html expansion ++ rstr "\">" ++
        escape_html abbr ++ rstr "</abbr>"
    else rstr "<abbr>" ++ escape_html content ++ rstr "</abbr>"
  | none => rstr "<abbr>" ++ escape_html content ++ rstr "</abbr>"

/-- Wrap escaped content in a fixed tag pair (the repeated format pattern of
`render_role`). -/
def tag_wrap (opening closing : String) (content : Str) : Str :=
  rstr opening ++ escape_html content ++ rstr closing

/-- `roles::render_role`. -/
def render_role (role content : Str) : Str :=
  if role = rstr "emphasis" then tag_wrap "<em>" "</em>" content
  else if role = rstr "strong" then tag_wrap "<strong>" "</strong>" content
  else if role = rstr "literal" ∨ role = rstr "code" then tag_wrap "<code>" "</code>" content
  else if role = rstr "subscript" ∨ role = rstr "sub" then tag_wrap "<sub>" "</sub>" content
  else if role = rstr "superscript" ∨ role = rstr "sup" then tag_wrap "<sup>" "</sup>" content
  else if role = rstr "title-reference" ∨ role = rstr "title" ∨ role = rstr "t" then
    tag_wrap "<cite>" "</cite>" content
  else if role = rstr "kbd" then tag_wrap "<kbd>" "</kbd>" content
  else if role = rstr "dfn" then tag_wrap "<dfn>" "</dfn>" content
  else if role = rstr "samp" then tag_wrap "<samp>" "</samp>" content
  else if role = rstr "guilabel" then
    tag_wrap "<span class=\"guilabel\">" "</span>" content
  else if role = rstr "menuselection" then
    tag_wrap "<span class=\"menuselection\">" "</span>" content
  else if role = rstr "file" then tag_wrap "<code class=\"file\">" "</code>" content
  else if role = rstr "command" then
    tag_wrap "<strong class=\"command\">" "</strong>" content
  else if role = rstr "program" then
    tag_wrap "<strong class=\"program\">" "</strong>" content
  else if role = rstr "option" then tag_wrap "<code class=\"option\">" "</code>" content
  else if role = rstr "envvar" then tag_wrap "<code class=\"envvar\">" "</code>" content
  else if role = rstr "makevar" then tag_wrap "<code class=\"makevar\">" "</code>" content
  else if role = rstr "math" then
    tag_wrap "<span class=\"math-inline\">" "</span>" content
  else if role = rstr "ref" then render_ref_role content
  else if role = rstr "doc" then render_doc_role content
  else if role = rstr "term" then render_term_role content
  else if role = rstr "abbr" ∨ role = rstr "abbreviation" then render_abbr_role content
  else if role = rstr "pep" then
    rstr "<a href=\"https://peps.python.org/pep-" ++ content ++ rstr "/\">PEP " ++
      content ++ rstr "</a>"
  else if role = rstr "rfc" then
    rstr "<a href=\"https://datatracker.ietf.org/doc/html/rfc" ++ content ++
      rstr "\">RFC " ++ content ++ rstr "</a>"
  else if role = rstr "class" ∨ role = rstr "func" ∨ role = rstr "meth" ∨
      role = rstr "mod" ∨ role = rstr "attr" ∨ role = rstr "exc" ∨ role = rstr "obj" ∨
      role = rstr "data" ∨ role = rstr "const" ∨ role = rstr "type" then
    tag_wrap "<code class=\"xref\">" "</code>" content
  else
    rstr "<span class=\"role-" ++ escape_html role ++ rstr "\">" ++
      escape_html content ++ rstr "</span>"

/-! ### inline.rs -/

/-- `inline::is_rst_escapable`. -/
def is_rst_escapable (c : Char) : Bool :=
  c = '_' || c = lbrace || c = rbrace || c = '[' || c = ']' || c = '(' || c = ')' ||
  c = '#' || c = '+' || c = '-' || c = '.' || c = '!' || c = '~' || c = '|'

/-- `inline::is_inline_start`. -/
def is_inline_start (pos : Nat) (chars : Str) : Bool :=
  if pos = 0 then true
  else
    let prev := chars.getD (pos - 1) ' '
    rust_is_whitespace prev || prev = '(' || prev = '[' || prev = lbrace ||
    prev = '<' || prev = '/' || prev = sq || prev = dq || prev = '-'

/-- Countdown loop of `inline::find_inline_code_end`; the fuel (list length)
always covers the scan, which advances one position per step. -/
def find_inline_code_end_go (chars : Str) : Nat → Nat → Option Nat
  | 0, _ => none
  | k + 1, i =>
    if i + 1 < chars.length then
      if chars.getD i ' ' = bq ∧ chars.getD (i + 1) ' ' = bq then some i
      else find_inline_code_end_go chars k (i + 1)
    else none

/-- `inline::find_inline_code_end`. -/
def find_inline_code_end (chars : Str) (start : Nat) : Option Nat :=
  find_inline_code_end_go chars (chars.length + 1) start

def find_triple_star_end_go (chars : Str) : Nat → Nat → Option Nat
  | 0, _ => none
  | k + 1, i =>
    if i + 2 < chars.length then
      if chars.getD i ' ' = '*' ∧ chars.getD (i + 1) ' ' = '*' ∧
          chars.getD (i + 2) ' ' = '*' then some i
      else find_triple_star_end_go chars k (i + 1)
    else none

/-- `inline::find_triple_star_end`. -/
def find_triple_star_end (chars : Str) (start : Nat) : Option Nat :=
  find_triple_star_end_go chars (chars.length + 1) start

def find_double_star_end_go (chars : Str) : Nat → Nat → Option Nat
  | 0, _ => none
  | k + 1, i =>
    if i + 1 < chars.length then
      if chars.getD i ' ' = '*' ∧ chars.getD (i + 1) ' ' = '*' ∧
          (¬(i + 2 < chars.length) ∨ chars.getD (i + 2) ' ' ≠ '*') then some i
      else find_double_star_end_go chars k (i + 1)
    else none

/-- `inline::find_double_star_end` (a double-star closer is rejected when a
third star follows). -/
def find_double_star_end (chars : Str) (start : Nat) : Option Nat :=
  find_double_star_end_go chars (chars.length + 1) start

def find_single_star_end_go (chars : Str) : Nat → Nat → Option Nat
  | 0, _ => none
  | k + 1, i =>
    if i < chars.length then
      if chars.getD i ' ' = '*' ∧
          (¬(i + 1 < chars.length) ∨ chars.getD (i + 1) ' ' ≠ '*') then some i
      else find_single_star_end_go chars k (i + 1)
    else none

/-- `inline::find_single_star_end`. -/
def find_single_star_end (chars : Str) (start : Nat) : Option Nat :=
  find_single_star_end_go chars (chars.length + 1) start

/-- `inline::try_parse_role`.  The two interior scans of the source's `while`
loops are expressed with `findIdx?` over the remaining suffix. -/
def try_parse_role (chars : Str) (start : Nat) : Option (Str × Str × Nat) :=
  if ¬(start < chars.length) ∨ chars.getD start ' ' ≠ ':' then none
  else
    match (chars.drop (start + 1)).findIdx?
        (fun c => c = ':' ∨ c = bq ∨ rust_is_whitespace c) with
    | none => none
    | some k =>
      let i := start + 1 + k
      if chars.getD i ' ' ≠ ':' then none
      else
        let role_name := (chars.drop (start + 1)).take k
        if role_name.isEmpty then none
        else if chars.get? (i + 1) ≠ some bq then none
        else
          match (chars.drop (i + 2)).findIdx? (· = bq) with
          | none => none
          | some m =>
            some (role_name, (chars.drop (i + 2)).take m, i + 2 + m + 1)

/-- The scan of `inline::try_parse_external_link` for a backtick immediately
followed by an underscore. -/
def find_link_close_go (chars : Str) : Nat → Nat → Option Nat
  | 0, _ => none
  | k + 1, i =>
    if i < chars.length then
      if chars.getD i ' ' = bq ∧ i + 1 < chars.length ∧ chars.getD (i + 1) ' ' = '_' then
        some i
      else find_link_close_go chars k (i + 1)
    else none

/-- `inline::try_parse_external_link`. -/
def try_parse_external_link (chars : Str) (start : Nat) : Option (Str × Str × Nat) :=
  if ¬(start < chars.length) ∨ chars.getD start ' ' ≠ bq then none
  else
    match find_link_close_go chars (chars.length + 1) (start + 1) with
    | none => none
    | some i =>
      let text := (chars.take i).drop (start + 1)
      let end_pos := if i + 2 < chars.length ∧ chars.getD (i + 2) ' ' = '_' then i + 3
        else i + 2
      match rfind_char text '<' with
      | some angle_start =>
        if ends_with text (rstr ">") then
          some (trim (text.take angle_start), (text.drop (angle_start + 1)).dropLast,
            end_pos)
        else none
      | none => none

/-- `inline::try_parse_substitution_ref`. -/
def try_parse_substitution_ref (chars : Str) (start : Nat) : Option (Str × Nat) :=
  if ¬(start < chars.length) ∨ chars.getD start ' ' ≠ '|' then none
  else
    match (chars.drop (start + 1)).findIdx? (fun c => c = '|' ∨ c = '\n') with
    | none => none
    | some k =>
      if chars.getD (start + 1 + k) ' ' ≠ '|' then none
      else
        let name := (chars.drop (start + 1)).take k
        if name.isEmpty then none else some (name, start + 1 + k + 1)

/-- Prepend emitted output to the rest of an optional scan result. -/
def emit (out : Str) (rest : Option Str) : Option Str := rest.map (out ++ ·)

/-- The character loop of `inline::process_inline`.  The source recurses into
itself for bold/italic inner content with a fresh traversal; here the one fuel
counter is threaded through, which yields the same values because
`length + 1` fuel is enough for a scan (each step advances the position, and
nested content is shorter than the distance to the end). -/
def pi_go : Nat → Str → Nat → Option Str
  | 0, _, _ => none
  | fuel + 1, chars, i =>
    if i < chars.length then
      let c := chars.getD i ' '
      -- Backslash escape
      if c = '\\' ∧ i + 1 < chars.length then
        let next := chars.getD (i + 1) ' '
        if next = ' ' then pi_go fuel chars (i + 2)
        else if next = '\\' then emit ['\\'] (pi_go fuel chars (i + 2))
        else if next = '*' then emit ['*'] (pi_go fuel chars (i + 2))
        else if next = bq then emit [bq] (pi_go fuel chars (i + 2))
        else if next = '<' then emit (rstr "&lt;") (pi_go fuel chars (i + 2))
        else if next = '>' then emit (rstr "&gt;") (pi_go fuel chars (i + 2))
        else if is_rst_escapable next then emit [next] (pi_go fuel chars (i + 2))
        else emit ['\\'] (pi_go fuel chars (i + 1))
      -- Inline code ``...``
      else if _h : i + 1 < chars.length ∧ c = bq ∧ chars.getD (i + 1) ' ' = bq ∧
          (find_inline_code_end chars (i + 2)).isSome then
        match find_inline_code_end chars (i + 2) with
        | some e =>
          emit (rstr "<code>" ++ escape_html ((chars.take e).drop (i + 2)) ++
            rstr "</code>") (pi_go fuel chars (e + 2))
        | none => none
      -- Role :name:`content`
      else if _h : c = ':' ∧ (try_parse_role chars i).isSome then
        match try_parse_role chars i with
        | some (role_name, content, end_pos) =>
          emit (render_role role_name content) (pi_go fuel chars end_pos)
        | none => none
      -- Bold+italic ***text***
      else if _h : i + 2 < chars.length ∧ c = '*' ∧ chars.getD (i + 1) ' ' = '*' ∧
          chars.getD (i + 2) ' ' = '*' ∧ is_inline_start i chars ∧
          (find_triple_star_end chars (i + 3)).isSome then
        match find_triple_star_end chars (i + 3) with
        | some e =>
          emit (rstr "<strong><em>" ++ escape_html ((chars.take e).drop (i + 3)) ++
            rstr "</em></strong>") (pi_go fuel chars (e + 3))
        | none => none
      -- Bold **text** (inner content reprocessed)
      else if _h : i + 1 < chars.length ∧ c = '*' ∧ chars.getD (i + 1) ' ' = '*' ∧
          is_inline_start i chars ∧ (find_double_star_end chars (i + 2)).isSome then
        match find_double_star_end chars (i + 2) with
        | some e =>
          match pi_go fuel ((chars.take e).drop (i + 2)) 0 with
          | some inner =>
            emit (rstr "<strong>" ++ inner ++ rstr "</strong>") (pi_go fuel chars (e + 2))
          | none => none
        | none => none
      -- Italic *text* (inner content reprocessed)
      else if _h : c = '*' ∧ is_inline_start i chars ∧
          (find_single_star_end chars (i + 1)).isSome then
        match find_single_star_end chars (i + 1) with
        | some e =>
          match pi_go fuel ((chars.take e).drop (i + 1)) 0 with
          | some inner =>
            emit (rstr "<em>" ++ inner ++ rstr "</em>") (pi_go fuel chars (e + 1))
          | none => none
        | none => none
      -- External link `text <url>`_
      else if _h : c = bq ∧ (try_parse_external_link chars i).isSome then
        match try_parse_external_link chars i with
        | some (text_part, url, end_pos) =>
          emit (rstr "<a href=\"" ++ escape_html url ++ rstr "\">" ++
            escape_html text_part ++ rstr "</a>") (pi_go fuel chars end_pos)
        | none => none
      -- Substitution reference |name| (left as placeholder)
      else if _h : c = '|' ∧ (try_parse_substitution_ref chars i).isSome then
        match try_parse_substitution_ref chars i with
        | some (name, end_pos) =>
          emit (rstr "|" ++ name ++ rstr "|") (pi_go fuel chars end_pos)
        | none => none
      -- Default: entity-escape the character
      else
        emit (if c = '&' then rstr "&amp;" else if c = '<' then rstr "&lt;"
          else if c = '>' then rstr "&gt;" else [c]) (pi_go fuel chars (i + 1))
    else some []

/-- `inline::process_inline`.  The fuel `length + 1` always suffices, so the
default `[]` of `getD` is never produced. -/
def process_inline (text : Str) : Str := (pi_go (text.length + 1) text 0).getD []

/-! ### lists.rs -/

/-- `lists::is_option_line`.  The source tests bytes; for ASCII tests on the
first bytes this coincides with the character tests below (a multi-byte
character's lead byte is never ASCII-alphanumeric, and the character itself is
never ASCII-alphanumeric). -/
def is_option_line (line : Str) : Bool :=
  match trim line with
  | [] => false
  | c :: rest =>
    if c = '-' then
      match rest with
      | [] => false
      | c2 :: rest2 =>
        if c2 = '-' then
          match rest2 with
          | c3 :: _ => c3.isAlphanum
          | [] => false
        else c2.isAlphanum
    else if c = '/' then
      match rest with
      | c2 :: _ => c2.isAlphanum
      | [] => false
    else false

/-- `lists::is_option_list`. -/
def is_option_list (text : Str) : Bool :=
  let lines := (rust_lines text).filter (fun l => ¬(trim l).isEmpty)
  if lines.isEmpty then false
  else
    let option_count := (lines.filter (fun l => is_option_line (trim l))).length
    0 < option_count ∧ lines.length ≤ option_count * 2

/-- The scan of `lists::find_description_start`, with the running flag and
position made explicit. -/
def find_description_start_go : Str → Bool → Nat → Option Nat
  | [], _, _ => none
  | c :: rest, found, i =>
    if c ≠ ' ' then find_description_start_go rest true (i + 1)
    else if found ∧ rest.headD 'x' = ' ' ∧ ¬rest.isEmpty then some i
    else find_description_start_go rest found (i + 1)

/-- `lists::find_description_start`. -/
def find_description_start (s : Str) : Option Nat := find_description_start_go s false 0

/-- `lists::parse_option_line`. -/
def parse_option_line (line : Str) : Str × Str :=
  let trimmed := trim line
  match find_description_start trimmed with
  | some pos => (trim (trimmed.take pos), trim (trimmed.drop pos))
  | none => (trimmed, [])

/-- One `<dt>/<dd>` pair of `lists::convert_option_list`. -/
def col_flush (opt desc : Str) : Str :=
  if opt ≠ [] then
    rstr "<dt><code>" ++ escape_html opt ++ rstr "</code></dt>\n<dd>" ++
      process_inline (trim desc) ++ rstr "</dd>\n"
  else []

/-- The line loop of `lists::convert_option_list`. -/
def col_go : List Str → Str → Str → Str
  | [], opt, desc => col_flush opt desc
  | l :: rest, opt, desc =>
    let trimmed := trim l
    if trimmed.isEmpty then col_go rest opt desc
    else if is_option_line trimmed then
      let parsed := parse_option_line trimmed
      col_flush opt desc ++ col_go rest parsed.1 parsed.2
    else
      col_go rest opt (if desc ≠ [] then desc ++ [' '] ++ trimmed else desc ++ trimmed)

/-- `lists::convert_option_list`. -/
def convert_option_list (text : Str) (line_num : Nat) (add_data_line : Bool) : Str :=
  let data_line := if add_data_line then
    rstr " data-line=\"" ++ nat_to_str line_num ++ rstr "\"" else []
  rstr "<dl class=\"option-list\"" ++ data_line ++ rstr ">\n" ++
    col_go (rust_lines text) [] [] ++ rstr "</dl>"

/-- `lists::strip_bullet_marker`. -/
def strip_bullet_marker (line : Str) : Str :=
  let trimmed := trim_start line
  if starts_with trimmed (rstr "- ") ∨ starts_with trimmed (rstr "* ") ∨
      starts_with trimmed (rstr "+ ") then
    trimmed.drop 2
  else if starts_with trimmed (rstr "-") ∨ starts_with trimmed (rstr "*") ∨
      starts_with trimmed (rstr "+") then
    if 1 < utf8_len trimmed then trim_start (trimmed.drop 1) else []
  else line

/-- `lists::is_valid_enumerator`; the source duplicates
`parser::is_valid_enum_marker` verbatim. -/
def is_valid_enumerator (s : Str) : Bool := is_valid_enum_marker s

/-- `lists::strip_enumerated_marker`. -/
def strip_enumerated_marker (line : Str) : Str :=
  let trimmed := trim_start line
  let paren :=
    if starts_with trimmed (rstr "(") then
      match find_char trimmed ')' with
      | some close =>
        if is_valid_enumerator ((trimmed.drop 1).take (close - 1)) then
          some (trim_start (trimmed.drop (close + 1)))
        else none
      | none => none
    else none
  match paren with
  | some r => r
  | none =>
    let dot :=
      match find_sub trimmed (rstr ". ") with
      | some dot_pos =>
        if is_valid_enumerator (trimmed.take dot_pos) then
          some (trimmed.drop (dot_pos + 2))
        else none
      | none => none
    match dot with
    | some r => r
    | none =>
      match find_sub trimmed (rstr ") ") with
      | some paren_pos =>
        if is_valid_enumerator (trimmed.take paren_pos) then
          trimmed.drop (paren_pos + 2)
        else line
      | none => line

/-! ### tables.rs -/

/-- `tables::is_simple_border`. -/
def is_simple_border (line : Str) : Bool :=
  ¬line.isEmpty ∧ line.all (fun c => c = '=' ∨ c = ' ') ∧ line.contains '='

/-- `tables::is_simple_table`. -/
def is_simple_table (text : Str) : Bool :=
  let lines := rust_lines text
  if lines.length < 3 then false
  else is_simple_border (trim (lines.headD [])) ∧
    is_simple_border (trim (lines.getLastD []))

/-- `tables::is_dash_separator`. -/
def is_dash_separator (line : Str) : Bool :=
  ¬line.isEmpty ∧ line.all (fun c => c = '-' ∨ c = ' ' ∨ c = '=') ∧
    (line.contains '-' ∨ line.contains '=')

/-- The byte loop of `tables::parse_column_boundaries`.  The source's loop
spins forever on a byte that is neither a space nor `=`; that situation is
unreachable (every caller passes a validated border of `=` and space bytes)
and modelled as stopping. -/
def pcb_go : Nat → List Nat → Nat → List (Nat × Nat)
  | 0, _, _ => []
  | fuel + 1, bytes, pos =>
    match bytes with
    | [] => []
    | b :: rest =>
      if b = 32 then pcb_go fuel rest (pos + 1)
      else if b = 61 then
        let run := rest.takeWhile (· = 61)
        (pos, pos + 1 + run.length) ::
          pcb_go fuel (rest.dropWhile (· = 61)) (pos + 1 + run.length)
      else []

/-- `tables::parse_column_boundaries` (positions are byte offsets). -/
def parse_column_boundaries (border : Str) : List (Nat × Nat) :=
  pcb_go ((str_bytes border).length + 1) (str_bytes border) 0

/-- `tables::extract_cells`: slices each column range out of the raw line at
byte offsets; a boundary inside a multi-byte character is Rust's slicing
panic, modelled as `none`. -/
def extract_cells (line : Str) (boundaries : List (Nat × Nat)) : Option (List Str) :=
  let len := utf8_len line
  boundaries.mapM (fun se =>
    let s := min se.1 len
    let e := min se.2 len
    if s < len then (slice_bytes line s e).map trim
    else some [])

/-- `tables::find_double_backtick_end`. -/
def find_double_backtick_end_go (chars : Str) : Nat → Nat → Option Nat
  | 0, _ => none
  | k + 1, i =>
    if i + 1 < chars.length then
      if chars.getD i ' ' = bq ∧ chars.getD (i + 1) ' ' = bq then some i
      else find_double_backtick_end_go chars k (i + 1)
    else none

def find_double_backtick_end (chars : Str) (start : Nat) : Option Nat :=
  find_double_backtick_end_go chars (chars.length + 1) start

/-- `tables::find_double_star_end` (unlike the inline engine's, it does not
exclude a following third star). -/
def find_double_star_end_t_go (chars : Str) : Nat → Nat → Option Nat
  | 0, _ => none
  | k + 1, i =>
    if i + 1 < chars.length then
      if chars.getD i ' ' = '*' ∧ chars.getD (i + 1) ' ' = '*' then some i
      else find_double_star_end_t_go chars k (i + 1)
    else none

def find_double_star_end_t (chars : Str) (start : Nat) : Option Nat :=
  find_double_star_end_t_go chars (chars.length + 1) start

/-- `tables::find_single_star_end` (same semantics as the inline engine's). -/
def find_single_star_end_t (chars : Str) (start : Nat) : Option Nat :=
  find_single_star_end chars start

/-- The bounded entity scan at a `&` in
`tables::process_inline_already_escaped`: the position just after the scanned
run (at most 9 further characters). -/
def entity_end_go (chars : Str) (limit : Nat) : Nat → Nat → Nat
  | 0, j => j
  | k + 1, j =>
    if j < chars.length ∧ j < limit ∧ chars.getD j ' ' ≠ ';' ∧
        ¬rust_is_whitespace (chars.getD j ' ') then
      entity_end_go chars limit k (j + 1)
    else j

def entity_end (chars : Str) (i : Nat) : Nat :=
  entity_end_go chars (i + 10) 10 (i + 1)

/-- The character loop of `tables::process_inline_already_escaped`; fuel
`length + 1` always suffices (each step advances the position). -/
def piae_go : Nat → Str → Nat → Str
  | 0, _, _ => []
  | fuel + 1, chars, i =>
    if i < chars.length then
      let c := chars.getD i ' '
      if c = '&' then
        let j := entity_end chars i
        if j < chars.length ∧ chars.getD j ' ' = ';' then
          ((chars.take (j + 1)).drop i) ++ piae_go fuel chars (j + 1)
        else rstr "&amp;" ++ piae_go fuel chars (i + 1)
      else if i + 1 < chars.length ∧ c = bq ∧ chars.getD (i + 1) ' ' = bq ∧
          (find_double_backtick_end chars (i + 2)).isSome then
        match find_double_backtick_end chars (i + 2) with
        | some e =>
          rstr "<code>" ++ escape_html ((chars.take e).drop (i + 2)) ++
            rstr "</code>" ++ piae_go fuel chars (e + 2)
        | none => []
      else if i + 1 < chars.length ∧ c = '*' ∧ chars.getD (i + 1) ' ' = '*' ∧
          (find_double_star_end_t chars (i + 2)).isSome then
        match find_double_star_end_t chars (i + 2) with
        | some e =>
          rstr "<strong>" ++ escape_html ((chars.take e).drop (i + 2)) ++
            rstr "</strong>" ++ piae_go fuel chars (e + 2)
        | none => []
      else if c = '*' ∧ (find_single_star_end_t chars (i + 1)).isSome then
        match find_single_star_end_t chars (i + 1) with
        | some e =>
          rstr "<em>" ++ escape_html ((chars.take e).drop (i + 1)) ++
            rstr "</em>" ++ piae_go fuel chars (e + 1)
        | none => []
      else
        (if c = '<' then rstr "&lt;" else if c = '>' then rstr "&gt;" else [c]) ++
          piae_go fuel chars (i + 1)
    else []

/-- `tables::process_inline_already_escaped`. -/
def process_inline_already_escaped (text : Str) : Str :=
  piae_go (text.length + 1) text 0

/-- `tables::process_inline_with_escapes`. -/
def process_inline_with_escapes (text : Str) : Str :=
  let unescaped := process_rst_escapes text
  if text.contains '\\' then process_inline_already_escaped unescaped
  else process_inline text

/-- One rendered cell of `tables::convert_simple_table` (URL auto-link or
inline processing). -/
def cst_cell (cell : Str) : Str :=
  if contains_sub cell (rstr "http://") ∨ contains_sub cell (rstr "https://") then
    if starts_with cell (rstr "http://") ∨ starts_with cell (rstr "https://") then
      let url := trim cell
      rstr "<a href=\"" ++ escape_html url ++ rstr "\">" ++ escape_html url ++ rstr "</a>"
    else process_inline_with_escapes cell
  else process_inline_with_escapes cell

/-- The row loop of `tables::convert_simple_table`, over the enumerated
lines, threading the `in_header` flag and the header row count. -/
def cst_go (boundaries : List (Nat × Nat)) (border_positions : List Nat)
    (has_header : Bool) : List (Nat × Str) → Bool → Nat → Option Str
  | [], _, _ => some []
  | (i, line) :: rest, in_header, hrc =>
    let trimmed := trim line
    if is_simple_border trimmed then
      if has_header ∧ border_positions.getD 1 0 = i ∧ 0 < hrc then
        emit (rstr "</thead>\n<tbody>\n") (cst_go boundaries border_positions has_header rest false hrc)
      else cst_go boundaries border_positions has_header rest in_header hrc
    else if is_dash_separator trimmed ∧ trimmed.contains '-' ∧
        ¬trimmed.any rust_is_alphanumeric then
      cst_go boundaries border_positions has_header rest in_header hrc
    else
      match extract_cells line boundaries with
      | none => none
      | some cells =>
        let tag := if in_header then rstr "th" else rstr "td"
        let row := rstr "<tr>" ++
          (cells.map (fun cell =>
            rstr "<" ++ tag ++ rstr ">" ++ cst_cell cell ++ rstr "</" ++ tag ++ rstr ">")).flatten ++
          rstr "</tr>\n"
        emit row (cst_go boundaries border_positions has_header rest in_header
          (if in_header then hrc + 1 else hrc))

/-- `tables::convert_simple_table`. -/
def convert_simple_table (text : Str) : Option Str :=
  let lines := rust_lines text
  if lines.length < 3 then some (rstr "<p>" ++ escape_html text ++ rstr "</p>")
  else
    let border := trim (lines.headD [])
    let boundaries := parse_column_boundaries border
    if boundaries.length < 1 then some (rstr "<p>" ++ escape_html text ++ rstr "</p>")
    else
      let border_positions :=
        (lines.enum.filter (fun p => is_simple_border (trim p.2))).map (·.1)
      let has_header := 3 ≤ border_positions.length
      match cst_go boundaries border_positions has_header lines.enum has_header 0 with
      | none => none
      | some body =>
        some (rstr "<table class=\"simple-table\">\n" ++
          (if has_header then rstr "<thead>\n" else []) ++ body ++
          (if has_header then rstr "</tbody>\n" else []) ++ rstr "</table>")

/-- `tables::is_grid_table`. -/
def is_grid_table (text : Str) : Bool :=
  let lines := rust_lines text
  if lines.length < 3 then false
  else
    let first := trim (lines.headD [])
    starts_with first (rstr "+") ∧ ends_with first (rstr "+") ∧
      (first.contains '-' ∨ first.contains '=')

/-- `tables::parse_grid_columns` (positions are character indices of the
`chars().enumerate()` scan, later used as byte offsets by `detect_spans`). -/
def parse_grid_columns (border : Str) : List Nat :=
  (border.enum.filter (fun p => p.2 = '+')).map (·.1)

/-- `tables::is_grid_border`. -/
def is_grid_border (line : Str) : Bool :=
  ¬line.isEmpty ∧ starts_with line (rstr "+") ∧ ends_with line (rstr "+") ∧
    line.all (fun c => c = '+' ∨ c = '-' ∨ c = '=' ∨ c = ' ')

/-- `tables::extract_grid_cells`: byte slices guided by the column
positions; a non-boundary is Rust's slicing panic (`none`). -/
def extract_grid_cells (line : Str) (col_positions : List Nat) : Option (List Str) :=
  let len := utf8_len line
  (col_positions.zip col_positions.tail).mapM (fun p =>
    let start := min (p.1 + 1) len
    let e := min p.2 len
    if start < e then
      (slice_bytes line start e).map (fun cell => trim (trim_end_matches_char cell '|'))
    else some [])

/-- `tables::SpannedCell`. -/
structure SpannedCell where
  content : Str
  colspan : Nat
  rowspan : Nat
  skip : Bool
deriving DecidableEq

/-- The inner `check_col` scan of `detect_spans`: the span up to the next
border `+`, if one is found before the last column. -/
def ds_scan_span (num_cols : Nat) (col_positions : List Nat)
    (border_bytes : List Nat) (col : Nat) : Nat → Nat → Option Nat
  | 0, _ => none
  | fuel + 1, check_col =>
    if check_col < num_cols then
      match col_positions.get? (check_col + 1) with
      | some cp =>
        if cp < border_bytes.length ∧ border_bytes.getD cp 0 = 43 then
          some (check_col - col + 1)
        else ds_scan_span num_cols col_positions border_bytes col fuel (check_col + 1)
      | none => ds_scan_span num_cols col_positions border_bytes col fuel (check_col + 1)
    else none

/-- The span computation of one cell in `tables::detect_spans`: the border
above decides how many columns the cell covers. -/
def ds_span (num_cols : Nat) (col_positions border_bytes : List Nat)
    (col : Nat) : Nat :=
  match col_positions.get? (col + 1) with
  | some pos =>
    if pos < border_bytes.length ∧ border_bytes.getD pos 0 ≠ 43 then
      match ds_scan_span num_cols col_positions border_bytes col
          (num_cols + 1) (col + 1) with
      | some sp => sp
      | none => num_cols - col
    else 1
  | none => 1

/-- One row of `tables::detect_spans`: the column loop inferring column
spans from the border above, cell content from the content lines, and the
2-row span heuristic from the border below.  Each step consumes at least one
column, so `num_cols + 1` fuel always suffices. -/
def ds_row_go (num_cols : Nat) (col_positions : List Nat) (border_bytes : List Nat)
    (next_border_bytes : List Nat) (content_lines : List Str) :
    Nat → Nat → Option (List SpannedCell)
  | 0, _ => some []
  | fuel + 1, col =>
    if col < num_cols then
      let span := ds_span num_cols col_positions border_bytes col
      let cell_start := col_positions.getD col 0 + 1
      let cell_end := (col_positions.get? (col + span)).getD
        ((col_positions.getLast?).getD cell_start)
      match content_lines.mapM (fun content_line =>
          let lb := utf8_len content_line
          let s := min cell_start lb
          let e := min cell_end lb
          if s < e then
            (slice_bytes content_line s e).map
              (fun sl => some (trim (trim_end_matches_char sl '|')))
          else some none) with
      | none => none
      | some cell_lines =>
        let content := trim (join_with (rstr "\n") cell_lines.reduceOption)
        let left_pos := col_positions.getD col 0
        let rowspan :=
          if left_pos < next_border_bytes.length ∧
              next_border_bytes.getD left_pos 0 = 43 then
            let has_separator :=
              if cell_start < next_border_bytes.length then
                next_border_bytes.getD cell_start 0 = 45 ∨
                  next_border_bytes.getD cell_start 0 = 61
              else False
            if ¬has_separator then 2 else 1
          else 1
        match ds_row_go num_cols col_positions border_bytes next_border_bytes
            content_lines fuel (col + span) with
        | none => none
        | some rest =>
          some (SpannedCell.mk content span rowspan false :: rest)
    else some []

/-- The border-pair loop of `tables::detect_spans`, building one row per pair
of consecutive border lines that has content lines between them. -/
def ds_rows (lines : List Str) (num_cols : Nat) (col_positions : List Nat) :
    List (Nat × Nat) → Option (List (List SpannedCell))
  | [] => some []
  | (start, stop) :: pairs =>
    let content_lines :=
      ((lines.drop (start + 1)).take (stop - start - 1)).filter
        (fun l => starts_with (trim l) (rstr "|"))
    if content_lines.isEmpty then ds_rows lines num_cols col_positions pairs
    else
      match ds_row_go num_cols col_positions (str_bytes (lines.getD start []))
          (str_bytes (lines.getD stop [])) content_lines (num_cols + 1) 0 with
      | none => none
      | some row =>
        match ds_rows lines num_cols col_positions pairs with
        | none => none
        | some rest => some (row :: rest)

/-- The default cell (for out-of-range lookups that the source never makes). -/
def default_cell : SpannedCell := { content := [], colspan := 1, rowspan := 1, skip := false }

/-- Set the `skip` flag of the cell at row `r`, cell index `c`, when both
indices are in range (the guard of the marking loop). -/
def set_skip (rows : List (List SpannedCell)) (r c : Nat) : List (List SpannedCell) :=
  match rows.get? r with
  | some row =>
    match row.get? c with
    | some cell => rows.set r (row.set c { cell with skip := true })
    | none => rows
  | none => rows

/-- Mark the cells covered by the row span of the cell at `(r, c)`. -/
def mark_one (rows : List (List SpannedCell)) (r c : Nat) : List (List SpannedCell) :=
  let rs := ((rows.getD r []).getD c default_cell).rowspan
  if 1 < rs then
    (List.range (rs - 1)).foldl (fun acc k => set_skip acc (r + k + 1) c) rows
  else rows

/-- The skip-marking pass of `tables::detect_spans`. -/
def mark_skips (rows : List (List SpannedCell)) : List (List SpannedCell) :=
  (List.range rows.length).foldl
    (fun acc r =>
      (List.range ((acc.getD r []).length)).foldl (fun acc2 c => mark_one acc2 r c) acc)
    rows

/-- `tables::detect_spans`. -/
def detect_spans (lines : List Str) (col_positions : List Nat) :
    Option (List (List SpannedCell)) :=
  if col_positions.length ≤ 1 then some []
  else
    let num_cols := col_positions.length - 1
    let border_indices :=
      (lines.enum.filter (fun p => is_grid_border (trim p.2))).map (·.1)
    if border_indices.length < 2 then some []
    else
      match ds_rows lines num_cols col_positions
          (border_indices.zip border_indices.tail) with
      | none => none
      | some rows => some (mark_skips rows)

/-- `tables::process_cell_list`. -/
def process_cell_list (content : Str) : Str :=
  rstr "<ul>" ++
    ((rust_lines content).map (fun line =>
      let trimmed := trim line
      if starts_with trimmed (rstr "- ") then
        rstr "<li>" ++ process_inline (trimmed.drop 2) ++ rstr "</li>"
      else [])).flatten ++
    rstr "</ul>"

/-- `tables::process_cell_code_block`. -/
def process_cell_code_block (content : Str) : Option Str :=
  let lines := rust_lines content
  if lines.isEmpty then some []
  else
    let first := trim (lines.headD [])
    let lang :=
      match rfind_sub first (rstr "::") with
      | some pos => trim (first.drop (pos + 2))
      | none => []
    let code_lines := (lines.drop 1).dropWhile (fun l => (trim l).isEmpty)
    match dedent (join_with (rstr "\n") code_lines) with
    | none => none
    | some code =>
      let lang_class :=
        if lang ≠ [] then rstr " class=\"language-" ++ escape_html lang ++ rstr "\""
        else []
      some (rstr "<pre><code" ++ lang_class ++ rstr ">" ++ escape_html code ++
        rstr "</code></pre>")

/-- `tables::process_grid_cell_content`. -/
def process_grid_cell_content (content : Str) : Option Str :=
  let trimmed := trim content
  if trimmed.isEmpty then some []
  else if starts_with trimmed (rstr ".. code-block::") ∨
      starts_with trimmed (rstr ".. code::") then
    process_cell_code_block trimmed
  else if starts_with trimmed (rstr "- ") then some (process_cell_list trimmed)
  else if trimmed.contains '\n' then
    let lines := rust_lines trimmed
    if lines.all (fun l => starts_with (trim l) (rstr "- ")) then
      some (process_cell_list trimmed)
    else some (process_inline (join_with (rstr " ") (lines.map trim)))
  else some (process_inline trimmed)

/-- The row-rendering loop of `tables::convert_grid_table`. -/
def cgt_rows (header_end_row : Nat) : List (Nat × List SpannedCell) → Bool → Option Str
  | [], _ => some []
  | (row_idx, row) :: rest, in_header =>
    let leave := in_header ∧ header_end_row ≤ row_idx
    let in_header' := if leave then false else in_header
    let tag := if row_idx < header_end_row then rstr "th" else rstr "td"
    match row.mapM (fun cell =>
        if cell.skip then some []
        else
          let attrs :=
            (if 1 < cell.colspan then
              rstr " colspan=\"" ++ nat_to_str cell.colspan ++ rstr "\"" else []) ++
            (if 1 < cell.rowspan then
              rstr " rowspan=\"" ++ nat_to_str cell.rowspan ++ rstr "\"" else [])
          match process_grid_cell_content cell.content with
          | some c => some (rstr "<" ++ tag ++ attrs ++ rstr ">" ++ c ++ rstr "</" ++ tag ++ rstr ">")
          | none => none) with
    | none => none
    | some cells =>
      emit ((if leave then rstr "</thead>\n<tbody>\n" else []) ++ rstr "<tr>" ++
        cells.flatten ++ rstr "</tr>\n") (cgt_rows header_end_row rest in_header')

/-- `tables::convert_grid_table`. -/
def convert_grid_table (text : Str) : Option Str :=
  let lines := rust_lines text
  if lines.length < 3 then some (rstr "<p>" ++ escape_html text ++ rstr "</p>")
  else
    let col_positions := parse_grid_columns (lines.headD [])
    if col_positions.isEmpty then some (rstr "<p>" ++ escape_html text ++ rstr "</p>")
    else
      let header_end := (lines.enum.find? (fun p =>
        let trimmed := trim p.2
        starts_with trimmed (rstr "+") ∧ trimmed.contains '=' ∧
          ¬trimmed.contains '-')).map (·.1)
      -- The source's row-accumulation loop also calls `extract_grid_cells` on
      -- every non-border content line (its results are unused, but its byte
      -- slicing can panic), so the same extraction is checked here.
      match (lines.filter (fun l =>
          ¬is_grid_border (trim l) ∧ starts_with (trim l) (rstr "|"))).mapM
          (fun l => extract_grid_cells l col_positions) with
      | none => none
      | some _ =>
        match detect_spans lines col_positions with
        | none => none
        | some parsed_rows =>
          let header_end_row :=
            match header_end with
            | some he =>
              ((lines.enum.filter (fun p =>
                p.1 < he ∧ 0 < p.1 ∧ is_grid_border (trim p.2)))).length
            | none => 0
          match cgt_rows header_end_row parsed_rows.enum header_end.isSome with
          | none => none
          | some body =>
            let in_header_final := header_end.isSome ∧
              parsed_rows.enum.all (fun p => p.1 < header_end_row)
            some (rstr "<table class=\"grid-table\">\n" ++
              (if header_end.isSome then rstr "<thead>\n" else []) ++ body ++
              (if ¬in_header_final ∧ header_end.isSome then rstr "</tbody>\n" else []) ++
              rstr "</table>")

/-- `tables::parse_csv_line`. -/
def parse_csv_line_go : Str → Str → Bool → List Str
  | [], cur, _ => [cur]
  | c :: rest, cur, inq =>
    if c = dq then parse_csv_line_go rest cur (!inq)
    else if c = ',' ∧ ¬inq then cur :: parse_csv_line_go rest [] inq
    else parse_csv_line_go rest (cur ++ [c]) inq

def parse_csv_line (line : Str) : List Str := parse_csv_line_go line [] false

/-- Whether a string parses as a Rust `f64`; approximated by the usual
decimal forms.  Floating-point arithmetic itself is outside the scope of the
embedding and no verified claim depends on the column-width texts. -/
def parses_f64 (s : Str) : Bool :=
  let t := if s.headD ' ' = '+' ∨ s.headD ' ' = '-' then s.drop 1 else s
  ¬t.isEmpty ∧ t.all (fun c => c.isDigit ∨ c = '.') ∧
    (t.filter (· = '.')).length ≤ 1 ∧ t.any (·.isDigit)

/-- Placeholder for the `{:.1}` rendering of a floating-point width
percentage: IEEE-754 division and formatting are not modelled (floating
point is out of scope); no verified claim depends on this text. -/
def pct_text (_n _ws : Str) : Str := []

/-- The `<colgroup>` block of `tables::convert_csv_table`. -/
def csv_colgroup (w : Str) : Str :=
  rstr "<colgroup>\n" ++
    (((split_on_char w ',').map trim).map (fun width =>
      if parses_f64 width then
        rstr "<col style=\"width: " ++ pct_text width w ++ rstr "%\">\n"
      else [])).flatten ++
    rstr "</colgroup>\n"

/-- The alignment attribute shared by the CSV and list tables. -/
def table_align_style (align : Option Str) : Str :=
  match align with
  | some a =>
    if a = rstr "center" then rstr " style=\"margin-left: auto; margin-right: auto;\""
    else if a = rstr "left" then rstr " style=\"margin-right: auto;\""
    else if a = rstr "right" then rstr " style=\"margin-left: auto;\""
    else []
  | none => []

/-- `tables::convert_csv_table`. -/
def convert_csv_table (title : Str) (headers : Option Str) (widths : Option Str)
    (align : Option Str) (content : Str) : Str :=
  rstr "<table class=\"csv-table\"" ++ table_align_style align ++ rstr ">\n" ++
  (if ¬title.isEmpty then rstr "<caption>" ++ escape_html title ++ rstr "</caption>\n"
   else []) ++
  (match widths with
   | some w => csv_colgroup w
   | none => []) ++
  (match headers with
   | some h =>
     rstr "<thead>\n<tr>" ++
       ((parse_csv_line h).map (fun cell =>
         rstr "<th>" ++ process_inline (trim cell) ++ rstr "</th>")).flatten ++
       rstr "</tr>\n</thead>\n"
   | none => []) ++
  rstr "<tbody>\n" ++
  ((rust_lines content).map (fun line =>
    let trimmed := trim line
    if trimmed.isEmpty then []
    else
      rstr "<tr>" ++
        ((parse_csv_line trimmed).map (fun cell =>
          rstr "<td>" ++ process_inline (trim cell) ++ rstr "</td>")).flatten ++
        rstr "</tr>\n")).flatten ++
  rstr "</tbody>\n</table>"

/-- The state step of `tables::parse_list_table_rows`:
(rows so far, current row, current cell, inside a row). -/
def pltr_go : List Str → List (List Str) → List Str → Str → Bool → List (List Str)
  | [], rows, current_row, current_cell, in_row =>
    if in_row then
      rows ++ [if ¬current_cell.isEmpty then current_row ++ [current_cell] else current_row]
    else rows
  | line :: rest, rows, current_row, current_cell, in_row =>
    let trimmed := trim line
    if starts_with trimmed (rstr "* -") then
      let rows' :=
        if in_row then
          rows ++ [if ¬current_cell.isEmpty then current_row ++ [current_cell]
                   else current_row]
        else rows
      let cell_content :=
        trim (trim_start_matches (trim_start_matches trimmed (rstr "* -")) (rstr "* - "))
      pltr_go rest rows' [] cell_content true
    else if starts_with trimmed (rstr "- ") ∧ in_row then
      let current_row' :=
        if ¬current_cell.isEmpty then current_row ++ [current_cell] else current_row
      pltr_go rest rows current_row' (trim (trimmed.drop 2)) in_row
    else if in_row ∧ ¬trimmed.isEmpty then
      let current_cell' :=
        if ¬current_cell.isEmpty then current_cell ++ [' '] ++ trimmed
        else current_cell ++ trimmed
      pltr_go rest rows current_row current_cell' in_row
    else pltr_go rest rows current_row current_cell in_row

/-- `tables::parse_list_table_rows`. -/
def parse_list_table_rows (content : Str) : List (List Str) :=
  pltr_go (rust_lines content) [] [] [] false

/-- The `<colgroup>` block of `tables::convert_list_table` (same
floating-point caveat as `csv_colgroup`). -/
def list_colgroup (w : Str) : Str :=
  rstr "<colgroup>\n" ++
    ((split_whitespace w).map (fun part =>
      if parses_f64 part then
        rstr "<col style=\"width: " ++ pct_text part w ++ rstr "%\">\n"
      else [])).flatten ++
    rstr "</colgroup>\n"

/-- `tables::convert_list_table`. -/
def convert_list_table (title : Str) (header_rows stub_columns : Nat)
    (widths : Option Str) (align : Option Str) (content : Str) : Str :=
  let rows := parse_list_table_rows content
  rstr "<table class=\"list-table\"" ++ table_align_style align ++ rstr ">\n" ++
  (if ¬title.isEmpty then rstr "<caption>" ++ escape_html title ++ rstr "</caption>\n"
   else []) ++
  (match widths with
   | some w => list_colgroup w
   | none => []) ++
  (rows.enum.map (fun p =>
    let row_idx := p.1
    (if row_idx = 0 ∧ 0 < header_rows then rstr "<thead>\n" else []) ++
    (if row_idx = header_rows ∧ 0 < header_rows then rstr "</thead>\n<tbody>\n" else []) ++
    rstr "<tr>" ++
    (p.2.enum.map (fun q =>
      let is_header := row_idx < header_rows
      let is_stub := q.1 < stub_columns
      let tag := if is_header ∨ is_stub then rstr "th" else rstr "td"
      let cls := if is_stub then rstr " class=\"stub\"" else []
      rstr "<" ++ tag ++ cls ++ rstr ">" ++ process_inline (trim q.2) ++
        rstr "</" ++ tag ++ rstr ">")).flatten ++
    rstr "</tr>\n")).flatten ++
  (if 0 < header_rows ∧ ¬rows.isEmpty then rstr "</tbody>\n" else []) ++
  rstr "</table>"

/-! ### converter.rs state and directives.rs -/

/-- `converter::ConverterState`.  The two `HashMap`s of the source
(`substitutions` and directive options) are modelled as association lists with
replace-or-append insertion; the source only ever reads them by key, except
for the substitution-resolution pass, whose hash-order iteration is modelled
as insertion order.  `sectnum_prefix` is shortened to `sectnum_pref` for a
lexical reason only. -/
structure ConverterState where
  section_titles : List (Nat × Str)
  section_chars : List Char
  substitutions : List (Str × Str)
  target_references : List (Str × Str)
  header_content : Option Str
  footer_content : Option Str
  sectnum : Bool
  sectnum_depth : Nat
  sectnum_pref : Str
  sectnum_suffix : Str
deriving DecidableEq

/-- `ConverterState::new`. -/
def converter_state_new : ConverterState :=
  ConverterState.mk [] [] [] [] none none false 6 [] []

/-- `HashMap::insert` on the association-list model (replace or append). -/
def map_insert (m : List (Str × Str)) (k v : Str) : List (Str × Str) :=
  if (m.find? (fun p => p.1 = k)).isSome then
    m.map (fun p => if p.1 = k then (k, v) else p)
  else m ++ [(k, v)]

/-- `HashMap::get`. -/
def map_get (m : List (Str × Str)) (k : Str) : Option Str :=
  (m.find? (fun p => p.1 = k)).map (·.2)

/-- `HashMap::contains_key`. -/
def map_contains (m : List (Str × Str)) (k : Str) : Bool := (map_get m k).isSome

/-- `directives::DirectiveInfo`. -/
structure DirectiveInfo where
  name : Str
  arguments : Str
  options : List (Str × Str)
  content : Str

/-- `directives::capitalize_first`, restricted to the ASCII action of
`char::to_uppercase` (the only case reachable from the fixed admonition
names). -/
def capitalize_first (s : Str) : Str :=
  match s with
  | [] => []
  | c :: rest => c.toUpper :: rest

/-- Placeholder for `chrono::Local::now()` formatting: the impure
current-date call is not statable (real time); no verified claim reaches
it. -/
def chrono_date_text (_fmt : Str) : Str := []

/-- `n` copies of a string (`str::repeat`). -/
def repeat_str (s : Str) (n : Nat) : Str := (List.replicate n s).flatten

/-- Byte-lexicographic order on strings (Rust `String` `Ord`; on UTF-8 this
equals scalar-value lexicographic order). -/
def str_le : Str → Str → Bool
  | [], _ => true
  | _ :: _, [] => false
  | x :: xs, y :: ys =>
    if x.toNat < y.toNat then true
    else if y.toNat < x.toNat then false
    else str_le xs ys

/-- Stable insertion of one element (after every element ordered at or below
it), modelling the stability of Rust `sort_by`. -/
def insert_sorted (le : α → α → Bool) (x : α) : List α → List α
  | [] => [x]
  | y :: rest => if le y x then y :: insert_sorted le x rest else x :: y :: rest

/-- Stable sort by a boolean total order. -/
def sort_by_stable (le : α → α → Bool) (l : List α) : List α :=
  l.foldl (fun acc x => insert_sorted le x acc) []

/-- `directives::render_code_block`. -/
def render_code_block (info : DirectiveInfo) : Option Str :=
  let lang := trim info.arguments
  match dedent info.content with
  | none => none
  | some code =>
    let lang_class :=
      if ¬lang.isEmpty then rstr " class=\"language-" ++ escape_html lang ++ rstr "\""
      else []
    let caption :=
      match map_get info.options (rstr "caption") with
      | some c => rstr "<div class=\"code-block-caption\">" ++ escape_html c ++ rstr "</div>"
      | none => []
    let linenos_class :=
      if map_contains info.options (rstr "linenos") then rstr " linenos" else []
    some (caption ++ rstr "<pre class=\"code-block" ++ linenos_class ++ rstr "\"><code" ++
      lang_class ++ rstr ">" ++ escape_html (trim_end code) ++ rstr "</code></pre>")

/-- `directives::render_parsed_literal`. -/
def render_parsed_literal (info : DirectiveInfo) : Str :=
  rstr "<pre class=\"parsed-literal\">" ++ process_inline info.content ++ rstr "</pre>"

/-- `directives::render_admonition`; `recur` is the nested block renderer
(`render_directive_content`, i.e. `convert_rst_content`). -/
def render_admonition (recur : Str → Option Str) (info : DirectiveInfo) : Option Str :=
  match recur info.content with
  | none => none
  | some content =>
    some (rstr "<div class=\"admonition " ++ info.name ++
      rstr "\">\n<p class=\"admonition-title\">" ++ capitalize_first info.name ++
      rstr "</p>\n" ++ content ++ rstr "\n</div>")

/-- `directives::render_generic_admonition`. -/
def render_generic_admonition (recur : Str → Option Str) (info : DirectiveInfo) :
    Option Str :=
  match recur info.content with
  | none => none
  | some content =>
    some (rstr "<div class=\"admonition\">\n<p class=\"admonition-title\">" ++
      escape_html (trim info.arguments) ++ rstr "</p>\n" ++ content ++ rstr "\n</div>")

/-- `directives::render_seealso`. -/
def render_seealso (recur : Str → Option Str) (info : DirectiveInfo) : Option Str :=
  match recur info.content with
  | none => none
  | some content =>
    some (rstr "<div class=\"admonition seealso\">\n<p class=\"admonition-title\">See Also</p>\n" ++
      content ++ rstr "\n</div>")

/-- `directives::render_image`. -/
def render_image (info : DirectiveInfo) : Str :=
  let src := trim info.arguments
  let attrs := rstr "src=\"" ++ escape_html src ++ rstr "\"" ++
    (match map_get info.options (rstr "alt") with
     | some alt => rstr " alt=\"" ++ escape_html alt ++ rstr "\""
     | none => []) ++
    (let style :=
      (match map_get info.options (rstr "width") with
       | some w => rstr "width: " ++ w ++ rstr ";"
       | none => []) ++
      (match map_get info.options (rstr "height") with
       | some h => rstr "height: " ++ h ++ rstr ";"
       | none => [])
     if ¬style.isEmpty then rstr " style=\"" ++ style ++ rstr "\"" else [])
  let img := rstr "<img " ++ attrs ++ rstr ">"
  match map_get info.options (rstr "target") with
  | some target => rstr "<a href=\"" ++ escape_html target ++ rstr "\">" ++ img ++ rstr "</a>"
  | none => img

/-- `directives::render_figure`. -/
def render_figure (recur : Str → Option Str) (info : DirectiveInfo) : Option Str :=
  let src := trim info.arguments
  let attrs := rstr "src=\"" ++ escape_html src ++ rstr "\"" ++
    (match map_get info.options (rstr "alt") with
     | some alt => rstr " alt=\"" ++ escape_html alt ++ rstr "\""
     | none => []) ++
    (let style :=
      match map_get info.options (rstr "width") with
      | some w => rstr "width: " ++ w ++ rstr ";"
      | none => []
     if ¬style.isEmpty then rstr " style=\"" ++ style ++ rstr "\"" else [])
  let fig_class := rstr "figure" ++
    (match map_get info.options (rstr "figclass") with
     | some fc => [' '] ++ fc
     | none => []) ++
    (match map_get info.options (rstr "align") with
     | some al => rstr " align-" ++ al
     | none => [])
  let opening := rstr "<figure class=\"" ++ fig_class ++ rstr "\">\n<img " ++ attrs ++
    rstr ">\n"
  if ¬info.content.isEmpty then
    let content := trim info.content
    let parts := splitn2 content (rstr "\n\n")
    let caption_html := rstr "<figcaption>" ++ process_inline parts.1 ++
      rstr "</figcaption>\n"
    match parts.2 with
    | some legend =>
      match recur legend with
      | none => none
      | some lh =>
        some (opening ++ caption_html ++ rstr "<div class=\"legend\">" ++ lh ++
          rstr "</div>\n</figure>")
    | none => some (opening ++ caption_html ++ rstr "</figure>")
  else some (opening ++ rstr "</figure>")

/-- `directives::render_topic`. -/
def render_topic (recur : Str → Option Str) (info : DirectiveInfo) : Option Str :=
  match recur info.content with
  | none => none
  | some content =>
    some (rstr "<div class=\"topic\">\n<p class=\"topic-title\">" ++
      escape_html (trim info.arguments) ++ rstr "</p>\n" ++ content ++ rstr "\n</div>")

/-- `directives::render_sidebar`. -/
def render_sidebar (recur : Str → Option Str) (info : DirectiveInfo) : Option Str :=
  match recur info.content with
  | none => none
  | some content =>
    some (rstr "<aside class=\"sidebar\">\n<p class=\"sidebar-title\">" ++
      escape_html (trim info.arguments) ++ rstr "</p>\n" ++
      (match map_get info.options (rstr "subtitle") with
       | some sub => rstr "<p class=\"sidebar-subtitle\">" ++ escape_html sub ++ rstr "</p>\n"
       | none => []) ++
      content ++ rstr "\n</aside>")

/-- `directives::render_rubric`. -/
def render_rubric (info : DirectiveInfo) : Str :=
  rstr "<p class=\"rubric\">" ++ process_inline (trim info.arguments) ++ rstr "</p>"

/-- `directives::render_centered`. -/
def render_centered (info : DirectiveInfo) : Str :=
  rstr "<p class=\"centered\" style=\"text-align: center\">" ++
    process_inline (trim info.arguments) ++ rstr "</p>"

/-- `directives::render_blockquote`. -/
def render_blockquote (recur : Str → Option Str) (info : DirectiveInfo) : Option Str :=
  match recur info.content with
  | none => none
  | some content =>
    some (rstr "<blockquote class=\"" ++ info.name ++ rstr "\">\n" ++ content ++
      rstr "\n</blockquote>")

/-- `directives::render_compound`. -/
def render_compound (recur : Str → Option Str) (info : DirectiveInfo) : Option Str :=
  match recur info.content with
  | none => none
  | some content =>
    some (rstr "<div class=\"compound\">\n" ++ content ++ rstr "\n</div>")

/-- `directives::render_container`. -/
def render_container (recur : Str → Option Str) (info : DirectiveInfo) : Option Str :=
  match recur info.content with
  | none => none
  | some content =>
    some (rstr "<div class=\"" ++ escape_html (trim info.arguments) ++ rstr "\">\n" ++
      content ++ rstr "\n</div>")

/-- `directives::render_contents` (reads the section-title metadata). -/
def render_contents (info : DirectiveInfo) (st : ConverterState) : Str :=
  let title := if ¬info.arguments.isEmpty then trim info.arguments else rstr "Contents"
  rstr "<div class=\"contents\">\n<p class=\"topic-title\">" ++ escape_html title ++
    rstr "</p>\n" ++
    (if ¬st.section_titles.isEmpty then
      rstr "<ul class=\"toc\">\n" ++
        (st.section_titles.map (fun p =>
          if 1 < p.1 then
            repeat_str (rstr "  ") (p.1 - 2) ++ rstr "<li><a href=\"#" ++ slugify p.2 ++
              rstr "\">" ++ escape_html p.2 ++ rstr "</a></li>\n"
          else [])).flatten ++
        rstr "</ul>\n"
    else []) ++
    rstr "</div>"

/-- `directives::render_table_directive`. -/
def render_table_directive (info : DirectiveInfo) : Str :=
  let title := trim info.arguments
  let caption := if ¬title.isEmpty then
    rstr "<caption>" ++ escape_html title ++ rstr "</caption>\n" else []
  if ¬info.content.isEmpty ∧ is_simple_table (trim info.content) then
    rstr "<table>\n<caption>" ++ escape_html title ++ rstr "</caption>\n</table>"
  else rstr "<table>\n" ++ caption ++ rstr "</table>"

/-- `directives::render_csv_table`. -/
def render_csv_table (info : DirectiveInfo) : Str :=
  convert_csv_table (trim info.arguments) (map_get info.options (rstr "header"))
    (map_get info.options (rstr "widths")) (map_get info.options (rstr "align"))
    info.content

/-- `directives::render_list_table`. -/
def render_list_table (info : DirectiveInfo) : Str :=
  let header_rows := ((map_get info.options (rstr "header-rows")).bind parse_usize).getD 0
  let stub_columns := ((map_get info.options (rstr "stub-columns")).bind parse_usize).getD 0
  convert_list_table (trim info.arguments) header_rows stub_columns
    (map_get info.options (rstr "widths")) (map_get info.options (rstr "align"))
    info.content

/-- `directives::render_raw`. -/
def render_raw (info : DirectiveInfo) : Str :=
  if trim info.arguments = rstr "html" then info.content
  else rstr "<!-- " ++ capitalize_first (trim info.arguments) ++ rstr ": " ++
    escape_html info.content ++ rstr " -->"

/-- `directives::render_include` (placeholder only; no filesystem access). -/
def render_include (info : DirectiveInfo) : Str :=
  rstr "<p class=\"include\">Include: " ++ escape_html (trim info.arguments) ++ rstr "</p>"

/-- `directives::render_class`. -/
def render_class (recur : Str → Option Str) (info : DirectiveInfo) : Option Str :=
  match recur info.content with
  | none => none
  | some content =>
    some (rstr "<div class=\"" ++ escape_html (trim info.arguments) ++ rstr "\">\n" ++
      content ++ rstr "\n</div>")

/-- `directives::render_meta`. -/
def render_meta (info : DirectiveInfo) : Str :=
  rstr "<!-- meta: " ++ escape_html info.content ++ rstr " -->"

/-- `directives::render_math`. -/
def render_math (info : DirectiveInfo) : Str :=
  (match map_get info.options (rstr "label") with
   | some label =>
     rstr "<div class=\"math-block\" id=\"equation-" ++ escape_html label ++ rstr "\">\n"
   | none => rstr "<div class=\"math-block\">\n") ++
  escape_html (trim info.content) ++ rstr "\n</div>"

/-- `directives::render_toctree`. -/
def render_toctree (info : DirectiveInfo) : Str :=
  rstr "<nav class=\"toctree-wrapper\">\n" ++
  (match map_get info.options (rstr "caption") with
   | some caption => rstr "<p class=\"caption\">" ++ escape_html caption ++ rstr "</p>\n"
   | none => []) ++
  rstr "<ul>\n" ++
  ((rust_lines info.content).map (fun line =>
    let trimmed := trim line
    if ¬trimmed.isEmpty ∧ ¬starts_with trimmed (rstr ":") then
      rstr "<li><a href=\"" ++ escape_html trimmed ++ rstr ".html\">" ++
        escape_html trimmed ++ rstr "</a></li>\n"
    else [])).flatten ++
  rstr "</ul>\n</nav>"

/-- `directives::render_version`. -/
def render_version (recur : Str → Option Str) (info : DirectiveInfo)
    (pre : String) : Option Str :=
  match recur info.content with
  | none => none
  | some content =>
    some (rstr "<div class=\"" ++ info.name ++
      rstr "\">\n<span class=\"versionmodified\">" ++ rstr pre ++ [' '] ++
      escape_html (trim info.arguments) ++ rstr ": </span>" ++ content ++ rstr "\n</div>")

/-- `directives::render_deprecated`. -/
def render_deprecated (recur : Str → Option Str) (info : DirectiveInfo) : Option Str :=
  match recur info.content with
  | none => none
  | some content =>
    some (rstr "<div class=\"deprecated\">\n<span class=\"versionmodified\">Deprecated since version " ++
      escape_html (trim info.arguments) ++ rstr ": </span>" ++ content ++ rstr "\n</div>")

/-- The line loop of `directives::render_glossary`, threading
(entries, current terms, current definition). -/
def glossary_go : List Str → List (List Str × Str) → List Str → Str →
    List (List Str × Str)
  | [], entries, terms, cur =>
    if ¬terms.isEmpty then entries ++ [(terms, trim cur)] else entries
  | line :: rest, entries, terms, cur =>
    let trimmed := trim_end line
    if trimmed.isEmpty then
      if ¬terms.isEmpty ∧ ¬cur.isEmpty then
        glossary_go rest (entries ++ [(terms, trim cur)]) [] []
      else glossary_go rest entries terms cur
    else if starts_with trimmed (rstr "   ") ∨ starts_with trimmed (rstr "\t") then
      glossary_go rest entries terms
        (if ¬cur.isEmpty then cur ++ [' '] ++ trim trimmed else cur ++ trim trimmed)
    else
      if ¬cur.isEmpty then glossary_go rest (entries ++ [(terms, trim cur)]) [trimmed] []
      else glossary_go rest entries (terms ++ [trimmed]) cur

/-- `directives::render_glossary`. -/
def render_glossary (info : DirectiveInfo) : Str :=
  let entries := glossary_go (rust_lines info.content) [] [] []
  let entries :=
    if map_contains info.options (rstr "sorted") then
      sort_by_stable (fun a b =>
        str_le ((a.1.headD []).map rust_to_lower) ((b.1.headD []).map rust_to_lower))
        entries
    else entries
  rstr "<dl class=\"glossary\">\n" ++
    (entries.map (fun e =>
      (e.1.map (fun term =>
        rstr "<dt id=\"term-" ++ slugify term ++ rstr "\">" ++ escape_html term ++
          rstr "</dt>\n")).flatten ++
      (if ¬e.2.isEmpty then rstr "<dd>" ++ process_inline e.2 ++ rstr "</dd>\n"
       else []))).flatten ++
  rstr "</dl>"

/-- The backtick-reference scan of `directives::process_production_refs`;
an unterminated reference drops the scanned tail, as in the source. -/
def ppr_go : Nat → Str → Nat → Str
  | 0, _, _ => []
  | fuel + 1, chars, i =>
    if i < chars.length then
      if chars.getD i ' ' = bq then
        match (chars.drop (i + 1)).findIdx? (· = bq) with
        | some k =>
          let ref := (chars.drop (i + 1)).take k
          rstr "<a href=\"#grammar-token-" ++ escape_html ref ++
            rstr "\" class=\"production-ref\">" ++ escape_html ref ++ rstr "</a>" ++
            ppr_go fuel chars (i + 1 + k + 1)
        | none => []
      else chars.getD i ' ' :: ppr_go fuel chars (i + 1)
    else []

/-- `directives::process_production_refs`. -/
def process_production_refs (rule : Str) : Str := ppr_go (rule.length + 1) rule 0

/-- `directives::render_productionlist`. -/
def render_productionlist (info : DirectiveInfo) : Str :=
  rstr "<pre class=\"productionlist\">\n" ++
    ((rust_lines info.content).map (fun line =>
      let trimmed := trim line
      if trimmed.isEmpty then []
      else
        match find_char trimmed ':' with
        | some colon_pos =>
          let name := trim (trimmed.take colon_pos)
          let rule := trim (trimmed.drop (colon_pos + 1))
          rstr "<strong id=\"grammar-token-" ++ escape_html name ++ rstr "\">" ++
            escape_html name ++ rstr "</strong> ::= " ++
            process_production_refs rule ++ rstr "\n"
        | none => [])).flatten ++
  rstr "</pre>"

/-- `directives::render_doctest`. -/
def render_doctest (info : DirectiveInfo) : Option Str :=
  if ¬(trim info.arguments).isEmpty then some []
  else
    match dedent info.content with
    | none => none
    | some code =>
      some (rstr "<pre class=\"doctest\"><code class=\"language-python\">" ++
        escape_html (trim code) ++ rstr "</code></pre>")

/-- `directives::render_testcode`. -/
def render_testcode (info : DirectiveInfo) : Option Str :=
  match dedent info.content with
  | none => none
  | some code =>
    some (rstr "<pre class=\"testcode\"><code>" ++ escape_html (trim code) ++
      rstr "</code></pre>")

/-- `directives::render_testoutput`. -/
def render_testoutput (info : DirectiveInfo) : Option Str :=
  match dedent info.content with
  | none => none
  | some output =>
    some (rstr "<pre class=\"testoutput\"><samp>" ++ escape_html (trim output) ++
      rstr "</samp></pre>")

/-- `directives::render_unicode` (unlike the substitution path, unparsable
tokens are pushed literally). -/
def render_unicode (info : DirectiveInfo) : Str :=
  ((split_whitespace info.arguments).map (fun part =>
    if starts_with part (rstr "0x") ∨ starts_with part (rstr "0X") then
      match parse_hex_u32 (part.drop 2) with
      | some code =>
        match char_from_u32 code with
        | some ch => [ch]
        | none => []
      | none =>
        match parse_u32 part with
        | some code =>
          match char_from_u32 code with
          | some ch => [ch]
          | none => []
        | none => part
    else
      match parse_u32 part with
      | some code =>
        match char_from_u32 code with
        | some ch => [ch]
        | none => []
      | none => part)).flatten

/-- `directives::render_date` (the impure current date is a placeholder). -/
def render_date (info : DirectiveInfo) : Str :=
  let fmt := trim info.arguments
  if fmt.isEmpty then chrono_date_text (rstr "%Y-%m-%d") else chrono_date_text fmt

/-- `directives::render_replace`. -/
def render_replace (info : DirectiveInfo) : Str := process_inline (trim info.arguments)

/-- `directives::render_target_notes` (reads the target metadata). -/
def render_target_notes (st : ConverterState) : Str :=
  if st.target_references.isEmpty then []
  else
    rstr "<div class=\"target-notes\">\n<ol>\n" ++
      (st.target_references.map (fun p =>
        rstr "<li><a href=\"" ++ escape_html p.2 ++ rstr "\">" ++ escape_html p.1 ++
          rstr "</a></li>\n")).flatten ++
      rstr "</ol>\n</div>"

/-- `directives::render_unknown`: an unrecognized directive is wrapped in a
generic container. -/
def render_unknown (recur : Str → Option Str) (info : DirectiveInfo) : Option Str :=
  let args_html :=
    if ¬info.arguments.isEmpty then
      rstr "<div class=\"directive-arguments\">" ++ escape_html (trim info.arguments) ++
        rstr "</div>\n"
    else []
  if ¬info.content.isEmpty then
    match recur info.content with
    | none => none
    | some content =>
      some (rstr "<div class=\"directive-" ++ escape_html info.name ++ rstr "\">\n" ++
        args_html ++ rstr "<div class=\"directive-content\">" ++ content ++
        rstr "</div>\n</div>")
  else
    some (rstr "<div class=\"directive-" ++ escape_html info.name ++ rstr "\">\n" ++
      args_html ++ rstr "</div>")

/-- `directives::render_directive`: the name dispatch.  `recur` renders
nested block content with a fresh, empty metadata state
(`render_directive_content` = `convert_rst_content`); only `contents` and
`target-notes` read the enclosing document's state, and no branch writes
to it. -/
def render_directive (recur : Str → Option Str) (info : DirectiveInfo)
    (st : ConverterState) : Option Str :=
  if info.name = rstr "code-block" ∨ info.name = rstr "code" ∨ info.name = rstr "sourcecode" then
    render_code_block info
  else if info.name = rstr "highlight" then render_code_block info
  else if info.name = rstr "parsed-literal" then some (render_parsed_literal info)
  else if info.name = rstr "note" ∨ info.name = rstr "warning" ∨ info.name = rstr "tip" ∨ info.name = rstr "caution" ∨
      info.name = rstr "danger" ∨ info.name = rstr "attention" ∨ info.name = rstr "error" ∨ info.name = rstr "hint" ∨
      info.name = rstr "important" then
    render_admonition recur info
  else if info.name = rstr "admonition" then render_generic_admonition recur info
  else if info.name = rstr "seealso" then render_seealso recur info
  else if info.name = rstr "image" then some (render_image info)
  else if info.name = rstr "figure" then render_figure recur info
  else if info.name = rstr "topic" then render_topic recur info
  else if info.name = rstr "sidebar" then render_sidebar recur info
  else if info.name = rstr "rubric" then some (render_rubric info)
  else if info.name = rstr "centered" then some (render_centered info)
  else if info.name = rstr "epigraph" ∨ info.name = rstr "highlights" ∨ info.name = rstr "pull-quote" then
    render_blockquote recur info
  else if info.name = rstr "compound" then render_compound recur info
  else if info.name = rstr "container" then render_container recur info
  else if info.name = rstr "contents" then some (render_contents info st)
  else if info.name = rstr "table" then some (render_table_directive info)
  else if info.name = rstr "csv-table" then some (render_csv_table info)
  else if info.name = rstr "list-table" then some (render_list_table info)
  else if info.name = rstr "raw" then some (render_raw info)
  else if info.name = rstr "include" then some (render_include info)
  else if info.name = rstr "class" then render_class recur info
  else if info.name = rstr "meta" then some (render_meta info)
  else if info.name = rstr "math" then some (render_math info)
  else if info.name = rstr "toctree" then some (render_toctree info)
  else if info.name = rstr "versionadded" then render_version recur info "New in version"
  else if info.name = rstr "versionchanged" then render_version recur info "Changed in version"
  else if info.name = rstr "deprecated" then render_deprecated recur info
  else if info.name = rstr "glossary" then some (render_glossary info)
  else if info.name = rstr "productionlist" then some (render_productionlist info)
  else if info.name = rstr "doctest" then render_doctest info
  else if info.name = rstr "testcode" then render_testcode info
  else if info.name = rstr "testoutput" then render_testoutput info
  else if info.name = rstr "unicode" then some (render_unicode info)
  else if info.name = rstr "date" then some (render_date info)
  else if info.name = rstr "replace" then some (render_replace info)
  else if info.name = rstr "role" then some []
  else if info.name = rstr "sectnum" ∨ info.name = rstr "header" ∨ info.name = rstr "footer" then some []
  else if info.name = rstr "target-notes" then some (render_target_notes st)
  else render_unknown recur info

/-! ### converter.rs -/

/-- `converter::get_or_assign_level`: the level for an adornment character is
its first-seen position (1-based); an unseen character is appended. -/
def get_or_assign_level (ch : Char) (chars : List Char) : Nat × List Char :=
  match chars.findIdx? (· = ch) with
  | some pos => (pos + 1, chars)
  | none => (chars.length + 1, chars ++ [ch])

/-- `converter::is_adornment_char`. -/
def is_adornment_char (c : Char) : Bool :=
  c = '=' || c = '-' || c = '~' || c = bq || c = ':' || c = sq || c = dq ||
  c = '^' || c = '_' || c = '*' || c = '+' || c = '#' || c = '<' || c = '>'

/-- `converter::is_section_adornment`. -/
def is_section_adornment (line : Str) : Bool :=
  if utf8_len line < 4 then false
  else
    let first := line.headD ' '
    classify_line line = LineType.SectionAdornment first ∨
      (line.all (· = first) ∧ is_adornment_char first)

/-- `converter::is_simple_table_border`. -/
def is_simple_table_border (line : Str) : Bool :=
  let trimmed := trim line
  ¬trimmed.isEmpty ∧ trimmed.all (fun c => c = '=' ∨ c = ' ') ∧
    trimmed.contains '=' ∧ trimmed.contains ' '

/-- `converter::process_substitution` (the `date` type calls the impure
current-date formatter, kept as a placeholder). -/
def process_substitution (dir_type args : Str) : Str :=
  if dir_type = rstr "image" then
    rstr "<img src=\"" ++ escape_html args ++ rstr "\" alt=\"\">"
  else if dir_type = rstr "replace" then process_inline args
  else if dir_type = rstr "date" then
    if args.isEmpty then chrono_date_text (rstr "%Y-%m-%d") else chrono_date_text args
  else if dir_type = rstr "unicode" then
    ((split_whitespace args).map (fun part =>
      if starts_with part (rstr "0x") ∨ starts_with part (rstr "0X") then
        match parse_hex_u32 (part.drop 2) with
        | some code =>
          match char_from_u32 code with
          | some ch => [ch]
          | none => []
        | none =>
          match parse_u32 part with
          | some code =>
            match char_from_u32 code with
            | some ch => [ch]
            | none => []
          | none => []
      else
        match parse_u32 part with
        | some code =>
          match char_from_u32 code with
          | some ch => [ch]
          | none => []
        | none => [])).flatten
  else args

/-- The `sectnum` option loop of `converter::first_pass`. -/
def fp_sectnum_opts (lines : List Str) : Nat → Nat → ConverterState → ConverterState
  | 0, _, st => st
  | fuel + 1, j, st =>
    if j < lines.length then
      let opt_line := trim (lines.getD j [])
      if starts_with opt_line (rstr ":") then
        let st' :=
          match find_char (opt_line.drop 1) ':' with
          | some e =>
            let name := (opt_line.drop 1).take e
            let value := trim (opt_line.drop (e + 2))
            if name = rstr "depth" then
              { st with sectnum_depth := (parse_usize value).getD 6 }
            else if name = rstr "prefix" then { st with sectnum_pref := value }
            else if name = rstr "suffix" then { st with sectnum_suffix := value }
            else st
          | none => st
        fp_sectnum_opts lines fuel (j + 1) st'
      else st
    else st

/-- The content-collection loop shared by the `header` and `footer` branches
of `converter::first_pass`. -/
def fp_hf_collect (lines : List Str) (start : Nat) : Nat → Nat → Str → Str
  | 0, _, content => content
  | fuel + 1, j, content =>
    if j < lines.length then
      let cl := lines.getD j []
      if (trim cl).isEmpty ∧ start + 1 < j then content
      else if 0 < indent_of cl ∨ (trim cl).isEmpty then
        fp_hf_collect lines start fuel (j + 1)
          (if ¬content.isEmpty then content ++ ['\n'] ++ trim cl else content ++ trim cl)
      else if start + 1 < j then content
      else fp_hf_collect lines start fuel (j + 1) content
    else content

/-- The `.. `-line metadata branch of `converter::first_pass`: substitution
definition, hyperlink target, `sectnum`, `header`, `footer` (each an
independent check, as in the source; the source's substitution branch also
contains a loop that only advances a dead local index, omitted here). -/
def fp_dotdot (lines : List Str) (i : Nat) (st : ConverterState) (rest : Str) :
    ConverterState :=
  let st :=
    if starts_with rest (rstr "|") then
      match find_char (rest.drop 1) '|' with
      | some pipe_end =>
        let name := (rest.drop 1).take pipe_end
        let after := trim ((rest.drop 1).drop (pipe_end + 1))
        match find_sub after (rstr "::") with
        | some colon_pos =>
          let dir_type := trim (after.take colon_pos)
          let args := trim (after.drop (colon_pos + 2))
          { st with substitutions :=
              map_insert st.substitutions name (process_substitution dir_type args) }
        | none => st
      | none => st
    else st
  let st :=
    if starts_with rest (rstr "_") then
      let target_rest := rest.drop 1
      match find_sub target_rest (rstr ": ") with
      | some colon_pos =>
        { st with target_references := st.target_references ++
            [(trim (target_rest.take colon_pos), trim (target_rest.drop (colon_pos + 2)))] }
      | none => st
    else st
  let st :=
    if starts_with rest (rstr "sectnum::") then
      fp_sectnum_opts lines (lines.length + 1) (i + 1) { st with sectnum := true }
    else st
  let st :=
    if starts_with rest (rstr "header::") then
      let hc := fp_hf_collect lines i (lines.length + 1) (i + 1) []
      { st with header_content := some hc }
    else st
  if starts_with rest (rstr "footer::") then
    let fc := fp_hf_collect lines i (lines.length + 1) (i + 1) []
    { st with footer_content := some fc }
  else st

/-- The main loop of `converter::first_pass`; every step advances the line
index by at least one, so `length + 1` fuel always suffices. -/
def fp_go (lines : List Str) : Nat → Nat → ConverterState → ConverterState
  | 0, _, st => st
  | fuel + 1, i, st =>
    if i < lines.length then
      let trimmed := trim (lines.getD i [])
      let next := trim (lines.getD (i + 1) [])
      if i + 1 < lines.length ∧ ¬trimmed.isEmpty ∧ is_section_adornment next ∧
          utf8_len trimmed ≤ utf8_len next then
        let ch := next.headD ' '
        let lv := get_or_assign_level ch st.section_chars
        fp_go lines fuel (i + 2)
          { st with section_chars := lv.2,
                    section_titles := st.section_titles ++ [(lv.1, trimmed)] }
      else
        let text := trim (lines.getD (i + 1) [])
        let next_adorn := trim (lines.getD (i + 2) [])
        if i + 2 < lines.length ∧ is_section_adornment trimmed ∧ ¬text.isEmpty ∧
            is_section_adornment next_adorn ∧ trimmed.head? = next_adorn.head? then
          let ch := trimmed.headD ' '
          let lv := get_or_assign_level ch st.section_chars
          fp_go lines fuel (i + 3)
            { st with section_chars := lv.2,
                      section_titles := st.section_titles ++ [(lv.1, text)] }
        else
          let st' :=
            if starts_with trimmed (rstr ".. ") then
              fp_dotdot lines i st (trimmed.drop 3)
            else st
          fp_go lines fuel (i + 1) st'
    else st

/-- `converter::first_pass`. -/
def first_pass (lines : List Str) (st : ConverterState) : ConverterState :=
  fp_go lines (lines.length + 1) 0 st

/-- One step of string replacement for `resolve_substitutions`
(Rust `str::replace`: non-overlapping, left to right). -/
def replace_all_go : Nat → Str → Str → Str → Str
  | 0, s, _, _ => s
  | fuel + 1, s, pat, rep =>
    match find_sub s pat with
    | some k => s.take k ++ rep ++ replace_all_go fuel (s.drop (k + pat.length)) pat rep
    | none => s

def replace_all (s pat rep : Str) : Str := replace_all_go (s.length + 1) s pat rep

/-- `converter::resolve_substitutions`: replaces every `|name|` occurrence in
the emitted HTML (insertion order stands in for the source's hash order). -/
def resolve_substitutions (html : Str) (st : ConverterState) : Str :=
  if st.substitutions.isEmpty then html
  else st.substitutions.foldl
    (fun acc p => replace_all acc (rstr "|" ++ p.1 ++ rstr "|") p.2) html

/-- The inner third-border scan of `converter::collect_simple_table`. -/
def cst_inner (lines : List Str) : Nat → Nat → Option Nat
  | 0, _ => none
  | fuel + 1, j =>
    if j < lines.length then
      let jt := trim (lines.getD j [])
      if jt.isEmpty then none
      else if is_simple_table_border jt then some j
      else cst_inner lines fuel (j + 1)
    else none

/-- The text of lines `start..stop` joined with newlines. -/
def lines_slice (lines : List Str) (start stop : Nat) : Str :=
  join_with (rstr "\n") ((lines.drop start).take (stop - start))

/-- The scan of `converter::collect_simple_table` past the second border
(and, when one follows without a blank line, the third). -/
def cst_collect_go (lines : List Str) (start : Nat) : Nat → Nat → Nat → Str × Nat
  | 0, e, _ => (lines_slice lines start e, e)
  | fuel + 1, e, border_count =>
    if e < lines.length then
      let trimmed := trim (lines.getD e [])
      if is_simple_table_border trimmed then
        if 2 ≤ border_count + 1 then
          match cst_inner lines (lines.length + 1) (e + 1) with
          | some j => (lines_slice lines start (j + 1), j + 1)
          | none => (lines_slice lines start (e + 1), e + 1)
        else cst_collect_go lines start fuel (e + 1) (border_count + 1)
      else if trimmed.isEmpty then (lines_slice lines start e, e)
      else cst_collect_go lines start fuel (e + 1) border_count
    else (lines_slice lines start e, e)

/-- `converter::collect_simple_table`. -/
def collect_simple_table (lines : List Str) (start : Nat) : Str × Nat :=
  cst_collect_go lines start (lines.length + 1) (start + 1) 1

/-- `converter::collect_grid_table`. -/
def cgt_collect_go (lines : List Str) : Nat → Nat → Nat
  | 0, e => e
  | fuel + 1, e =>
    if e < lines.length then
      let trimmed := trim (lines.getD e [])
      if trimmed.isEmpty then e
      else if ¬starts_with trimmed (rstr "+") ∧ ¬starts_with trimmed (rstr "|") then e
      else cgt_collect_go lines fuel (e + 1)
    else e

def collect_grid_table (lines : List Str) (start : Nat) : Str × Nat :=
  let e := cgt_collect_go lines (lines.length + 1) (start + 1)
  (lines_slice lines start e, e)

/-- The option loop of `converter::collect_directive`. -/
def cd_options_go (lines : List Str) : Nat → Nat → List (Str × Str) →
    List (Str × Str) × Nat
  | 0, i, options => (options, i)
  | fuel + 1, i, options =>
    if i < lines.length then
      let trimmed := trim (lines.getD i [])
      if trimmed.isEmpty then (options, i)
      else if 0 < indent_of (lines.getD i []) ∧ starts_with trimmed (rstr ":") then
        match find_char (trimmed.drop 1) ':' with
        | some e =>
          cd_options_go lines fuel (i + 1)
            (map_insert options ((trimmed.drop 1).take e) (trim (trimmed.drop (e + 2))))
        | none => (options, i)
      else (options, i)
    else (options, i)

/-- The content loop of `converter::collect_directive`. -/
def cd_content_go (lines : List Str) : Nat → Nat → List Str → List Str × Nat
  | 0, i, acc => (acc, i)
  | fuel + 1, i, acc =>
    if i < lines.length then
      let line := lines.getD i []
      if (trim line).isEmpty then
        if i + 1 < lines.length ∧ 0 < indent_of (lines.getD (i + 1) []) ∧
            ¬(trim (lines.getD (i + 1) [])).isEmpty then
          cd_content_go lines fuel (i + 1) (acc ++ [[]])
        else (acc, i)
      else if indent_of line = 0 then (acc, i)
      else cd_content_go lines fuel (i + 1) (acc ++ [line])
    else (acc, i)

/-- `converter::collect_directive`: options, dedented content, and the index
past the consumed block.  The dedent is a byte slice and can panic
(`none`). -/
def collect_directive (lines : List Str) (start : Nat) :
    Option (List (Str × Str) × Str × Nat) :=
  let i := if start < lines.length ∧ (trim (lines.getD start [])).isEmpty then start + 1
    else start
  let op := cd_options_go lines (lines.length + 1) i []
  let i := if op.2 < lines.length ∧ (trim (lines.getD op.2 [])).isEmpty then op.2 + 1
    else op.2
  let co := cd_content_go lines (lines.length + 1) i []
  if co.1.isEmpty then some (op.1, [], co.2)
  else
    match dedent (join_with (rstr "\n") co.1) with
    | some content => some (op.1, content, co.2)
    | none => none

/-- `converter::skip_indented_block`. -/
def sib_go (lines : List Str) : Nat → Nat → Nat
  | 0, i => i
  | fuel + 1, i =>
    if i < lines.length then
      let line := lines.getD i []
      if (trim line).isEmpty then
        let i' := i + 1
        if i' < lines.length ∧ ¬(trim (lines.getD i' [])).isEmpty ∧
            0 < indent_of (lines.getD i' []) then
          sib_go lines fuel i'
        else i'
      else if indent_of line = 0 then i
      else sib_go lines fuel (i + 1)
    else i

def skip_indented_block (lines : List Str) (start : Nat) : Nat :=
  sib_go lines (lines.length + 1) (start + 1)

/-- The content loop of `converter::collect_indented_block`. -/
def cib_go (lines : List Str) : Nat → Nat → List Str → List Str × Nat
  | 0, i, acc => (acc, i)
  | fuel + 1, i, acc =>
    if i < lines.length then
      let line := lines.getD i []
      if (trim line).isEmpty then
        if i + 1 < lines.length ∧ ¬(trim (lines.getD (i + 1) [])).isEmpty ∧
            0 < indent_of (lines.getD (i + 1) []) then
          cib_go lines fuel (i + 1) (acc ++ [[]])
        else (acc, i)
      else if indent_of line = 0 then (acc, i)
      else cib_go lines fuel (i + 1) (acc ++ [line])
    else (acc, i)

/-- The leading-blank skip of `converter::collect_indented_block`. -/
def cib_skip (lines : List Str) : Nat → Nat → Nat
  | 0, i => i
  | fuel + 1, i =>
    if i < lines.length ∧ (trim (lines.getD i [])).isEmpty then
      cib_skip lines fuel (i + 1)
    else i

/-- `converter::collect_indented_block`. -/
def collect_indented_block (lines : List Str) (start : Nat) : Str × Nat :=
  let i := cib_skip lines (lines.length + 1) start
  let co := cib_go lines (lines.length + 1) i []
  (join_with (rstr "\n") co.1, co.2)

/-- `converter::collect_doctest_block`. -/
def cdb_go (lines : List Str) : Nat → Nat → Nat
  | 0, e => e
  | fuel + 1, e =>
    if e < lines.length ∧ ¬(trim (lines.getD e [])).isEmpty then
      cdb_go lines fuel (e + 1)
    else e

def collect_doctest_block (lines : List Str) (start : Nat) : Str × Nat :=
  let e := cdb_go lines (lines.length + 1) start
  (lines_slice lines start e, e)

/-- The line loop of `converter::convert_line_block`. -/
def clb_go (lines : List Str) : Nat → Nat → Str × Nat
  | 0, i => ([], i)
  | fuel + 1, i =>
    if i < lines.length then
      let trimmed := trim (lines.getD i [])
      if trimmed = rstr "|" then
        let r := clb_go lines fuel (i + 1)
        (rstr "<div class=\"line\"><br></div>\n" ++ r.1, r.2)
      else if starts_with trimmed (rstr "| ") then
        let content := trimmed.drop 2
        let leading_spaces := indent_of content
        let piece :=
          if 0 < leading_spaces then
            rstr "<div class=\"line\" style=\"margin-left: " ++
              nat_to_str leading_spaces ++ rstr "em\">" ++
              process_inline (trim content) ++ rstr "</div>\n"
          else rstr "<div class=\"line\">" ++ process_inline content ++ rstr "</div>\n"
        let r := clb_go lines fuel (i + 1)
        (piece ++ r.1, r.2)
      else ([], i)
    else ([], i)

/-- `converter::convert_line_block`. -/
def convert_line_block (lines : List Str) (start : Nat) : Str × Nat :=
  let r := clb_go lines (lines.length + 1) start
  (rstr "<div class=\"line-block\">\n" ++ r.1 ++ rstr "</div>", r.2)

/-- The directive sub-loop of `converter::collect_list_item_content`. -/
def clic_dir_go (lines : List Str) : Nat → Nat → Str → Str × Nat
  | 0, i, content => (content, i)
  | fuel + 1, i, content =>
    if i < lines.length then
      let dl := lines.getD i []
      if (trim dl).isEmpty then
        if i + 1 < lines.length ∧ 0 < indent_of (lines.getD (i + 1) []) then
          clic_dir_go lines fuel (i + 1) (content ++ ['\n'] ++ dl)
        else (content, i)
      else if indent_of dl = 0 then (content, i)
      else clic_dir_go lines fuel (i + 1) (content ++ ['\n'] ++ dl)
    else (content, i)

/-- The main loop of `converter::collect_list_item_content`. -/
def clic_go (lines : List Str) : Nat → Nat → Str → Str × Nat
  | 0, i, content => (content, i)
  | fuel + 1, i, content =>
    if i < lines.length then
      let line := lines.getD i []
      let trimmed := trim line
      let indent := indent_of line
      if trimmed.isEmpty then
        if i + 1 < lines.length ∧ 0 < indent_of (lines.getD (i + 1) []) ∧
            ¬(trim (lines.getD (i + 1) [])).isEmpty then
          clic_go lines fuel (i + 1) (content ++ ['\n'])
        else (content, i)
      else if indent = 0 then (content, i)
      else if starts_with trimmed (rstr "- ") ∨ starts_with trimmed (rstr "* ") ∨
          starts_with trimmed (rstr "+ ") then
        clic_go lines fuel (i + 1) (content ++ rstr "\n_NESTED_BULLET_" ++ trimmed)
      else if starts_with trimmed (rstr ".. ") then
        let r := clic_dir_go lines (lines.length + 1) (i + 1)
          (content ++ rstr "\n_NESTED_DIRECTIVE_" ++ trimmed)
        clic_go lines fuel r.2 r.1
      else clic_go lines fuel (i + 1) (content ++ [' '] ++ trimmed)
    else (content, i)

/-- `converter::collect_list_item_content`. -/
def collect_list_item_content (lines : List Str) (start : Nat) (first_line : Str) :
    Str × Nat :=
  clic_go lines (2 * lines.length + 2) (start + 1) first_line

/-- `converter::render_list_item_content`; `recur` is `convert_rst_content`. -/
def render_list_item_content (recur : Str → Option Str) (content : Str) : Option Str :=
  if contains_sub content (rstr "_NESTED_BULLET_") then
    let parts := splitn2 content (rstr "\n_NESTED_BULLET_")
    let main_text := process_inline (trim parts.1)
    let nested_text := parts.2.getD []
    let nested_rst := join_with (rstr "\n")
      ((rust_lines nested_text).map (fun l => trim_start_matches l (rstr "_NESTED_BULLET_")))
    match recur nested_rst with
    | none => none
    | some nested_html => some (main_text ++ ['\n'] ++ nested_html)
  else if contains_sub content (rstr "_NESTED_DIRECTIVE_") then
    let parts := splitn2 content (rstr "\n_NESTED_DIRECTIVE_")
    let main_text := process_inline (trim parts.1)
    let directive_text := parts.2.getD []
    match recur (rstr ".. " ++ trim_start_matches directive_text (rstr "_NESTED_DIRECTIVE_")) with
    | none => none
    | some directive_html => some (main_text ++ ['\n'] ++ directive_html)
  else some (process_inline (trim content))

/-- `converter::is_valid_enum` (unlike the parser's and the list module's
copies, it accepts the empty marker, whose digit check is vacuous). -/
def is_valid_enum (s : Str) : Bool :=
  if s = rstr "#" then true
  else if s.all (·.isDigit) then true
  else if utf8_len s = 1 ∧ (s.headD ' ').isAlpha then true
  else (s.map rust_to_lower).all fun c =>
    c = 'i' ∨ c = 'v' ∨ c = 'x' ∨ c = 'l' ∨ c = 'c' ∨ c = 'd' ∨ c = 'm'

/-- `converter::is_enumerated_item`. -/
def is_enumerated_item (s : Str) : Bool :=
  let trimmed := trim s
  if trimmed.isEmpty then false
  else if starts_with trimmed (rstr "(") then
    match find_char trimmed ')' with
    | some close =>
      is_valid_enum ((trimmed.drop 1).take (close - 1)) ∧
        trimmed.get? (close + 1) = some ' '
    | none => false
  else
    match enum_break trimmed with
    | some (i, c) =>
      if c = ' ' then false
      else if 0 < i then
        is_valid_enum (trimmed.take i) ∧ trimmed.get? (i + 1) = some ' '
      else false
    | none => false

/-- The item loop of `converter::convert_bullet_list`. -/
def cbl_go (recur : Str → Option Str) (lines : List Str) :
    Nat → Nat → Option (Str × Nat)
  | 0, i => some ([], i)
  | fuel + 1, i =>
    if i < lines.length then
      let trimmed := trim (lines.getD i [])
      if trimmed.isEmpty then
        if i + 1 < lines.length then
          let next := trim (lines.getD (i + 1) [])
          if starts_with next (rstr "- ") ∨ starts_with next (rstr "* ") ∨
              starts_with next (rstr "+ ") then
            cbl_go recur lines fuel (i + 1)
          else if 0 < indent_of (lines.getD (i + 1) []) ∧
              ¬(trim (lines.getD (i + 1) [])).isEmpty then
            cbl_go recur lines fuel (i + 1)
          else some ([], i)
        else some ([], i)
      else if starts_with trimmed (rstr "- ") ∨ starts_with trimmed (rstr "* ") ∨
          starts_with trimmed (rstr "+ ") then
        let item_content := strip_bullet_marker trimmed
        let fc := collect_list_item_content lines i item_content
        match render_list_item_content recur fc.1 with
        | none => none
        | some rendered =>
          match cbl_go recur lines fuel fc.2 with
          | none => none
          | some r => some (rstr "<li>" ++ rendered ++ rstr "</li>\n" ++ r.1, r.2)
      else some ([], i)
    else some ([], i)

/-- `converter::convert_bullet_list`. -/
def convert_bullet_list (recur : Str → Option Str) (lines : List Str) (start : Nat) :
    Option (Str × Nat) :=
  match cbl_go recur lines (2 * lines.length + 2) start with
  | none => none
  | some r => some (rstr "<ul>\n" ++ r.1 ++ rstr "</ul>", r.2)

/-- The item loop of `converter::convert_enumerated_list`. -/
def cel_go (recur : Str → Option Str) (lines : List Str) :
    Nat → Nat → Option (Str × Nat)
  | 0, i => some ([], i)
  | fuel + 1, i =>
    if i < lines.length then
      let trimmed := trim (lines.getD i [])
      if trimmed.isEmpty then
        if i + 1 < lines.length ∧ is_enumerated_item (trim (lines.getD (i + 1) [])) then
          cel_go recur lines fuel (i + 1)
        else if i + 1 < lines.length ∧ 0 < indent_of (lines.getD (i + 1) []) ∧
            ¬(trim (lines.getD (i + 1) [])).isEmpty then
          cel_go recur lines fuel (i + 1)
        else some ([], i)
      else if is_enumerated_item trimmed then
        let item_text := strip_enumerated_marker trimmed
        let fc := collect_list_item_content lines i item_text
        match render_list_item_content recur fc.1 with
        | none => none
        | some rendered =>
          match cel_go recur lines fuel fc.2 with
          | none => none
          | some r => some (rstr "<li>" ++ rendered ++ rstr "</li>\n" ++ r.1, r.2)
      else if 0 < indent_of (lines.getD i []) then cel_go recur lines fuel (i + 1)
      else some ([], i)
    else some ([], i)

/-- `converter::convert_enumerated_list`. -/
def convert_enumerated_list (recur : Str → Option Str) (lines : List Str)
    (start : Nat) : Option (Str × Nat) :=
  match cel_go recur lines (2 * lines.length + 2) start with
  | none => none
  | some r => some (rstr "<ol>\n" ++ r.1 ++ rstr "</ol>", r.2)

/-- The multi-line value collection of `converter::convert_field_list`. -/
def cfl_value_go (lines : List Str) : Nat → Nat → Str → Str × Nat
  | 0, j, full => (full, j)
  | fuel + 1, j, full =>
    if j < lines.length then
      let vl := lines.getD j []
      if (trim vl).isEmpty then
        if j + 1 < lines.length ∧ 0 < indent_of (lines.getD (j + 1) []) ∧
            ¬(trim (lines.getD (j + 1) [])).isEmpty then
          cfl_value_go lines fuel (j + 1) (full ++ ['\n'])
        else (full, j)
      else if 0 < indent_of vl then
        cfl_value_go lines fuel (j + 1) (full ++ [' '] ++ trim vl)
      else (full, j)
    else (full, j)

/-- The entry loop of `converter::convert_field_list`. -/
def cfl_go (recur : Str → Option Str) (lines : List Str) :
    Nat → Nat → Option (Str × Nat)
  | 0, i => some ([], i)
  | fuel + 1, i =>
    if i < lines.length then
      let trimmed := trim (lines.getD i [])
      if trimmed.isEmpty then
        if i + 1 < lines.length then
          let next := trim (lines.getD (i + 1) [])
          if starts_with next (rstr ":") ∧ ¬starts_with next (rstr "::") then
            cfl_go recur lines fuel (i + 1)
          else if 0 < indent_of (lines.getD (i + 1) []) then
            cfl_go recur lines fuel (i + 1)
          else some ([], i)
        else some ([], i)
      else if starts_with trimmed (rstr ":") ∧ ¬starts_with trimmed (rstr "::") then
        match find_char (trimmed.drop 1) ':' with
        | some e =>
          let name := (trimmed.drop 1).take e
          let value := trim (trimmed.drop (e + 2))
          let dt := rstr "<dt>" ++ escape_html name ++ rstr "</dt>\n"
          let fv := cfl_value_go lines (lines.length + 1) (i + 1) value
          if fv.1.isEmpty then
            match cfl_go recur lines fuel fv.2 with
            | none => none
            | some r => some (dt ++ rstr "<dd></dd>\n" ++ r.1, r.2)
          else
            match recur (trim fv.1) with
            | none => none
            | some content =>
              match cfl_go recur lines fuel fv.2 with
              | none => none
              | some r =>
                some (dt ++ rstr "<dd>" ++ content ++ rstr "</dd>\n" ++ r.1, r.2)
        | none => some ([], i)
      else some ([], i)
    else some ([], i)

/-- `converter::convert_field_list`. -/
def convert_field_list (recur : Str → Option Str) (lines : List Str) (start : Nat) :
    Option (Str × Nat) :=
  match cfl_go recur lines (2 * lines.length + 2) start with
  | none => none
  | some r => some (rstr "<dl>\n" ++ r.1 ++ rstr "</dl>", r.2)

/-- The definition-body collection of `converter::convert_definition_list`. -/
def cdl_def_go (lines : List Str) : Nat → Nat → List Str → List Str × Nat
  | 0, i, acc => (acc, i)
  | fuel + 1, i, acc =>
    if i < lines.length then
      let dl := lines.getD i []
      if (trim dl).isEmpty then
        if i + 1 < lines.length ∧ 0 < indent_of (lines.getD (i + 1) []) then
          cdl_def_go lines fuel (i + 1) (acc ++ [[]])
        else (acc, i)
      else if 0 < indent_of dl then cdl_def_go lines fuel (i + 1) (acc ++ [trim dl])
      else (acc, i)
    else (acc, i)

/-- The term loop of `converter::convert_definition_list`. -/
def cdl_go (lines : List Str) : Nat → Nat → Str × Nat
  | 0, i => ([], i)
  | fuel + 1, i =>
    if i < lines.length then
      let line := lines.getD i []
      let trimmed := trim line
      if trimmed.isEmpty then
        if i + 1 < lines.length ∧ ¬(trim (lines.getD (i + 1) [])).isEmpty ∧
            indent_of (lines.getD (i + 1) []) = 0 ∧ i + 2 < lines.length ∧
            0 < indent_of (lines.getD (i + 2) []) ∧
            ¬(trim (lines.getD (i + 2) [])).isEmpty ∧
            ¬is_section_adornment (trim (lines.getD (i + 2) [])) then
          cdl_go lines fuel (i + 1)
        else ([], i)
      else if indent_of line = 0 then
        let parts := splitn2 trimmed (rstr " : ")
        let dt := rstr "<dt>" ++ process_inline parts.1 ++
          (match parts.2 with
           | some cl =>
             ((split_on_sub cl (rstr " : ")).map (fun classifier =>
               rstr " <span class=\"classifier\">" ++ process_inline (trim classifier) ++
                 rstr "</span>")).flatten
           | none => []) ++ rstr "</dt>\n"
        let de := cdl_def_go lines (lines.length + 1) (i + 1) []
        let dd := rstr "<dd>" ++ process_inline (trim (join_with (rstr " ") de.1)) ++
          rstr "</dd>\n"
        let r := cdl_go lines fuel de.2
        (dt ++ dd ++ r.1, r.2)
      else cdl_go lines fuel (i + 1)
    else ([], i)

/-- `converter::convert_definition_list`. -/
def convert_definition_list (lines : List Str) (start : Nat) : Str × Nat :=
  let r := cdl_go lines (2 * lines.length + 2) start
  (rstr "<dl>\n" ++ r.1 ++ rstr "</dl>", r.2)

/-- `converter::collect_option_list`. -/
def col_collect_go (lines : List Str) : Nat → Nat → List Str → List Str × Nat
  | 0, e, acc => (acc, e)
  | fuel + 1, e, acc =>
    if e < lines.length ∧ ¬(trim (lines.getD e [])).isEmpty then
      col_collect_go lines fuel (e + 1) (acc ++ [trim (lines.getD e [])])
    else (acc, e)

def collect_option_list (lines : List Str) (start : Nat) : Str × Nat :=
  let r := col_collect_go lines (lines.length + 1) start []
  (join_with (rstr "\n") r.1, r.2)

/-- The paragraph loop of `converter::collect_paragraph`. -/
def cp_go (lines : List Str) (start : Nat) : Nat → Nat → List Str → Str × Nat
  | 0, i, acc => (join_with (rstr " ") acc, i)
  | fuel + 1, i, acc =>
    if i < lines.length then
      let trimmed := trim (lines.getD i [])
      if trimmed.isEmpty then (join_with (rstr " ") acc, i)
      else if 0 < indent_of (lines.getD i []) ∧ ¬acc.isEmpty then
        (join_with (rstr " ") acc, i)
      else if ¬acc.isEmpty ∧ (starts_with trimmed (rstr ".. ") ∨
          starts_with trimmed (rstr "- ") ∨ starts_with trimmed (rstr "* ") ∨
          is_enumerated_item trimmed ∨ is_simple_table_border trimmed ∨
          (starts_with trimmed (rstr "+") ∧ trimmed.contains '-')) then
        (join_with (rstr " ") acc, i)
      else if is_section_adornment trimmed ∧ ¬acc.isEmpty then
        if acc.dropLast.isEmpty then ([], start)
        else (join_with (rstr " ") acc.dropLast, i)
      else cp_go lines start fuel (i + 1) (acc ++ [trimmed])
    else (join_with (rstr " ") acc, i)

/-- `converter::collect_paragraph`.  When the line before an adornment is the
only collected line, the result is the empty paragraph with the *unchanged*
start index — the caller then loops without progress (see the claims about
termination). -/
def collect_paragraph (lines : List Str) (start : Nat) : Str × Nat :=
  cp_go lines start (lines.length + 1) start []

/-- Prepend emitted output to the rest of an optional (html, state) result. -/
def emit2 (out : Str) (r : Option (Str × ConverterState)) : Option (Str × ConverterState) :=
  r.map (fun p => (out ++ p.1, p.2))

/-- The cursor loop of `converter::second_pass`.  `recur` renders nested
block content (`convert_rst_content` at the remaining nesting budget);
`counters` is the section-numbering counter array (length 7, as in the
source).  `none` models a panic on this path or a cursor that stops
advancing (the source then loops forever). -/
def sp_go (recur : Str → Option Str) (lines : List Str) :
    Nat → Nat → ConverterState → List Nat → Option (Str × ConverterState)
  | 0, _, _, _ => none
  | fuel + 1, i, st, counters =>
    if i < lines.length then
      -- Empty (lines.getD i []): skip
      if (trim (lines.getD i [])).isEmpty then sp_go recur lines fuel (i + 1) st counters
      else
        -- Section title: (trim (lines.getD (i + 1) [])) followed by adornment
        if i + 1 < lines.length ∧ ¬starts_with (trim (lines.getD i [])) (rstr "..") ∧
            is_section_adornment (trim (lines.getD (i + 1) [])) ∧ utf8_len (trim (lines.getD i [])) ≤ utf8_len (trim (lines.getD (i + 1) [])) then
          let ch := (trim (lines.getD (i + 1) [])).headD ' '
          let lv := get_or_assign_level ch st.section_chars
          let st' := { st with section_chars := lv.2 }
          let slug := slugify (trim (lines.getD i []))
          if st'.sectnum ∧ lv.1 ≤ st'.sectnum_depth then
            if counters.length ≤ lv.1 then none  -- out-of-bounds counter: panic
            else
              let counters := counters.set lv.1 (counters.getD lv.1 0 + 1)
              let counters := counters.enum.map (fun p => if lv.1 < p.1 then 0 else p.2)
              let nums := join_with (rstr ".")
                (((counters.drop 1).take lv.1).map nat_to_str)
              let pre := st'.sectnum_pref ++ nums ++ st'.sectnum_suffix ++ [' ']
              emit2 (rstr "<h" ++ nat_to_str lv.1 ++ rstr " id=\"" ++ slug ++ rstr "\">" ++
                  pre ++ process_inline (trim (lines.getD i [])) ++ rstr "</h" ++ nat_to_str lv.1 ++
                  rstr ">\n")
                (sp_go recur lines fuel (i + 2) st' counters)
          else
            emit2 (rstr "<h" ++ nat_to_str lv.1 ++ rstr " id=\"" ++ slug ++ rstr "\">" ++
                process_inline (trim (lines.getD i [])) ++ rstr "</h" ++ nat_to_str lv.1 ++ rstr ">\n")
              (sp_go recur lines fuel (i + 2) st' counters)
        else
          -- Overlined section: adornment, (trim (lines.getD (i + 1) [])), adornment
          if i + 2 < lines.length ∧ is_section_adornment (trim (lines.getD i [])) ∧ ¬(trim (lines.getD (i + 1) [])).isEmpty ∧
              is_section_adornment (trim (lines.getD (i + 2) [])) ∧ (trim (lines.getD i [])).head? = (trim (lines.getD (i + 2) [])).head? then
            let ch := (trim (lines.getD i [])).headD ' '
            let lv := get_or_assign_level ch st.section_chars
            let st' := { st with section_chars := lv.2 }
            emit2 (rstr "<h" ++ nat_to_str lv.1 ++ rstr " id=\"" ++ slugify (trim (lines.getD (i + 1) [])) ++
                rstr "\">" ++ process_inline (trim (lines.getD (i + 1) [])) ++ rstr "</h" ++ nat_to_str lv.1 ++
                rstr ">\n")
              (sp_go recur lines fuel (i + 3) st' counters)
          -- Transition
          else if 4 ≤ utf8_len (trim (lines.getD i [])) ∧ is_section_adornment (trim (lines.getD i [])) ∧
              (i = 0 ∨ (trim (lines.getD (i - 1) [])).isEmpty) ∧
              (¬(i + 1 < lines.length) ∨ (trim (lines.getD (i + 1) [])).isEmpty) then
            emit2 (rstr "<hr>\n") (sp_go recur lines fuel (i + 1) st counters)
          -- Simple table
          else if is_simple_table_border (trim (lines.getD i [])) ∧ ¬(collect_simple_table lines i).1.isEmpty then
            let ct := collect_simple_table lines i
            match convert_simple_table ct.1 with
            | none => none
            | some t => emit2 (t ++ ['\n']) (sp_go recur lines fuel ct.2 st counters)
          -- Grid table
          else if starts_with (trim (lines.getD i [])) (rstr "+") ∧
              ((trim (lines.getD i [])).contains '-' ∨ (trim (lines.getD i [])).contains '=') ∧
              ends_with (trim (lines.getD i [])) (rstr "+") ∧ is_grid_table (collect_grid_table lines i).1 then
            let gt := collect_grid_table lines i
            match convert_grid_table gt.1 with
            | none => none
            | some t => emit2 (t ++ ['\n']) (sp_go recur lines fuel gt.2 st counters)
          -- Directive, substitution, target or comment
          else if starts_with (trim (lines.getD i [])) (rstr ".. ") then
            let rest := (trim (lines.getD i [])).drop 3
            if starts_with rest (rstr "|") ∧ (rest.drop 1).contains '|' then
              sp_go recur lines fuel (skip_indented_block lines i) st counters
            else if starts_with rest (rstr "_") then
              sp_go recur lines fuel (i + 1) st counters
            else
              let named :=
                match find_sub rest (rstr "::") with
                | some colon_pos =>
                  let name := trim (rest.take colon_pos)
                  if name ≠ [] ∧ ¬name.contains ' ' then
                    some (name, trim (rest.drop (colon_pos + 2)))
                  else none
                | none => none
              match named with
              | some (name, args) =>
                match collect_directive lines (i + 1) with
                | none => none
                | some (options, content, stop) =>
                  let info := DirectiveInfo.mk name args options content
                  match render_directive recur info st with
                  | none => none
                  | some dhtml =>
                    emit2 (if ¬dhtml.isEmpty then dhtml ++ ['\n'] else [])
                      (sp_go recur lines fuel stop st counters)
              | none =>
                sp_go recur lines fuel (skip_indented_block lines i) st counters
          -- Standalone :: literal block marker
          else if (trim (lines.getD i [])) = rstr "::" then
            let cb := collect_indented_block lines (i + 1)
            if ¬cb.1.isEmpty then
              match dedent cb.1 with
              | none => none
              | some code =>
                emit2 (rstr "<pre class=\"nohighlight\"><code>" ++
                    escape_html (trim code) ++ rstr "</code></pre>\n")
                  (sp_go recur lines fuel cb.2 st counters)
            else sp_go recur lines fuel cb.2 st counters
          -- Doctest block
          else if starts_with (trim (lines.getD i [])) (rstr ">>>") then
            let db := collect_doctest_block lines i
            emit2 (rstr "<pre class=\"doctest\"><code class=\"language-python\">" ++
                escape_html db.1 ++ rstr "</code></pre>\n")
              (sp_go recur lines fuel db.2 st counters)
          -- Line block
          else if starts_with (trim (lines.getD i [])) (rstr "| ") ∨ (trim (lines.getD i [])) = rstr "|" then
            let lb := convert_line_block lines i
            emit2 (lb.1 ++ ['\n']) (sp_go recur lines fuel lb.2 st counters)
          -- Bullet list
          else if (starts_with (trim (lines.getD i [])) (rstr "- ") ∨ starts_with (trim (lines.getD i [])) (rstr "* ") ∨
              starts_with (trim (lines.getD i [])) (rstr "+ ")) ∧ 2 < utf8_len (trim (lines.getD i [])) then
            match convert_bullet_list recur lines i with
            | none => none
            | some bl => emit2 (bl.1 ++ ['\n']) (sp_go recur lines fuel bl.2 st counters)
          -- Enumerated list
          else if is_enumerated_item (trim (lines.getD i [])) then
            match convert_enumerated_list recur lines i with
            | none => none
            | some el => emit2 (el.1 ++ ['\n']) (sp_go recur lines fuel el.2 st counters)
          -- Field list (not a role)
          else if starts_with (trim (lines.getD i [])) (rstr ":") ∧ ¬starts_with (trim (lines.getD i [])) (rstr "::") ∧
              (match find_char ((trim (lines.getD i [])).drop 1) ':' with
               | some sc =>
                 let name := ((trim (lines.getD i [])).drop 1).take sc
                 (¬name.isEmpty ∧ ¬name.contains '\n' ∧
                   ¬starts_with ((trim (lines.getD i [])).drop (sc + 2)) [bq] : Bool)
               | none => false) = true then
            match convert_field_list recur lines i with
            | none => none
            | some fl => emit2 (fl.1 ++ ['\n']) (sp_go recur lines fuel fl.2 st counters)
          -- Definition list
          else if indent_of (lines.getD i []) = 0 ∧ i + 1 < lines.length ∧
              0 < indent_of (lines.getD (i + 1) []) ∧
              ¬(trim (lines.getD (i + 1) [])).isEmpty ∧
              ¬starts_with (trim (lines.getD (i + 1) [])) (rstr "..") ∧
              ¬is_section_adornment (trim (lines.getD (i + 1) [])) then
            let dl := convert_definition_list lines i
            emit2 (dl.1 ++ ['\n']) (sp_go recur lines fuel dl.2 st counters)
          -- Option list
          else if is_option_line (trim (lines.getD i [])) ∧ is_option_list (collect_option_list lines i).1 then
            let ol := collect_option_list lines i
            emit2 (convert_option_list ol.1 i false ++ ['\n'])
              (sp_go recur lines fuel ol.2 st counters)
          -- Paragraph (default)
          else
            if ¬(collect_paragraph lines i).1.isEmpty then
              if ends_with (collect_paragraph lines i).1 (rstr "::") then
                let para_text :=
                  if (collect_paragraph lines i).1 = rstr "::" then []
                  else rstr "<p>" ++ process_inline (trim_end_matches_char (collect_paragraph lines i).1 ':') ++
                    rstr ":</p>\n"
                let cb := collect_indented_block lines (collect_paragraph lines i).2
                if ¬cb.1.isEmpty then
                  match dedent cb.1 with
                  | none => none
                  | some code =>
                    emit2 (para_text ++ rstr "<pre class=\"nohighlight\"><code>" ++
                        escape_html (trim code) ++ rstr "</code></pre>\n")
                      (sp_go recur lines fuel cb.2 st counters)
                else emit2 para_text (sp_go recur lines fuel cb.2 st counters)
              else
                emit2 (rstr "<p>" ++ process_inline (collect_paragraph lines i).1 ++ rstr "</p>\n")
                  (sp_go recur lines fuel (collect_paragraph lines i).2 st counters)
            else sp_go recur lines fuel (collect_paragraph lines i).2 st counters
    else some ([], st)

/-- `converter::second_pass` with an explicit nested renderer: header
fragment, the cursor loop, footer fragment. -/
def second_pass_with (recur : Str → Option Str) (lines : List Str)
    (st : ConverterState) : Option (Str × ConverterState) :=
  let header_html :=
    match st.header_content with
    | some h => rstr "<header>" ++ process_inline h ++ rstr "</header>\n"
    | none => []
  match sp_go recur lines (lines.length + 2) 0 st (List.replicate 7 0) with
  | none => none
  | some (body, st') =>
    let footer_html :=
      match st'.footer_content with
      | some f => rstr "<footer>" ++ process_inline f ++ rstr "</footer>\n"
      | none => []
    some (header_html ++ body ++ footer_html, st')

/-- `converter::convert_rst_content` at a given nesting budget: nested
renders always start from the fresh, empty `ConverterState::new` and never
run the substitution-resolution pass. -/
def convert_rst_content_fuel : Nat → Str → Option Str
  | 0, _ => none
  | fuel + 1, content =>
    if (trim content).isEmpty then some []
    else
      match second_pass_with (convert_rst_content_fuel fuel) (rust_lines content)
          converter_state_new with
      | some p => some p.1
      | none => none

/-- `converter::second_pass`. -/
def second_pass (fuel : Nat) (lines : List Str) (st : ConverterState) :
    Option (Str × ConverterState) :=
  second_pass_with (convert_rst_content_fuel fuel) lines st

/-- `converter::convert_with_options` (the one option, `add_data_lines`, is
dead: the option-list call site passes a literal `false`). -/
def convert_with_options (rst : Str) : Option Str :=
  let lines := rust_lines rst
  let st := first_pass lines converter_state_new
  match second_pass (rst.length + 2) lines st with
  | none => none
  | some (html, st') => some (resolve_substitutions html st')

/-- `converter::convert`. -/
def convert (rst : Str) : Option Str := convert_with_options rst

/-- `converter::convert_rst_content` at the same default nesting budget. -/
def convert_rst_content (content : Str) : Option Str :=
  convert_rst_content_fuel (content.length + 2) content

/-! ## Claim theorems -/

/-- C1: the claim states that `convert` terminates normally on every input,
in particular on non-ASCII text inside table blocks.  The code violates it:
simple-table cell extraction slices content lines at byte offsets taken from
the border, and on `"==== ====\naaaé b\n==== ===="` the offset 4 falls inside
the two-byte character `é`, so Rust's `&line[0..4]` panics.  This theorem
evaluates the embedded code at that input: the first line is dispatched as a
simple-table border, the column boundaries are `[(0,4),(5,9)]`, the cell
extraction hits the non-boundary (modelled `none`), and the whole conversion
has no normal result. -/
theorem c1_table_byte_slice_panics :
    is_simple_table_border (rstr "==== ====") = true ∧
    parse_column_boundaries (rstr "==== ====") = [(0, 4), (5, 9)] ∧
    extract_cells (rstr "aaaé b") [(0, 4), (5, 9)] = none ∧
    convert (rstr "==== ====\naaaé b\n==== ====") = none := by
  decide

/-- C5 counterexample: on the unterminated input `"**bold"` the inline engine
does not emit the literal text `**bold`. -/
theorem c5_counterexample :
    process_inline (rstr "**bold") ≠ rstr "**bold" := by
  decide

/-- C5 (amended): an unterminated span causes no panic and no error, but the
fall-through is not a literal emission of the opening delimiter: after the
double-star branch finds no closer, the single-star branch matches the second
star as the closer of an empty italic span, so `"**bold"` renders as
`<em></em>bold`. -/
theorem c5_amended :
    process_inline (rstr "**bold") = rstr "<em></em>bold" := by
  decide

/-- The role names matched by the arms of `roles::render_role`. -/
def known_roles : List Str :=
  [rstr "emphasis", rstr "strong", rstr "literal", rstr "code", rstr "subscript",
   rstr "sub", rstr "superscript", rstr "sup", rstr "title-reference", rstr "title",
   rstr "t", rstr "kbd", rstr "dfn", rstr "samp", rstr "guilabel",
   rstr "menuselection", rstr "file", rstr "command", rstr "program", rstr "option",
   rstr "envvar", rstr "makevar", rstr "math", rstr "ref", rstr "doc", rstr "term",
   rstr "abbr", rstr "abbreviation", rstr "pep", rstr "rfc", rstr "class",
   rstr "func", rstr "meth", rstr "mod", rstr "attr", rstr "exc", rstr "obj",
   rstr "data", rstr "const", rstr "type"]

/-- C9: for every role name outside the known-role table and every content
string, the role renderer returns exactly the generic span with both the name
and the content entity-escaped (and, being a total function of its inputs, it
never fails). -/
theorem c9_unknown_role (role content : Str) (h : role ∉ known_roles) :
    render_role role content =
      rstr "<span class=\"role-" ++ escape_html role ++ rstr "\">" ++
        escape_html content ++ rstr "</span>" := by
  simp only [known_roles, List.mem_cons, List.not_mem_nil, or_false, not_or] at h
  obtain ⟨h1, h2, h3, h4, h5, h6, h7, h8, h9, h10, h11, h12, h13, h14, h15, h16, h17, h18, h19, h20, h21, h22, h23, h24, h25, h26, h27, h28, h29, h30, h31, h32, h33, h34, h35, h36, h37, h38, h39, h40⟩ := h
  simp [render_role, h1, h2, h3, h4, h5, h6, h7, h8, h9, h10, h11, h12, h13, h14, h15, h16, h17, h18, h19, h20, h21, h22, h23, h24, h25, h26, h27, h28, h29, h30, h31, h32, h33, h34, h35, h36, h37, h38, h39, h40]

/-- C9 witness: the unknown-role theorem applied at the concrete role
`custom-role` with content that needs escaping. -/
theorem c9_witness :
    (rstr "custom-role") ∉ known_roles ∧
    render_role (rstr "custom-role") (rstr "a<b") =
      rstr "<span class=\"role-" ++ escape_html (rstr "custom-role") ++ rstr "\">" ++
        escape_html (rstr "a<b") ++ rstr "</span>" :=
  ⟨by decide, c9_unknown_role (rstr "custom-role") (rstr "a<b") (by decide)⟩

/-- Helper predicate for C7: no two adjacent hyphens. -/
def no_double_hyphen : Str → Bool
  | [] => true
  | [_] => true
  | a :: b :: rest => !(a = '-' ∧ b = '-') && no_double_hyphen (b :: rest)

/-- `rust_to_lower` never produces an ASCII uppercase letter. -/
theorem to_lower_not_upper (c : Char) : (rust_to_lower c).isUpper = false := by
  simp only [rust_to_lower, Char.toLower, Char.isUpper]
  split
  · rename_i h
    have hval : Char.isValidCharNat (c.toNat + 32) := by left; omega
    rw [Char.ofNat, dif_pos hval]
    have hv : (Char.ofNatAux (c.toNat + 32) hval).val.toBitVec.toNat = c.toNat + 32 := by
      unfold Char.ofNatAux
      simp [UInt32.ofNat', UInt32.toNat]
    simp only [ge_iff_le, Bool.and_eq_false_iff, decide_eq_false_iff_not,
      UInt32.le_def, BitVec.le_def]
    right
    have h90 : (90 : UInt32).toBitVec.toNat = 90 := rfl
    omega
  · rename_i h
    rw [not_and] at h
    simp only [ge_iff_le, Bool.and_eq_false_iff, decide_eq_false_iff_not,
      UInt32.le_def, BitVec.le_def]
    have h90 : (90 : UInt32).toBitVec.toNat = 90 := rfl
    have h65 : (65 : UInt32).toBitVec.toNat = 65 := rfl
    have hc : c.toNat = c.val.toBitVec.toNat := rfl
    by_cases hx : 65 ≤ c.toNat
    · right; have := h hx; omega
    · left; omega

/-- Appending a character keeps `no_double_hyphen` when it does not create an
adjacent hyphen pair. -/
theorem no_double_hyphen_append (l : Str) (c : Char)
    (h : no_double_hyphen l = true)
    (hc : ¬(l.getLast? = some '-' ∧ c = '-')) :
    no_double_hyphen (l ++ [c]) = true := by
  induction l with
  | nil => simp [no_double_hyphen]
  | cons a rest ih =>
    cases rest with
    | nil =>
      simp only [List.getLast?_singleton] at hc
      simp only [List.cons_append, List.nil_append, no_double_hyphen,
        Bool.and_eq_true, Bool.not_eq_true']
      constructor
      · by_cases ha : a = '-'
        · by_cases hcc : c = '-'
          · exact absurd ⟨by simp [ha], hcc⟩ hc
          · simp [ha, hcc]
        · simp [ha]
      · trivial
    | cons b rest2 =>
      simp only [no_double_hyphen, Bool.and_eq_true] at h
      have ih' := ih h.2 (by
        intro hx
        exact hc ⟨by rw [List.getLast?_cons_cons]; exact hx.1, hx.2⟩)
      simp only [List.cons_append, no_double_hyphen, Bool.and_eq_true]
      exact ⟨h.1, ih'⟩

/-- A left factor of a hyphen-clean string is hyphen-clean. -/
theorem no_double_hyphen_append_left (a b : Str)
    (h : no_double_hyphen (a ++ b) = true) : no_double_hyphen a = true := by
  induction a with
  | nil => rfl
  | cons x rest ih =>
    cases rest with
    | nil => rfl
    | cons y rest2 =>
      simp only [List.cons_append, no_double_hyphen, Bool.and_eq_true] at h ⊢
      exact ⟨h.1, ih h.2⟩

/-- The invariant of the `slugify` accumulation loop: every accumulated
character is a non-uppercase alphanumeric or a hyphen, with no two hyphens
adjacent. -/
theorem slugify_go_inv (input : Str) :
    ∀ acc : Str, (∀ c ∈ input, c.isUpper = false) →
    (∀ c ∈ acc, (rust_is_alphanumeric c = true ∧ c.isUpper = false) ∨ c = '-') →
    no_double_hyphen acc = true →
    (∀ c ∈ slugify_go input acc,
      (rust_is_alphanumeric c = true ∧ c.isUpper = false) ∨ c = '-') ∧
    no_double_hyphen (slugify_go input acc) = true := by
  induction input with
  | nil => intro acc _ hacc hnd; exact ⟨hacc, hnd⟩
  | cons ch rest ih =>
    intro acc hin hacc hnd
    have hch : ch.isUpper = false := hin ch (List.mem_cons_self _ _)
    have hrest : ∀ c ∈ rest, c.isUpper = false :=
      fun c hc => hin c (List.mem_cons_of_mem _ hc)
    by_cases halnum : rust_is_alphanumeric ch = true
    · have hgood : ∀ c ∈ acc ++ [ch],
          (rust_is_alphanumeric c = true ∧ c.isUpper = false) ∨ c = '-' := by
        intro c hc
        rcases List.mem_append.mp hc with h | h
        · exact hacc c h
        · rcases List.mem_singleton.mp h with rfl
          exact Or.inl ⟨halnum, hch⟩
      have hnd' : no_double_hyphen (acc ++ [ch]) = true := by
        apply no_double_hyphen_append _ _ hnd
        intro hx
        rw [hx.2] at halnum
        simp [rust_is_alphanumeric, Char.isAlphanum, Char.isAlpha, Char.isUpper,
          Char.isLower, Char.isDigit] at halnum
      have := ih (acc ++ [ch]) hrest hgood hnd'
      simpa [slugify_go, halnum] using this
    · by_cases hsep : ch = ' ' ∨ ch = '-' ∨ ch = '_'
      · by_cases hlast : acc.getLast? = some '-'
        · have := ih acc hrest hacc hnd
          simpa [slugify_go, halnum, hsep, hlast] using this
        · have hgood : ∀ c ∈ acc ++ ['-'],
              (rust_is_alphanumeric c = true ∧ c.isUpper = false) ∨ c = '-' := by
            intro c hc
            rcases List.mem_append.mp hc with h | h
            · exact hacc c h
            · rcases List.mem_singleton.mp h with rfl
              exact Or.inr rfl
          have hnd' : no_double_hyphen (acc ++ ['-']) = true :=
            no_double_hyphen_append _ _ hnd (fun hx => hlast hx.1)
          have := ih (acc ++ ['-']) hrest hgood hnd'
          simpa [slugify_go, halnum, hsep, hlast] using this
      · have := ih acc hrest hacc hnd
        simpa [slugify_go, halnum, hsep] using this

/-- Removing trailing hyphens leaves a prefix of the original string. -/
theorem trim_end_matches_char_prefix (s : Str) (c : Char) :
    trim_end_matches_char s c <+: s := by
  unfold trim_end_matches_char
  apply List.reverse_suffix.mp
  simpa using List.dropWhile_suffix (l := s.reverse) (fun x => x = c)

/-- C7 counterexample: `slugify` does not trim leading hyphens (a leading
space becomes a leading hyphen), and a run of non-alphanumerics other than
space/hyphen/underscore is dropped, not collapsed to a hyphen. -/
theorem c7_counterexample :
    slugify (rstr " a") = rstr "-a" ∧
    (slugify (rstr " a")).head? = some '-' ∧
    slugify (rstr "a.b") = rstr "ab" := by
  decide

/-- C7 (amended): every generated id consists of non-uppercase alphanumerics
and hyphens, never contains two adjacent hyphens, and never ends in a hyphen
(trailing hyphens are trimmed); leading hyphens are not trimmed. -/
theorem c7_amended (text : Str) :
    (∀ c ∈ slugify text,
      (rust_is_alphanumeric c = true ∧ c.isUpper = false) ∨ c = '-') ∧
    no_double_hyphen (slugify text) = true ∧
    (slugify text).getLast? ≠ some '-' := by
  have hin : ∀ c ∈ text.map rust_to_lower, c.isUpper = false := by
    intro c hc
    rcases List.mem_map.mp hc with ⟨d, _, rfl⟩
    exact to_lower_not_upper d
  have hinv := slugify_go_inv (text.map rust_to_lower) [] hin
    (by intro c hc; cases hc) rfl
  have hpre := trim_end_matches_char_prefix (slugify_go (text.map rust_to_lower) []) '-'
  obtain ⟨t, ht⟩ := hpre
  refine ⟨?_, ?_, ?_⟩
  · intro c hc
    apply hinv.1
    rw [slugify] at hc
    exact (List.IsPrefix.sublist ⟨t, ht⟩).subset hc
  · rw [slugify]
    apply no_double_hyphen_append_left _ t
    rw [ht]
    exact hinv.2
  · rw [slugify]
    unfold trim_end_matches_char
    rw [List.getLast?_reverse]
    have h := List.head?_dropWhile_not (fun x => x = '-') (slugify_go (text.map rust_to_lower) []).reverse
    intro hx
    rw [hx] at h
    simp at h

/-- C7 witness: the amended theorem applied at a concrete heading text. -/
theorem c7_witness :
    ((rust_is_alphanumeric 'o' = true ∧ 'o'.isUpper = false) ∨ 'o' = '-') ∧
    no_double_hyphen (slugify (rstr "Hello World!")) = true ∧
    (slugify (rstr "Hello World!")).getLast? ≠ some '-' :=
  ⟨(c7_amended (rstr "Hello World!")).1 'o' (by decide),
   (c7_amended (rstr "Hello World!")).2.1,
   (c7_amended (rstr "Hello World!")).2.2⟩


/-- Document for C4: a substitution definition followed by a `note` directive
whose body contains that substitution placeholder. -/
def c4_doc : Str :=
  rstr ".. |x| replace:: Y\n\n.. note::\n\n   |x|"

/-- C4: the claim says that substitution placeholders left in nested output are
never resolved.  Counterexample: the nested conversion of the note body does
leave the placeholder in place (first conjunct), but the enclosing document
runs `resolve_substitutions` over the whole emitted HTML, so the placeholder
inside the nested directive fragment comes out replaced by `Y` (second
conjunct). -/
theorem c4_counterexample :
    convert_rst_content (rstr "|x|") = some (rstr "<p>|x|</p>\n") ∧
    convert c4_doc = some (rstr
      "<div class=\"admonition note\">\n<p class=\"admonition-title\">Note</p>\n<p>Y</p>\n\n</div>\n") := by
  constructor
  · decide
  · decide

/-- C4 (amended): nested conversions do run against a fresh empty state — the
rendered fragment of any directive other than `contents` and `target-notes`
is independent of the enclosing state, and the nested conversion itself
leaves `|name|` placeholders untouched — but the enclosing document's final
substitution pass rewrites the whole emitted HTML, nested fragments
included, so such placeholders are resolved after all whenever the
enclosing document defines the name. -/
theorem c4_amended :
    (∀ (recur : Str → Option Str) (info : DirectiveInfo) (s1 s2 : ConverterState),
        info.name ≠ rstr "contents" → info.name ≠ rstr "target-notes" →
        render_directive recur info s1 = render_directive recur info s2) ∧
    convert_rst_content (rstr "|x|") = some (rstr "<p>|x|</p>\n") := by
  refine ⟨?_, by decide⟩
  intro recur info s1 s2 h1 h2
  unfold render_directive
  simp only [if_neg h1, if_neg h2]

/-- C4 witness: the state-independence part of the amended theorem applied to
the `note` directive at two concretely different enclosing states. -/
theorem c4_witness :
    render_directive convert_rst_content
      (DirectiveInfo.mk (rstr "note") [] [] (rstr "|x|"))
      { converter_state_new with
          substitutions := [(rstr "x", rstr "Y")],
          header_content := some (rstr "H") } =
    render_directive convert_rst_content
      (DirectiveInfo.mk (rstr "note") [] [] (rstr "|x|"))
      converter_state_new :=
  c4_amended.1 convert_rst_content
    (DirectiveInfo.mk (rstr "note") [] [] (rstr "|x|"))
    { converter_state_new with
        substitutions := [(rstr "x", rstr "Y")],
        header_content := some (rstr "H") }
    converter_state_new (by decide) (by decide)


/-- Helper for C6: the sectnum-options loop never touches the collected
section titles. -/
lemma fp_sectnum_opts_titles (lines : List Str) :
    ∀ (fuel j : Nat) (st : ConverterState),
      (fp_sectnum_opts lines fuel j st).section_titles = st.section_titles := by
  intro fuel
  induction fuel with
  | zero => intro j st; rfl
  | succ n ih =>
    intro j st
    rw [fp_sectnum_opts]
    dsimp only
    split_ifs
    · rw [ih]
      split
      · split_ifs <;> rfl
      · rfl
    · rfl
    · rfl

/-- Helper for C6: the metadata branch of the first pass (substitutions,
targets, sectnum, header, footer) never touches the collected section
titles. -/
lemma fp_dotdot_titles (lines : List Str) (i : Nat) (st : ConverterState)
    (rest : Str) : (fp_dotdot lines i st rest).section_titles = st.section_titles := by
  unfold fp_dotdot
  dsimp only
  split_ifs <;> (repeat' split) <;> simp [fp_sectnum_opts_titles]

/-- Helper for C6: the first-pass loop is the identity once the line index is
out of range. -/
lemma fp_go_stop (lines : List Str) (fuel i : Nat) (st : ConverterState)
    (h : ¬ i < lines.length) : fp_go lines fuel i st = st := by
  cases fuel with
  | zero => rfl
  | succ n => rw [fp_go, if_neg h]

/-- Helper for C6: if at every position both section-title guards of the
first-pass loop fail, the loop never adds a section title. -/
lemma fp_go_no_title (lines : List Str)
    (hno : ∀ i,
      ¬(i + 1 < lines.length ∧ ¬(trim (lines.getD i [])).isEmpty ∧
         is_section_adornment (trim (lines.getD (i + 1) [])) ∧
         utf8_len (trim (lines.getD i [])) ≤ utf8_len (trim (lines.getD (i + 1) []))) ∧
      ¬(i + 2 < lines.length ∧ is_section_adornment (trim (lines.getD i [])) ∧
         ¬(trim (lines.getD (i + 1) [])).isEmpty ∧
         is_section_adornment (trim (lines.getD (i + 2) [])) ∧
         (trim (lines.getD i [])).head? = (trim (lines.getD (i + 2) [])).head?)) :
    ∀ (fuel i : Nat) (st : ConverterState),
      (fp_go lines fuel i st).section_titles = st.section_titles := by
  intro fuel
  induction fuel with
  | zero => intro i st; rfl
  | succ n ih =>
    intro i st
    rw [fp_go]
    dsimp only
    split_ifs with h1 h2 h3 h4
    · exact absurd h2 (hno i).1
    · exact absurd h3 (hno i).2
    · rw [ih, fp_dotdot_titles]
    · rw [ih]
    · rfl

/-- C6: the claim says a section-title candidate whose underline/overline is
shorter than the title text is never consumed as a section title.
Counterexample: in the overline + text + underline form the code performs no
length comparison at all, so a 4-character overline/underline pair around the
12-character text `Longer Title` is consumed and rendered as an `h1`. -/
theorem c6_counterexample :
    utf8_len (trim (rstr "====")) < utf8_len (trim (rstr "Longer Title")) ∧
    (first_pass [rstr "====", rstr "Longer Title", rstr "===="]
        converter_state_new).section_titles = [(1, rstr "Longer Title")] ∧
    convert (rstr "====\nLonger Title\n====") =
      some (rstr "<h1 id=\"longer-title\">Longer Title</h1>\n") := by
  refine ⟨by decide, by decide, by decide⟩

/-- C6 (amended): the two-line text + underline form does enforce the length
requirement — an underline strictly shorter than the trimmed title text is
never consumed as a section title (first conjunct) — but the overline +
text + underline form only checks that overline and underline are adornment
lines starting with the same character: it performs no length check, and a
candidate whose underline is strictly shorter than the text is still
consumed as a section title (second conjunct). -/
theorem c6_amended :
    (∀ (t u : Str) (st : ConverterState),
        utf8_len (trim u) < utf8_len (trim t) →
        (first_pass [t, u] st).section_titles = st.section_titles) ∧
    (∀ (o t u : Str) (st : ConverterState),
        is_section_adornment (trim o) →
        is_section_adornment (trim t) = false →
        ¬(trim t).isEmpty →
        is_section_adornment (trim u) →
        (trim o).head? = (trim u).head? →
        utf8_len (trim u) < utf8_len (trim t) →
        (first_pass [o, t, u] st).section_titles =
          st.section_titles ++
            [((get_or_assign_level ((trim o).headD ' ') st.section_chars).1,
              trim t)]) := by
  constructor
  · intro t u st h
    refine fp_go_no_title [t, u] ?_ _ 0 st
    intro i
    match i with
    | 0 =>
      refine ⟨fun hc => ?_, fun hc => ?_⟩
      · have hle : utf8_len (trim t) ≤ utf8_len (trim u) := hc.2.2.2
        omega
      · have h2 : (2 : Nat) < 2 := hc.1
        omega
    | 1 =>
      refine ⟨fun hc => ?_, fun hc => ?_⟩
      · have h2 : (2 : Nat) < 2 := hc.1
        omega
      · have h3 : (3 : Nat) < 2 := hc.1
        omega
    | (n + 2) =>
      refine ⟨fun hc => ?_, fun hc => ?_⟩
      · have h2 : n + 2 + 1 < 2 := hc.1
        omega
      · have h3 : n + 2 + 2 < 2 := hc.1
        omega
  · intro o t u st ho hft hne hu hhead _hlen
    show (fp_go [o, t, u] (List.length [o, t, u] + 1) 0 st).section_titles = _
    rw [fp_go]
    dsimp only
    split_ifs with h1 h2 h3
    · have hx : is_section_adornment (trim t) = true := h2.2.2.1
      rw [hft] at hx
      exact absurd hx (by decide)
    · rw [fp_go_stop _ _ _ _ (by simp)]
      rfl
    · exact absurd ⟨by simp, ho, hne, hu, hhead⟩ h3
    · exact absurd ⟨by simp, ho, hne, hu, hhead⟩ h3
    · exact absurd (by simp) h1

/-- C6 witness: the amended theorem applied at concrete inputs — the
underlined form rejects a short underline under `Hello World!`, while the
overlined form accepts the same short adornments around `Longer Title`. -/
theorem c6_witness :
    (first_pass [rstr "Hello World!", rstr "===="]
        converter_state_new).section_titles = [] ∧
    (first_pass [rstr "====", rstr "Longer Title", rstr "===="]
        converter_state_new).section_titles = [(1, rstr "Longer Title")] := by
  constructor
  · exact c6_amended.1 (rstr "Hello World!") (rstr "====")
      converter_state_new (by decide)
  · have h := c6_amended.2 (rstr "====") (rstr "Longer Title") (rstr "====")
      converter_state_new (by decide) (by decide) (by decide) (by decide)
      (by decide) (by decide)
    rw [h]
    decide

/-- Helper for C10: characters of the newline-split pieces come from the
original string. -/
lemma mem_split_nl (s : Str) : ∀ l ∈ split_nl s, ∀ c ∈ l, c ∈ s := by
  induction s with
  | nil =>
    intro l hl c hc
    simp only [split_nl, List.mem_singleton] at hl
    subst hl
    simp at hc
  | cons a rest ih =>
    intro l hl c hc
    rw [split_nl] at hl
    by_cases ha : a = Char.ofNat 10
    · rw [if_pos ha] at hl
      rcases List.mem_cons.mp hl with rfl | hmem
      · simp at hc
      · exact List.mem_cons_of_mem _ (ih l hmem c hc)
    · rw [if_neg ha] at hl
      cases hsp : split_nl rest with
      | nil =>
        rw [hsp] at hl
        simp only [List.mem_singleton] at hl
        subst hl
        rcases List.mem_cons.mp hc with rfl | hc2
        · exact List.mem_cons_self _ _
        · simp at hc2
      | cons h0 t0 =>
        rw [hsp] at hl
        rcases List.mem_cons.mp hl with rfl | hmem
        · rcases List.mem_cons.mp hc with rfl | hc2
          · exact List.mem_cons_self _ _
          · exact List.mem_cons_of_mem _
              (ih h0 (hsp ▸ List.mem_cons_self h0 t0) c hc2)
        · exact List.mem_cons_of_mem _
            (ih l (hsp ▸ List.mem_cons_of_mem h0 hmem) c hc)

/-- Helper for C10: stripping a carriage return keeps a subset of the
characters. -/
lemma mem_strip_cr (l : Str) : ∀ c ∈ strip_cr l, c ∈ l := by
  intro c hc
  unfold strip_cr at hc
  split at hc
  · split_ifs at hc
    · exact List.dropLast_subset _ hc
    · exact hc
  · exact hc

/-- Helper for C10: characters of any line of `rust_lines s` occur in `s`. -/
lemma mem_rust_lines (s : Str) : ∀ l ∈ rust_lines s, ∀ c ∈ l, c ∈ s := by
  intro l hl c hc
  unfold rust_lines at hl
  by_cases he : s.isEmpty
  · rw [if_pos he] at hl
    simp at hl
  · rw [if_neg he] at hl
    dsimp only at hl
    rcases List.mem_map.mp hl with ⟨l0, hl0, rfl⟩
    have hl0m : l0 ∈ split_nl s := by
      by_cases hlast : s.getLast? = some (Char.ofNat 10)
      · rw [if_pos hlast] at hl0
        exact List.dropLast_subset _ hl0
      · rw [if_neg hlast] at hl0
        exact hl0
    exact mem_split_nl s l0 hl0m c (mem_strip_cr l0 c hc)

/-- Helper for C10: a string of whitespace characters trims to the empty
string. -/
lemma trim_eq_nil (l : Str) (h : ∀ c ∈ l, rust_is_whitespace c = true) :
    trim l = [] := by
  have h1 : l.dropWhile rust_is_whitespace = [] :=
    List.dropWhile_eq_nil_iff.mpr h
  show ((l.dropWhile rust_is_whitespace).reverse.dropWhile
      rust_is_whitespace).reverse = []
  rw [h1]
  rfl

/-- Helper for C10: an in-range default read of a list is one of its
members. -/
lemma getD_mem_of_lt (l : List Str) (i : Nat) (h : i < l.length) :
    l.getD i [] ∈ l := by
  rw [List.getD_eq_getElem l [] h]
  exact List.getElem_mem h

/-- Helper for C10: the first pass is the identity on a document whose lines
all trim to the empty string. -/
lemma fp_go_blank (lines : List Str) (hb : ∀ l ∈ lines, trim l = []) :
    ∀ (fuel i : Nat) (st : ConverterState), fp_go lines fuel i st = st := by
  intro fuel
  induction fuel with
  | zero => intro i st; rfl
  | succ n ih =>
    intro i st
    rw [fp_go]
    dsimp only
    split_ifs with h1 h2 h3 h4
    · have ht : trim (lines.getD i []) = [] := hb _ (getD_mem_of_lt _ _ h1)
      have hx := h2.2.1
      rw [ht] at hx
      exact absurd rfl hx
    · have ht : trim (lines.getD i []) = [] := hb _ (getD_mem_of_lt _ _ h1)
      have hx := h3.2.1
      rw [ht] at hx
      exact absurd hx (by decide)
    · have ht : trim (lines.getD i []) = [] := hb _ (getD_mem_of_lt _ _ h1)
      rw [ht] at h4
      exact absurd h4 (by decide)
    · exact ih (i + 1) st
    · rfl

/-- Helper for C10: the second-pass cursor loop over blank lines emits
nothing and keeps the state. -/
lemma sp_go_blank (recur : Str → Option Str) (lines : List Str)
    (hb : ∀ l ∈ lines, trim l = []) :
    ∀ (fuel i : Nat) (st : ConverterState) (counters : List Nat),
      lines.length - i < fuel →
      sp_go recur lines fuel i st counters = some ([], st) := by
  intro fuel
  induction fuel with
  | zero => intro i st counters h; omega
  | succ n ih =>
    intro i st counters h
    rw [sp_go]
    by_cases h1 : i < lines.length
    · rw [if_pos h1]
      dsimp only
      have ht : trim (lines.getD i []) = [] := hb _ (getD_mem_of_lt _ _ h1)
      rw [ht]
      rw [if_pos (show (List.isEmpty ([] : Str)) = true from rfl)]
      exact ih (i + 1) st counters (by omega)
    · rw [if_neg h1]

/-- C10: converting an input made only of whitespace characters (including
the empty input) yields the empty string — no paragraph, header, footer or
other wrapper markup. -/
theorem c10_whitespace_only (s : Str)
    (h : ∀ c ∈ s, rust_is_whitespace c = true) : convert s = some [] := by
  have hlines : ∀ l ∈ rust_lines s, trim l = [] := fun l hl =>
    trim_eq_nil l (fun c hc => h c (mem_rust_lines s l hl c hc))
  have hfp : first_pass (rust_lines s) converter_state_new =
      converter_state_new :=
    fp_go_blank (rust_lines s) hlines _ 0 converter_state_new
  have hsp : sp_go (convert_rst_content_fuel (s.length + 2)) (rust_lines s)
      ((rust_lines s).length + 2) 0 converter_state_new (List.replicate 7 0) =
      some ([], converter_state_new) :=
    sp_go_blank _ _ hlines _ 0 _ _ (by omega)
  show convert_with_options s = some []
  unfold convert_with_options second_pass second_pass_with
  dsimp only
  rw [hfp, hsp]
  rfl

/-- C10 witness: the whitespace-only theorem applied at a concrete mix of
spaces, tabs and newlines. -/
theorem c10_witness :
    (∀ c ∈ rstr "  \n \t ", rust_is_whitespace c = true) ∧
    convert (rstr "  \n \t ") = some [] :=
  ⟨by decide, c10_whitespace_only (rstr "  \n \t ") (by decide)⟩

/-- The trace of heading levels produced by folding the source's
`get_or_assign_level` over the adornment characters encountered in document
order, starting from a given already-seen list. -/
def assign_levels_go : List Char → List Char → List Nat
  | _, [] => []
  | chars, c :: rest =>
    (get_or_assign_level c chars).1 ::
      assign_levels_go (get_or_assign_level c chars).2 rest

/-- The heading levels assigned to a document's adornment-character sequence,
starting from the empty seen list, as `converter::first_pass` and
`converter::second_pass` do. -/
def assign_levels (seq : List Char) : List Nat := assign_levels_go [] seq

/-- Spec-side helper for C3: running list of distinct characters in order of
first occurrence. -/
def extend_seen : List Char → List Char → List Char
  | chars, [] => chars
  | chars, c :: rest => extend_seen (if c ∈ chars then chars else chars ++ [c]) rest

/-- Spec-side helper for C3: the distinct characters of a sequence in order
of first occurrence. -/
def first_seen (seq : List Char) : List Char := extend_seen [] seq

/-- Spec-side helper for C3: 0-based index of the first occurrence of a
character. -/
def idx_of (c : Char) : List Char → Nat
  | [] => 0
  | x :: xs => if x = c then 0 else idx_of c xs + 1

/-- Helper for C3: extending the seen list only appends. -/
lemma extend_seen_append : ∀ (rest chars : List Char),
    ∃ t, extend_seen chars rest = chars ++ t := by
  intro rest
  induction rest with
  | nil => intro chars; exact ⟨[], (List.append_nil chars).symm⟩
  | cons c rest ih =>
    intro chars
    by_cases hc : c ∈ chars
    · rw [extend_seen, if_pos hc]
      exact ih chars
    · rw [extend_seen, if_neg hc]
      obtain ⟨t, ht⟩ := ih (chars ++ [c])
      exact ⟨[c] ++ t, by rw [ht, List.append_assoc]⟩

/-- Helper for C3: the index of a present character is unchanged by
appending. -/
lemma idx_of_append (c : Char) : ∀ (chars t : List Char), c ∈ chars →
    idx_of c (chars ++ t) = idx_of c chars := by
  intro chars
  induction chars with
  | nil => intro t h; simp at h
  | cons x xs ih =>
    intro t h
    rw [List.cons_append, idx_of, idx_of]
    by_cases hx : x = c
    · rw [if_pos hx, if_pos hx]
    · rw [if_neg hx, if_neg hx]
      rcases List.mem_cons.mp h with rfl | hmem
      · exact absurd rfl hx
      · rw [ih t hmem]

/-- Helper for C3: a fresh character appended at the end sits at index
`length`. -/
lemma idx_of_append_self (c : Char) : ∀ (chars : List Char), c ∉ chars →
    idx_of c (chars ++ [c]) = chars.length := by
  intro chars
  induction chars with
  | nil => intro _; rw [List.nil_append, idx_of, if_pos rfl]; rfl
  | cons x xs ih =>
    intro h
    rw [List.cons_append, idx_of,
      if_neg (fun hx => h (by rw [← hx]; exact List.mem_cons_self x xs)), List.length_cons,
      ih (fun hm => h (List.mem_cons_of_mem x hm))]

/-- Helper for C3: the index of a present character is unchanged by further
extension of the seen list. -/
lemma idx_of_extend (rest chars : List Char) (c : Char) (h : c ∈ chars) :
    idx_of c (extend_seen chars rest) = idx_of c chars := by
  obtain ⟨t, ht⟩ := extend_seen_append rest chars
  rw [ht, idx_of_append c chars t h]

/-- Helper for C3: a successful position search means membership, and the
position is the first-occurrence index. -/
lemma findIdx_eq_some_spec (c : Char) : ∀ (chars : List Char) (pos : Nat),
    chars.findIdx? (· = c) = some pos → c ∈ chars ∧ idx_of c chars = pos := by
  intro chars
  induction chars with
  | nil =>
    intro pos h
    rw [List.findIdx?_nil] at h
    cases h
  | cons x xs ih =>
    intro pos h
    rw [List.findIdx?_cons] at h
    by_cases hx : x = c
    · rw [if_pos (by simp [hx])] at h
      cases h
      exact ⟨by rw [← hx]; exact List.mem_cons_self x xs, by rw [idx_of, if_pos hx]⟩
    · rw [if_neg (by simp [hx])] at h
      rw [List.findIdx?_succ] at h
      rcases Option.map_eq_some'.mp h with ⟨q, hq, hpos⟩
      obtain ⟨hmem, hidx⟩ := ih q hq
      refine ⟨List.mem_cons_of_mem x hmem, ?_⟩
      rw [idx_of, if_neg hx, hidx]
      omega

/-- Helper for C3: a failed position search means the character is fresh. -/
lemma findIdx_eq_none_spec (c : Char) (chars : List Char)
    (h : chars.findIdx? (· = c) = none) : c ∉ chars := by
  intro hmem
  have := List.findIdx?_eq_none_iff.mp h c hmem
  simp at this

/-- Helper for C3: the level trace is the first-occurrence index (1-based) in
the fully extended seen list. -/
lemma assign_go_spec : ∀ (seq chars : List Char),
    assign_levels_go chars seq =
      seq.map (fun c => idx_of c (extend_seen chars seq) + 1) := by
  intro seq
  induction seq with
  | nil => intro chars; rfl
  | cons c rest ih =>
    intro chars
    rw [assign_levels_go]
    unfold get_or_assign_level
    cases hf : chars.findIdx? (· = c) with
    | some pos =>
      obtain ⟨hcm, hidx⟩ := findIdx_eq_some_spec c chars pos hf
      dsimp only
      rw [show extend_seen chars (c :: rest) = extend_seen chars rest from by
        rw [extend_seen, if_pos hcm]]
      rw [List.map_cons]
      congr 1
      · rw [idx_of_extend rest chars c hcm, hidx]
      · rw [ih chars]
    | none =>
      have hcm : c ∉ chars := findIdx_eq_none_spec c chars hf
      dsimp only
      rw [show extend_seen chars (c :: rest) = extend_seen (chars ++ [c]) rest
        from by rw [extend_seen, if_neg hcm]]
      rw [List.map_cons]
      congr 1
      · rw [idx_of_extend rest (chars ++ [c]) c
            (List.mem_append_right chars (List.mem_singleton_self c)),
          idx_of_append_self c chars hcm]
      · rw [ih (chars ++ [c])]

/-- C3: heading levels are assigned by order of first occurrence and are
stable for the rest of the document — the level trace obtained by folding
`get_or_assign_level` over the encountered adornment characters equals, at
every position, one plus the first-occurrence index of that character among
the distinct characters in encounter order (so the i-th distinct character
gets level i), and two occurrences of the same character always receive the
same level. -/
theorem c3_level_assignment (seq : List Char) :
    assign_levels seq = seq.map (fun c => idx_of c (first_seen seq) + 1) ∧
    (∀ i j, i < seq.length → j < seq.length →
      seq.getD i ' ' = seq.getD j ' ' →
      (assign_levels seq).getD i 0 = (assign_levels seq).getD j 0) := by
  have h1 : assign_levels seq = seq.map (fun c => idx_of c (first_seen seq) + 1) :=
    assign_go_spec seq []
  refine ⟨h1, ?_⟩
  intro i j hi hj hij
  have hlen : (seq.map (fun c => idx_of c (first_seen seq) + 1)).length =
      seq.length := List.length_map seq _
  rw [h1,
    List.getD_eq_getElem _ 0 (show i < _ from by rw [hlen]; exact hi),
    List.getD_eq_getElem _ 0 (show j < _ from by rw [hlen]; exact hj),
    List.getElem_map, List.getElem_map]
  rw [List.getD_eq_getElem _ ' ' hi, List.getD_eq_getElem _ ' ' hj] at hij
  rw [hij]

/-- C3 witness: the level-assignment theorem applied at the concrete
adornment sequence `=`, `-`, `=`, `~`: levels `[1, 2, 1, 3]`, and the two
uses of `=` get the same level. -/
theorem c3_witness :
    assign_levels (rstr "=-=~") = [1, 2, 1, 3] ∧
    (assign_levels (rstr "=-=~")).getD 0 0 =
      (assign_levels (rstr "=-=~")).getD 2 0 := by
  constructor
  · have h := (c3_level_assignment (rstr "=-=~")).1
    rw [h]
    decide
  · exact (c3_level_assignment (rstr "=-=~")).2 0 2 (by decide) (by decide)
      (by decide)


/-- Spec-side helper for C8: the colspan total of one parsed row. -/
def row_span_sum (row : List SpannedCell) : Nat :=
  (row.map SpannedCell.colspan).sum

/-- Helper for C8: a successful border scan yields a span that stays inside
the column grid. -/
lemma ds_scan_span_le (num_cols : Nat) (cps bb : List Nat) (col : Nat) :
    ∀ (fuel check_col sp : Nat),
      ds_scan_span num_cols cps bb col fuel check_col = some sp →
      col ≤ check_col → 1 ≤ sp ∧ col + sp ≤ num_cols := by
  intro fuel
  induction fuel with
  | zero => intro check_col sp h _; cases h
  | succ n ih =>
    intro check_col sp h hcc
    rw [ds_scan_span] at h
    by_cases h1 : check_col < num_cols
    · rw [if_pos h1] at h
      split at h
      · split_ifs at h
        · injection h with h2
          omega
        · exact ih (check_col + 1) sp h (by omega)
      · exact ih (check_col + 1) sp h (by omega)
    · rw [if_neg h1] at h
      cases h

/-- Helper for C8: a cell span is at least 1 and never overshoots the column
grid. -/
lemma ds_span_bound (num_cols : Nat) (cps bb : List Nat) (col : Nat)
    (hc : col < num_cols) :
    1 ≤ ds_span num_cols cps bb col ∧
      col + ds_span num_cols cps bb col ≤ num_cols := by
  unfold ds_span
  split
  · split_ifs
    · split
      · rename_i sp hsp
        exact ds_scan_span_le num_cols cps bb col (num_cols + 1) (col + 1) sp
          hsp (by omega)
      · omega
    · omega
  · omega

/-- Helper for C8: the colspans produced by the column loop starting at
column `col` sum to exactly the remaining `num_cols - col` columns. -/
lemma ds_row_go_sum (num_cols : Nat) (cps bb nbb : List Nat)
    (cls : List Str) : ∀ (fuel col : Nat) (cells : List SpannedCell),
      num_cols - col ≤ fuel →
      ds_row_go num_cols cps bb nbb cls fuel col = some cells →
      row_span_sum cells = num_cols - col := by
  intro fuel
  induction fuel with
  | zero =>
    intro col cells hf h
    cases h
    show (([] : List SpannedCell).map SpannedCell.colspan).sum = num_cols - col
    simp
    omega
  | succ n ih =>
    intro col cells hf h
    rw [ds_row_go] at h
    by_cases hc : col < num_cols
    · rw [if_pos hc] at h
      dsimp only at h
      split at h
      · cases h
      · split at h
        · cases h
        · rename_i rest hrec
          injection h with h2
          subst h2
          have hb := ds_span_bound num_cols cps bb col hc
          have hr := ih (col + ds_span num_cols cps bb col) rest (by omega) hrec
          unfold row_span_sum at hr ⊢
          rw [List.map_cons, List.sum_cons]
          dsimp only
          omega
    · rw [if_neg hc] at h
      cases h
      show (([] : List SpannedCell).map SpannedCell.colspan).sum = num_cols - col
      simp
      omega

/-- Helper for C8: every row built by the border-pair loop tiles all
`num_cols` columns. -/
lemma ds_rows_sums (lines : List Str) (num_cols : Nat) (cps : List Nat) :
    ∀ (pairs : List (Nat × Nat)) (rows : List (List SpannedCell)),
      ds_rows lines num_cols cps pairs = some rows →
      ∀ row ∈ rows, row_span_sum row = num_cols := by
  intro pairs
  induction pairs with
  | nil =>
    intro rows h
    cases h
    intro row hr
    simp at hr
  | cons p rest ih =>
    obtain ⟨start, stop⟩ := p
    intro rows h
    rw [ds_rows] at h
    split_ifs at h
    · exact ih rows h
    · split at h
      · cases h
      · rename_i row0 hrow0
        split at h
        · cases h
        · rename_i rest0 hrest0
          injection h with h2
          subst h2
          intro row hr
          rcases List.mem_cons.mp hr with rfl | hmem
          · have := ds_row_go_sum num_cols cps
              (str_bytes (lines.getD start [])) (str_bytes (lines.getD stop []))
              _ (num_cols + 1) 0 row (by omega) hrow0
            simpa using this
          · exact ih rest0 hrest0 row hmem

/-- Helper for C8: setting a list entry to a value it already holds is the
identity. -/
lemma set_same {α : Type} : ∀ (l : List α) (i : Nat) (a : α),
    l.get? i = some a → l.set i a = l := by
  intro l
  induction l with
  | nil => intro i a h; cases h
  | cons x xs ih =>
    intro i a h
    cases i with
    | zero =>
      injection h with h2
      rw [List.set, h2]
    | succ j =>
      rw [List.set, ih j a h]

/-- Helper for C8: flagging a cell as covered does not change any row's
colspan total. -/
lemma set_skip_sums (rows : List (List SpannedCell)) (r c : Nat) :
    (set_skip rows r c).map row_span_sum = rows.map row_span_sum := by
  unfold set_skip
  split
  · rename_i row hrow
    split
    · rename_i cell hcell
      rw [List.map_set]
      apply set_same
      rw [List.get?_map, hrow]
      show some (row_span_sum row) =
        some (row_span_sum (row.set c { cell with skip := true }))
      congr 1
      unfold row_span_sum
      rw [List.map_set]
      congr 1
      symm
      apply set_same
      rw [List.get?_map, hcell]
      rfl
    · rfl
  · rfl

/-- Helper for C8: a fold whose step keeps the row totals keeps the row
totals. -/
lemma foldl_sums_preserve {β : Type}
    (f : List (List SpannedCell) → β → List (List SpannedCell))
    (hf : ∀ acc b, (f acc b).map row_span_sum = acc.map row_span_sum) :
    ∀ (l : List β) (acc : List (List SpannedCell)),
      ((l.foldl f acc).map row_span_sum) = acc.map row_span_sum := by
  intro l
  induction l with
  | nil => intro acc; rfl
  | cons x xs ih =>
    intro acc
    rw [List.foldl_cons, ih, hf]

/-- Helper for C8: marking one cell's covered rows keeps all row totals. -/
lemma mark_one_sums (rows : List (List SpannedCell)) (r c : Nat) :
    (mark_one rows r c).map row_span_sum = rows.map row_span_sum := by
  unfold mark_one
  dsimp only
  split_ifs
  · exact foldl_sums_preserve _ (fun acc k => set_skip_sums acc (r + k + 1) c) _ rows
  · rfl

/-- Helper for C8: the whole skip-marking pass keeps all row totals. -/
lemma mark_skips_sums (rows : List (List SpannedCell)) :
    (mark_skips rows).map row_span_sum = rows.map row_span_sum := by
  unfold mark_skips
  exact foldl_sums_preserve _
    (fun acc r => foldl_sums_preserve _ (fun acc2 c => mark_one_sums acc2 r c) _ acc)
    _ rows

/-- Helper for C8: equal row-total images transport a uniform row total
across two row lists. -/
lemma sums_transfer (n : Nat) (rows rows2 : List (List SpannedCell))
    (hmap : rows2.map row_span_sum = rows.map row_span_sum)
    (hall : ∀ r ∈ rows, row_span_sum r = n) :
    ∀ r ∈ rows2, row_span_sum r = n := by
  intro r hr
  have hm : row_span_sum r ∈ rows2.map row_span_sum :=
    List.mem_map_of_mem row_span_sum hr
  rw [hmap] at hm
  rcases List.mem_map.mp hm with ⟨r0, hr0, he⟩
  rw [← he]
  exact hall r0 hr0

/-- C8: the cells produced by grid-table span inference tile the full column
grid — whenever `detect_spans` succeeds, every parsed row's colspans
(including cells later flagged as covered) sum to the column count, one less
than the number of `+` boundary positions of the first border line. -/
theorem c8_span_tiling (lines : List Str) (col_positions : List Nat)
    (rows : List (List SpannedCell))
    (h : detect_spans lines col_positions = some rows) :
    ∀ row ∈ rows, (row.map SpannedCell.colspan).sum =
      col_positions.length - 1 := by
  rw [detect_spans] at h
  by_cases h1 : col_positions.length ≤ 1
  · rw [if_pos h1] at h
    cases h
    intro row hr
    simp at hr
  · rw [if_neg h1] at h
    dsimp only at h
    by_cases h2 : ((lines.enum.filter
        (fun p => is_grid_border (trim p.2))).map (·.1)).length < 2
    · rw [if_pos h2] at h
      cases h
      intro row hr
      simp at hr
    · rw [if_neg h2] at h
      split at h
      · cases h
      · rename_i rows0 hrows0
        injection h with h3
        subst h3
        exact sums_transfer _ rows0 (mark_skips rows0) (mark_skips_sums rows0)
          (ds_rows_sums lines (col_positions.length - 1) col_positions _ rows0
            hrows0)

/-- C8 witness: the tiling theorem applied to a concrete 2-column grid table
whose second row is a single colspan-2 cell. -/
theorem c8_witness :
    detect_spans
        [rstr "+---+---+", rstr "| a | b |", rstr "+-------+",
         rstr "| ccccc |", rstr "+-------+"]
        (parse_grid_columns (rstr "+---+---+")) =
      some [[SpannedCell.mk (rstr "a") 1 1 false,
             SpannedCell.mk (rstr "b") 1 1 false],
            [SpannedCell.mk (rstr "ccccc") 2 1 false]] ∧
    (∀ row ∈ [[SpannedCell.mk (rstr "a") 1 1 false,
               SpannedCell.mk (rstr "b") 1 1 false],
              [SpannedCell.mk (rstr "ccccc") 2 1 false]],
      (row.map SpannedCell.colspan).sum =
        (parse_grid_columns (rstr "+---+---+")).length - 1) :=
  ⟨by decide,
   c8_span_tiling
     [rstr "+---+---+", rstr "| a | b |", rstr "+-------+",
      rstr "| ccccc |", rstr "+-------+"]
     (parse_grid_columns (rstr "+---+---+"))
     [[SpannedCell.mk (rstr "a") 1 1 false,
       SpannedCell.mk (rstr "b") 1 1 false],
      [SpannedCell.mk (rstr "ccccc") 2 1 false]]
     (by decide)⟩

/-- Spec-side helper for C2: a character that is neither whitespace, nor a
section-adornment character, nor one of the markup-significant characters
(backslash, substitution pipe, option-list slash). -/
def plain_char (c : Char) : Prop :=
  rust_is_whitespace c = false ∧ is_adornment_char c = false ∧
  c ≠ '\\' ∧ c ≠ '|' ∧ c ≠ '/'

/-- Helper for C2: a predicate false on every element leaves `dropWhile`
inert. -/
lemma dropWhile_no_of (p : Char → Bool) (l : Str)
    (h : ∀ c ∈ l, p c = false) : l.dropWhile p = l := by
  cases l with
  | nil => rfl
  | cons x xs =>
    rw [List.dropWhile_cons, h x (List.mem_cons_self x xs)]
    rfl

/-- Helper for C2: a whitespace-free string trims to itself. -/
lemma trim_plain (s : Str) (h : ∀ c ∈ s, rust_is_whitespace c = false) :
    trim s = s := by
  show ((s.dropWhile rust_is_whitespace).reverse.dropWhile
      rust_is_whitespace).reverse = s
  rw [dropWhile_no_of _ s h,
    dropWhile_no_of _ s.reverse (fun c hc => h c (List.mem_reverse.mp hc)),
    List.reverse_reverse]

/-- Helper for C2: a pattern holding an excluded character is not a
prefix. -/
lemma starts_false (s p : Str) (c : Char) (hc : c ∈ p) (hs : c ∉ s) :
    starts_with s p = false := by
  by_contra hx
  rw [Bool.not_eq_false] at hx
  exact hs ((List.isPrefixOf_iff_prefix.mp hx).subset hc)

/-- Helper for C2: a pattern holding an excluded character is not a
suffix. -/
lemma ends_false (s p : Str) (c : Char) (hc : c ∈ p) (hs : c ∉ s) :
    ends_with s p = false := by
  by_contra hx
  rw [Bool.not_eq_false] at hx
  exact hs ((List.isSuffixOf_iff_suffix.mp hx).subset hc)

/-- Helper for C2: the last element is a member. -/
lemma getLast_mem_chr (l : Str) (c : Char) (h : l.getLast? = some c) :
    c ∈ l := by
  induction l with
  | nil => cases h
  | cons x xs ih =>
    cases xs with
    | nil =>
      simp at h
      subst h
      exact List.mem_singleton_self x
    | cons y ys =>
      rw [List.getLast?_cons_cons] at h
      exact List.mem_cons_of_mem x (ih h)

/-- Helper for C2: a newline-free string splits into itself. -/
lemma split_nl_no_nl (s : Str) (h : Char.ofNat 10 ∉ s) : split_nl s = [s] := by
  induction s with
  | nil => rfl
  | cons c rest ih =>
    rw [split_nl,
      if_neg (fun hx => h (by rw [← hx]; exact List.mem_cons_self c rest)),
      ih (fun hm => h (List.mem_cons_of_mem c hm))]

/-- Helper for C2: no trailing carriage return, nothing stripped. -/
lemma strip_cr_plain (s : Str) (h : Char.ofNat 13 ∉ s) : strip_cr s = s := by
  unfold strip_cr
  split
  · rename_i c hc
    rw [if_neg (fun hx => h (by rw [← hx]; exact getLast_mem_chr s c hc))]
  · rfl

/-- Helper for C2: a nonempty single-line string is its own line list. -/
lemma rust_lines_single (s : Str) (hne : s ≠ []) (hnl : Char.ofNat 10 ∉ s)
    (hcr : Char.ofNat 13 ∉ s) : rust_lines s = [s] := by
  have hie : s.isEmpty = false := by
    cases s with
    | nil => exact absurd rfl hne
    | cons x xs => rfl
  unfold rust_lines
  rw [if_neg (by rw [hie]; decide)]
  dsimp only
  rw [if_neg (fun hx => hnl (getLast_mem_chr s _ hx)), split_nl_no_nl s hnl,
    show List.map strip_cr [s] = [strip_cr s] from rfl, strip_cr_plain s hcr]

/-- Helper for C2: membership in the adornment-character list implies the
adornment classifier. -/
lemma adorn_of_contains (c : Char) (h : adornment_chars.contains c = true) :
    is_adornment_char c = true := by
  have hm : c ∈ adornment_chars := List.elem_iff.mp h
  simp only [adornment_chars, List.mem_cons, List.not_mem_nil, or_false] at hm
  rcases hm with rfl | rfl | rfl | rfl | rfl | rfl | rfl | rfl | rfl | rfl |
    rfl | rfl | rfl | rfl <;> rfl

/-- Helper for C2: without a space the parser's enumerated-item test
fails. -/
lemma enum_list_item_false (s : Str) (hsp : ' ' ∉ s) :
    is_enumerated_list_item s = false := by
  unfold is_enumerated_list_item
  split_ifs
  · split
    · apply decide_eq_false
      rintro ⟨-, hg⟩
      exact hsp (List.get?_mem hg)
    · rfl
  · split
    · split_ifs
      · rfl
      · apply decide_eq_false
        rintro ⟨-, hg⟩
        exact hsp (List.get?_mem hg)
      · rfl
    · rfl

/-- Helper for C2: without a space the converter's enumerated-item test
fails. -/
lemma enum_item_false (s : Str) (htrim : trim s = s) (hsp : ' ' ∉ s) :
    is_enumerated_item s = false := by
  unfold is_enumerated_item
  rw [htrim]
  dsimp only
  split_ifs
  · rfl
  · split
    · apply decide_eq_false
      rintro ⟨-, hg⟩
      exact hsp (List.get?_mem hg)
    · rfl
  · split
    · split_ifs
      · rfl
      · apply decide_eq_false
        rintro ⟨-, hg⟩
        exact hsp (List.get?_mem hg)
      · rfl
    · rfl

/-- Helper for C2: a line that starts with neither `-` nor `/` is no option
line. -/
lemma option_line_false (s : Str) (htrim : trim s = s) (hdash : '-' ∉ s)
    (hslash : '/' ∉ s) : is_option_line s = false := by
  unfold is_option_line
  rw [htrim]
  cases s with
  | nil => rfl
  | cons c0 r =>
    dsimp only
    rw [if_neg (by intro hx; subst hx; exact hdash (List.mem_cons_self _ _)),
      if_neg (by intro hx; subst hx; exact hslash (List.mem_cons_self _ _))]

/-- Helper for C2: a plain text line is classified as plain text. -/
lemma classify_plain (s : Str)
    (htrim : trim s = s)
    (hie : s.isEmpty = false)
    (hgt3 : starts_with s (rstr ">>>") = false)
    (hlb : starts_with s (rstr "| ") = false)
    (hpipe1 : s ≠ rstr "|")
    (hpipeP : starts_with s (rstr "|") = false)
    (hcolon2 : s ≠ rstr "::")
    (hplus : starts_with s (rstr "+") = false)
    (hspc : s.contains ' ' = false)
    (hhead : adornment_chars.contains (s.headD ' ') = false)
    (hdot2 : starts_with s (rstr ".. ") = false)
    (hcolon1 : starts_with s (rstr ":") = false)
    (hdash2 : starts_with s (rstr "- ") = false)
    (hstar2 : starts_with s (rstr "* ") = false)
    (hplus2 : starts_with s (rstr "+ ") = false)
    (henum : is_enumerated_list_item s = false)
    (hind : indent_of s = 0) :
    classify_line s = LineType.TextLine := by
  unfold classify_line
  rw [htrim]
  rw [if_neg (show ¬(s.isEmpty = true) from by rw [hie]; decide)]
  rw [if_neg (show ¬(starts_with s (rstr ">>>") = true) from by
    rw [hgt3]; decide)]
  rw [if_neg (show ¬(starts_with s (rstr "| ") = true ∨ s = rstr "|") from by
    rintro (hx | hx)
    · rw [hlb] at hx; cases hx
    · exact hpipe1 hx)]
  rw [if_neg (show ¬(s = rstr "::") from hcolon2)]
  rw [if_neg (show ¬(starts_with s (rstr "+") = true ∧
      (s.contains '-' = true ∨ s.contains '=' = true) ∧
      ends_with s (rstr "+") = true) from by
    rintro ⟨hx, -, -⟩; rw [hplus] at hx; cases hx)]
  rw [if_neg (show ¬(starts_with s (rstr "|") = true ∧
      ends_with s (rstr "|") = true) from by
    rintro ⟨hx, -⟩; rw [hpipeP] at hx; cases hx)]
  rw [if_neg (show ¬(s.all (fun c => c = '=' ∨ c = ' ') = true ∧
      s.contains '=' = true ∧ s.contains ' ' = true) from by
    rintro ⟨-, -, hx⟩; rw [hspc] at hx; cases hx)]
  rw [if_neg (show ¬(4 ≤ utf8_len s ∧
      adornment_chars.contains (s.headD ' ') = true ∧
      s.all (fun c => c = s.headD ' ') = true) from by
    rintro ⟨-, hx, -⟩; rw [hhead] at hx; cases hx)]
  rw [if_neg (show ¬(starts_with s (rstr ".. ") = true) from by
    rw [hdot2]; decide)]
  rw [if_neg (show ¬(starts_with s (rstr ":") = true ∧
      ¬starts_with s (rstr "::") = true) from by
    rintro ⟨hx, -⟩; rw [hcolon1] at hx; cases hx)]
  rw [if_neg (show ¬((starts_with s (rstr "- ") = true ∨
      starts_with s (rstr "* ") = true ∨
      starts_with s (rstr "+ ") = true) ∧ 2 < utf8_len s) from by
    rintro ⟨hx | hx | hx, -⟩
    · rw [hdash2] at hx; cases hx
    · rw [hstar2] at hx; cases hx
    · rw [hplus2] at hx; cases hx)]
  rw [if_neg (show ¬(is_enumerated_list_item s = true) from by
    rw [henum]; decide)]
  rw [if_neg (show ¬(0 < indent_of s ∧ starts_with s (rstr ":") = true) from by
    rintro ⟨hx, -⟩; rw [hind] at hx; omega)]
  rw [if_neg (show ¬(0 < indent_of s) from by rw [hind]; omega)]

/-- Helper for C2: a plain text line is not a section adornment. -/
lemma section_adorn_false (s : Str)
    (hcl : ∀ a, classify_line s ≠ LineType.SectionAdornment a)
    (hadorn : ∀ c ∈ s, is_adornment_char c = false) :
    is_section_adornment s = false := by
  unfold is_section_adornment
  split_ifs
  · rfl
  · apply decide_eq_false
    rintro (hx | ⟨-, hx⟩)
    · exact hcl _ hx
    · cases s with
      | nil => exact absurd hx (by decide)
      | cons c0 r =>
        have := hadorn c0 (List.mem_cons_self c0 r)
        rw [show (c0 :: r).headD ' ' = c0 from rfl] at hx
        rw [this] at hx
        cases hx

/-- Helper for C2: a space-free line is no simple-table border. -/
lemma simple_border_false (s : Str) (htrim : trim s = s)
    (hspc : s.contains ' ' = false) : is_simple_table_border s = false := by
  unfold is_simple_table_border
  rw [htrim]
  dsimp only
  apply decide_eq_false
  rintro ⟨-, -, -, hx⟩
  rw [hspc] at hx
  cases hx

/-- Helper for C2: an in-range default read of a character list is one of
its members. -/
lemma getD_mem_chr (l : Str) (i : Nat) (h : i < l.length) :
    l.getD i ' ' ∈ l := by
  rw [List.getD_eq_getElem l ' ' h]
  exact List.getElem_mem h

/-- Helper for C2: on plain characters the inline engine reduces to plain
entity escaping. -/
lemma pi_go_plain (chars : Str) (hplain : ∀ c ∈ chars, plain_char c) :
    ∀ (fuel i : Nat), chars.length - i < fuel →
      pi_go fuel chars i = some (escape_html (chars.drop i)) := by
  intro fuel
  induction fuel with
  | zero => intro i h; omega
  | succ n ih =>
    intro i h
    rw [pi_go]
    by_cases hi : i < chars.length
    · have hc : chars.getD i ' ' ∈ chars := getD_mem_chr chars i hi
      obtain ⟨hws, had, hbs, hpipe, hsl⟩ := hplain _ hc
      have hdrop : chars.drop i = chars.getD i ' ' :: chars.drop (i + 1) := by
        rw [List.getD_eq_getElem chars ' ' hi]
        exact List.drop_eq_getElem_cons hi
      rw [if_pos hi]
      dsimp only
      rw [if_neg (fun hx => hbs hx.1)]
      rw [dif_neg (by
        rintro ⟨-, hx, -, -⟩; rw [hx] at had; exact absurd had (by decide))]
      rw [dif_neg (by
        rintro ⟨hx, -⟩; rw [hx] at had; exact absurd had (by decide))]
      rw [dif_neg (by
        rintro ⟨-, hx, -, -, -, -⟩; rw [hx] at had; exact absurd had (by decide))]
      rw [dif_neg (by
        rintro ⟨-, hx, -, -, -⟩; rw [hx] at had; exact absurd had (by decide))]
      rw [dif_neg (by
        rintro ⟨hx, -, -⟩; rw [hx] at had; exact absurd had (by decide))]
      rw [dif_neg (by
        rintro ⟨hx, -⟩; rw [hx] at had; exact absurd had (by decide))]
      rw [dif_neg (by rintro ⟨hx, -⟩; exact hpipe hx)]
      rw [ih (i + 1) (by omega)]
      rw [hdrop, escape_html]
      by_cases hamp : chars.getD i ' ' = '&'
      · simp only [if_pos hamp]
        rfl
      · have hlt : chars.getD i ' ' ≠ '<' := fun hx => by
          rw [hx] at had; exact absurd had (by decide)
        have hgt : chars.getD i ' ' ≠ '>' := fun hx => by
          rw [hx] at had; exact absurd had (by decide)
        have hdq : chars.getD i ' ' ≠ dq := fun hx => by
          rw [hx] at had; exact absurd had (by decide)
        simp only [if_neg hamp, if_neg hlt, if_neg hgt, if_neg hdq]
        rfl
    · rw [if_neg hi, List.drop_eq_nil_of_le (by omega)]
      rfl

/-- Helper for C2: processing plain inline text is plain entity escaping. -/
lemma process_inline_plain (s : Str) (hplain : ∀ c ∈ s, plain_char c) :
    process_inline s = escape_html s := by
  unfold process_inline
  rw [pi_go_plain s hplain (s.length + 1) 0 (by omega), List.drop_zero]
  rfl

/-- Helper for C2: an `if` whose first conjunct fails takes the else
branch. -/
lemma ite_and1_false {α : Sort _} (R : Prop) (hr : ¬R) (P : Prop)
    [Decidable (R ∧ P)] (x y : α) : (if R ∧ P then x else y) = y := by
  apply if_neg
  rintro ⟨hx, -⟩
  exact hr hx

/-- Helper for C2: an `if` whose second conjunct fails takes the else
branch. -/
lemma ite_and2_false {α : Sort _} (Q R : Prop) (hr : ¬R) (P : Prop)
    [Decidable (Q ∧ R ∧ P)] (x y : α) : (if Q ∧ R ∧ P then x else y) = y := by
  apply if_neg
  rintro ⟨-, hx, -⟩
  exact hr hx

/-- Helper for C2: an `if` over a two-part conjunction whose second conjunct
fails takes the else branch. -/
lemma ite_and2b_false {α : Sort _} (Q R : Prop) (hr : ¬R) [Decidable (Q ∧ R)]
    (x y : α) : (if Q ∧ R then x else y) = y := by
  apply if_neg
  rintro ⟨-, hx⟩
  exact hr hx

/-- Helper for C2: paragraph collection of a plain single line yields the
line itself and stops after it. -/
lemma collect_paragraph_plain (s : Str) (htrim : trim s = s)
    (hie : s.isEmpty = false) : collect_paragraph [s] 0 = (s, 1) := by
  unfold collect_paragraph
  rw [cp_go]
  rw [if_pos (show (0 : Nat) < [s].length from by simp)]
  dsimp only
  rw [show List.getD [s] 0 ([] : Str) = s from rfl, htrim]
  rw [if_neg (show ¬(s.isEmpty = true) from by rw [hie]; decide)]
  rw [ite_and2b_false _ _ (show ¬(¬List.isEmpty ([] : List Str) = true) from
    fun hx => hx rfl) _ _]
  rw [ite_and1_false _ (show ¬(¬List.isEmpty ([] : List Str) = true) from
    fun hx => hx rfl) _ _ _]
  rw [ite_and2b_false _ _ (show ¬(¬List.isEmpty ([] : List Str) = true) from
    fun hx => hx rfl) _ _]
  rw [show List.length [s] = 0 + 1 from rfl, cp_go]
  rw [if_neg (show ¬(0 + 1 < [s].length) from by simp)]
  show (join_with (rstr " ") [s], 1) = (s, 1)
  rw [show join_with (rstr " ") [s] = s from by simp [join_with, List.intercalate]]

/-- Helper for C2: the first pass over one plain line does not touch the
state. -/
lemma fp_plain (s : Str) (hdot : starts_with (trim s) (rstr ".. ") = false) :
    first_pass [s] converter_state_new = converter_state_new := by
  show fp_go [s] (List.length [s] + 1) 0 converter_state_new = converter_state_new
  rw [fp_go]
  rw [if_pos (show (0 : Nat) < [s].length from by simp)]
  dsimp only
  rw [ite_and1_false _ (show ¬(0 + 1 < [s].length) from by simp) _ _ _]
  rw [ite_and1_false _ (show ¬(0 + 2 < [s].length) from by simp) _ _ _]
  rw [show List.getD [s] 0 ([] : Str) = s from rfl]
  rw [if_neg (show ¬(starts_with (trim s) (rstr ".. ") = true) from by
    rw [hdot]; decide)]
  rw [fp_go_stop _ _ _ _ (by simp)]

/-- Helper for C2: the second-pass loop is done once the index is out of
range. -/
lemma sp_go_stop (recur : Str → Option Str) (lines : List Str) (fuel i : Nat)
    (st : ConverterState) (counters : List Nat) (h : ¬ i < lines.length) :
    sp_go recur lines (fuel + 1) i st counters = some ([], st) := by
  rw [sp_go, if_neg h]

/-- Helper for C2: on one plain nonempty line the second-pass dispatch takes
the paragraph branch and emits exactly one paragraph. -/
lemma sp_go_plain (recur : Str → Option Str) (s : Str) (st : ConverterState)
    (counters : List Nat) (fuel : Nat)
    (htrim : trim s = s) (hie : s.isEmpty = false)
    (hsec : is_section_adornment s = false)
    (hsimple : is_simple_table_border s = false)
    (hplusP : starts_with s (rstr "+") = false)
    (hdot2 : starts_with s (rstr ".. ") = false)
    (hcolon2 : s ≠ rstr "::")
    (hgt3 : starts_with s (rstr ">>>") = false)
    (hlb : starts_with s (rstr "| ") = false)
    (hpipe1 : s ≠ rstr "|")
    (henum : is_enumerated_item s = false)
    (hcolon1 : starts_with s (rstr ":") = false)
    (hdash2 : starts_with s (rstr "- ") = false)
    (hstar2 : starts_with s (rstr "* ") = false)
    (hplus2 : starts_with s (rstr "+ ") = false)
    (hopt : is_option_line s = false)
    (hends : ends_with s (rstr "::") = false)
    (hpara : collect_paragraph [s] 0 = (s, 1)) :
    sp_go recur [s] (fuel + 1 + 1) 0 st counters =
      some (rstr "<p>" ++ process_inline s ++ rstr "</p>\n", st) := by
  rw [sp_go]
  rw [if_pos (show (0 : Nat) < [s].length from by simp)]
  rw [show List.getD [s] 0 ([] : Str) = s from rfl, htrim]
  rw [if_neg (show ¬(s.isEmpty = true) from by rw [hie]; decide)]
  rw [ite_and1_false _ (show ¬(0 + 1 < [s].length) from by simp) _ _ _]
  rw [ite_and1_false _ (show ¬(0 + 2 < [s].length) from by simp) _ _ _]
  rw [ite_and2_false _ _ (show ¬(is_section_adornment s = true) from by
    rw [hsec]; decide) _ _ _]
  rw [ite_and1_false _ (show ¬(is_simple_table_border s = true) from by
    rw [hsimple]; decide) _ _ _]
  rw [ite_and1_false _ (show ¬(starts_with s (rstr "+") = true) from by
    rw [hplusP]; decide) _ _ _]
  rw [if_neg (show ¬(starts_with s (rstr ".. ") = true) from by
    rw [hdot2]; decide)]
  rw [if_neg (show ¬(s = rstr "::") from hcolon2)]
  rw [if_neg (show ¬(starts_with s (rstr ">>>") = true) from by
    rw [hgt3]; decide)]
  rw [if_neg (show ¬(starts_with s (rstr "| ") = true ∨ s = rstr "|") from by
    rintro (hx | hx)
    · rw [hlb] at hx; cases hx
    · exact hpipe1 hx)]
  rw [ite_and1_false _ (show ¬(starts_with s (rstr "- ") = true ∨
      starts_with s (rstr "* ") = true ∨
      starts_with s (rstr "+ ") = true) from by
    rintro (hx | hx | hx)
    · rw [hdash2] at hx; cases hx
    · rw [hstar2] at hx; cases hx
    · rw [hplus2] at hx; cases hx) _ _ _]
  rw [if_neg (show ¬(is_enumerated_item s = true) from by rw [henum]; decide)]
  rw [ite_and1_false _ (show ¬(starts_with s (rstr ":") = true) from by
    rw [hcolon1]; decide) _ _ _]
  rw [ite_and2_false _ _ (show ¬(0 + 1 < [s].length) from by simp) _ _ _]
  rw [ite_and1_false _ (show ¬(is_option_line s = true) from by
    rw [hopt]; decide) _ _ _]
  rw [hpara]
  rw [show ((s, 1) : Str × Nat).1 = s from rfl,
    show ((s, 1) : Str × Nat).2 = 1 from rfl]
  rw [if_pos (show ¬(s.isEmpty = true) from by rw [hie]; decide)]
  rw [if_neg (show ¬(ends_with s (rstr "::") = true) from by
    rw [hends]; decide)]
  rw [sp_go_stop recur [s] fuel 1 st counters (by simp)]
  simp [emit2]

instance plain_char_decidable : DecidablePred plain_char := fun c => by
  unfold plain_char
  infer_instance

/-- C2: the claim quantifies over every string without backslash or
markup-significant characters; the empty string satisfies that hypothesis
vacuously, yet `convert` returns the empty string for it, not an empty
paragraph. -/
theorem c2_counterexample :
    (∀ c ∈ ([] : Str), plain_char c) ∧
    convert ([] : Str) = some [] ∧
    some ([] : Str) ≠ some (rstr "<p>" ++ escape_html [] ++ rstr "</p>\n") := by
  refine ⟨by decide, by decide, by decide⟩

/-- C2 (amended): for every nonempty string all of whose characters are
plain — not whitespace, not a section-adornment character, and not
backslash, pipe or slash — `convert` yields exactly one paragraph holding
the entity-escaped text. -/
theorem c2_amended (s : Str) (hne : s ≠ [])
    (hplain : ∀ c ∈ s, plain_char c) :
    convert s = some (rstr "<p>" ++ escape_html s ++ rstr "</p>\n") := by
  have hws : ∀ c ∈ s, rust_is_whitespace c = false := fun c hc => (hplain c hc).1
  have had : ∀ c ∈ s, is_adornment_char c = false := fun c hc => (hplain c hc).2.1
  have hnm : ∀ c, rust_is_whitespace c = true → c ∉ s := fun c hw hm => by
    rw [hws c hm] at hw; cases hw
  have hna : ∀ c, is_adornment_char c = true → c ∉ s := fun c ha hm => by
    rw [had c hm] at ha; cases ha
  have hsp : ' ' ∉ s := hnm ' ' (by decide)
  have hnl : Char.ofNat 10 ∉ s := hnm _ (by decide)
  have hcr : Char.ofNat 13 ∉ s := hnm _ (by decide)
  have hpipem : '|' ∉ s := fun hm => (hplain _ hm).2.2.2.1 rfl
  have hslashm : '/' ∉ s := fun hm => (hplain _ hm).2.2.2.2 rfl
  have hcolonm : ':' ∉ s := hna ':' (by decide)
  have hplusm : '+' ∉ s := hna '+' (by decide)
  have hdashm : '-' ∉ s := hna '-' (by decide)
  have hstarm : '*' ∉ s := hna '*' (by decide)
  have hgtm : '>' ∉ s := hna '>' (by decide)
  have htrim : trim s = s := trim_plain s hws
  have hie : s.isEmpty = false := by
    cases s with
    | nil => exact absurd rfl hne
    | cons x xs => rfl
  have hgt3 : starts_with s (rstr ">>>") = false :=
    starts_false s _ '>' (by decide) hgtm
  have hlb : starts_with s (rstr "| ") = false :=
    starts_false s _ '|' (by decide) hpipem
  have hpipe1 : s ≠ rstr "|" := fun he => hpipem (by rw [he]; decide)
  have hpipeP : starts_with s (rstr "|") = false :=
    starts_false s _ '|' (by decide) hpipem
  have hcolon2 : s ≠ rstr "::" := fun he => hcolonm (by rw [he]; decide)
  have hplusP : starts_with s (rstr "+") = false :=
    starts_false s _ '+' (by decide) hplusm
  have hspc : s.contains ' ' = false := by
    by_contra hx
    rw [Bool.not_eq_false] at hx
    exact hsp (List.elem_iff.mp hx)
  have hhead : adornment_chars.contains (s.headD ' ') = false := by
    by_contra hx
    rw [Bool.not_eq_false] at hx
    have hy := adorn_of_contains _ hx
    cases s with
    | nil => exact absurd hy (by decide)
    | cons c0 r => exact (hna _ hy) (List.mem_cons_self c0 r)
  have hdot2 : starts_with s (rstr ".. ") = false :=
    starts_false s _ ' ' (by decide) hsp
  have hcolon1 : starts_with s (rstr ":") = false :=
    starts_false s _ ':' (by decide) hcolonm
  have hdash2 : starts_with s (rstr "- ") = false :=
    starts_false s _ '-' (by decide) hdashm
  have hstar2 : starts_with s (rstr "* ") = false :=
    starts_false s _ '*' (by decide) hstarm
  have hplus2 : starts_with s (rstr "+ ") = false :=
    starts_false s _ '+' (by decide) hplusm
  have henumL : is_enumerated_list_item s = false := enum_list_item_false s hsp
  have hind : indent_of s = 0 := by
    unfold indent_of
    rw [show trim_start s = s from dropWhile_no_of _ s hws]
    omega
  have hcl : classify_line s = LineType.TextLine :=
    classify_plain s htrim hie hgt3 hlb hpipe1 hpipeP hcolon2 hplusP hspc
      hhead hdot2 hcolon1 hdash2 hstar2 hplus2 henumL hind
  have hsec : is_section_adornment s = false :=
    section_adorn_false s
      (fun a hx => by rw [hcl] at hx; exact LineType.noConfusion hx) had
  have hsimple : is_simple_table_border s = false :=
    simple_border_false s htrim hspc
  have henum : is_enumerated_item s = false := enum_item_false s htrim hsp
  have hopt : is_option_line s = false := option_line_false s htrim hdashm hslashm
  have hends : ends_with s (rstr "::") = false :=
    ends_false s _ ':' (by decide) hcolonm
  have hpara : collect_paragraph [s] 0 = (s, 1) :=
    collect_paragraph_plain s htrim hie
  have hlines : rust_lines s = [s] := rust_lines_single s hne hnl hcr
  have hdotT : starts_with (trim s) (rstr ".. ") = false := by
    rw [htrim]; exact hdot2
  have hfp : first_pass [s] converter_state_new = converter_state_new :=
    fp_plain s hdotT
  have hsp2 : sp_go (convert_rst_content_fuel (s.length + 2)) [s]
      ([s].length + 1 + 1) 0 converter_state_new (List.replicate 7 0) =
      some (rstr "<p>" ++ process_inline s ++ rstr "</p>\n",
        converter_state_new) :=
    sp_go_plain _ s _ _ [s].length htrim hie hsec hsimple hplusP hdot2
      hcolon2 hgt3 hlb hpipe1 henum hcolon1 hdash2 hstar2 hplus2 hopt hends
      hpara
  show convert_with_options s = _
  unfold convert_with_options second_pass second_pass_with
  dsimp only
  rw [hlines, hfp]
  rw [show (List.length [s] + 2 : Nat) = List.length [s] + 1 + 1 from rfl]
  rw [hsp2, process_inline_plain s hplain]
  dsimp only
  rw [show converter_state_new.header_content = (none : Option Str) from rfl,
    show converter_state_new.footer_content = (none : Option Str) from rfl]
  dsimp only
  rw [List.nil_append, List.append_nil]
  rfl

/-- C2 witness: the amended theorem applied at the concrete plain string
`He&Me`, whose ampersand is entity-escaped inside one paragraph. -/
theorem c2_witness : convert (rstr "He&Me") =
    some (rstr "<p>He&amp;Me</p>\n") := by
  have h := c2_amended (rstr "He&Me") (by decide) (by decide)
  rw [h]
  decide

end Rst
